import Mathlib

/-!
# libwinservice: the message channel (`IPCController`)

A shallow embedding of `src/src/libwinservice_ipc.cpp` and
`src/include/libwinservice_ipc.h`.

* A `std::string` is a Lean `String`, one `Char` standing for one `char`; its
  `size()` is `String.length`.
* A `std::queue<std::string>` is a `List Msg`: `emplace` appends at the back,
  `front` is the head, `pop` drops the head.
* The Win32 calls the channel makes (`CreateMailslot`, `CreateFile`,
  `CloseHandle`, `GetMailslotInfo`, `ReadFile`, `WriteFile`, `Sleep`,
  `GetLastError`) are the
  fields of a record `Win32 ω` over an arbitrary world type `ω`; every member
  function takes the record and threads the world through.
* The channel is run in two ways. `runOps` runs public operations and whole iterations of
  the pump's loop one after the other: the executions in which the caller's thread moves
  only while the pump thread stands at its loop test. `Channel.run` runs the pump thread
  statement by statement beside the caller's thread, whose public operations are one step
  each, and beside other processes.
-/

namespace LibWinService

/-! ## Basic types and constants -/

/-- A `std::string` holding a message. -/
abbrev Msg := String

/-- A Win32 `DWORD`, kept as a natural number. -/
abbrev DWORD := Nat

/-- A Win32 `HANDLE`: `none` is `INVALID_HANDLE_VALUE`, `some h` an ordinary handle value. -/
abbrev HANDLE := Option Nat

/-- The constant `INVALID_HANDLE_VALUE`. -/
def INVALID_HANDLE_VALUE : HANDLE := none

/-- The macro `IPC_MAILSLOT_HEADER` of `libwinservice_ipc.h`, i.e. the text `\\.\mailslot\`. -/
def IPC_MAILSLOT_HEADER : String := "\\\\.\\mailslot\\"

/-- The constant `BUFSIZE` of `libwinservice_ipc.h`: the size of the scratch buffer `cacheBuf`. -/
def BUFSIZE : Nat := 4096

/-- The Win32 constant `MAILSLOT_NO_MESSAGE`, `(DWORD)-1`. -/
def MAILSLOT_NO_MESSAGE : DWORD := 4294967295

/-- Number of values of a `size_t` (64-bit build): `error_count++` wraps at this modulus. -/
def SIZE_MOD : Nat := 2 ^ 64

/-- The conversion `DWORD -> int` done by `last_error = GetLastError()`. -/
def dwordToInt (e : DWORD) : Int :=
  if e % 2 ^ 32 < 2 ^ 31 then ((e % 2 ^ 32 : Nat) : Int) else ((e % 2 ^ 32 : Nat) : Int) - 2 ^ 32

/-! ## The Win32 interface -/

/-- Outcome of `ReadFile`: the call fails (returns zero), succeeds with the bytes it stored in
the buffer (their number is the C out-parameter `bytes`), or never returns (a read that blocks
for ever). -/
inductive ReadResult where
  | failed
  | ok (data : Msg)
  | blocks
  deriving DecidableEq, Repr

/-- The Win32 calls made by the channel, each taking the world and returning the world
afterwards. A call that can fail returns `none` on failure (for `CreateMailslot` and
`CreateFile` the C call then returns `INVALID_HANDLE_VALUE`, for the others zero).

* `CreateMailslot name` and `CreateFile name` return the new handle.
* `GetMailslotInfo h` returns the pair written through its third and fourth argument, which
  Win32 names `lpNextSize` and `lpMessageCount`.
* `ReadFile h cap n` reads into a buffer of `cap` bytes and asks for at most `n` bytes.
* `WriteFile h data` writes the bytes of `data` as one message; `true` is success.
* `GetLastError` is the calling thread's last-error code. -/
structure Win32 (ω : Type) where
  CreateMailslot : String → ω → Option Nat × ω
  CreateFile : String → ω → Option Nat × ω
  CloseHandle : HANDLE → ω → ω
  GetMailslotInfo : HANDLE → ω → Option (DWORD × DWORD) × ω
  ReadFile : HANDLE → Nat → DWORD → ω → ReadResult × ω
  WriteFile : HANDLE → Msg → ω → Bool × ω
  Sleep : DWORD → ω → ω
  GetLastError : ω → DWORD

/-! ## The channel state -/

/-- The data members of `class IPCController` (the thread object, the two mutexes and the
security attribute apart). -/
structure IPCController where
  mailslot_in_str : String
  mailslot_out_str : String
  mailslot_in : HANDLE
  mailslot_out : HANDLE
  ipc_valid : Bool
  ipc_valid_inbox : Bool
  ipc_valid_outbox : Bool
  ipc_running : Bool
  ipc_inbox_enabled : Bool
  ipc_outbox_enabled : Bool
  last_error : Int
  error_count : Nat
  outgoing_messages : List Msg
  incoming_messages : List Msg
  deriving DecidableEq, Repr

/-- The member initialisers of the default constructor `IPCController::IPCController()`. -/
def IPCController.default : IPCController where
  mailslot_in_str := ""
  mailslot_out_str := ""
  mailslot_in := INVALID_HANDLE_VALUE
  mailslot_out := INVALID_HANDLE_VALUE
  ipc_valid := false
  ipc_valid_inbox := false
  ipc_valid_outbox := false
  ipc_running := false
  ipc_inbox_enabled := false
  ipc_outbox_enabled := false
  last_error := 0
  error_count := 0
  outgoing_messages := []
  incoming_messages := []

variable {ω : Type}

/-- Embedding of `IPCController::IPCReportError`. -/
def IPCReportError (os : Win32 ω) (s : IPCController) (w : ω) : IPCController :=
  { s with last_error := dwordToInt (os.GetLastError w),
           error_count := (s.error_count + 1) % SIZE_MOD }

/-- Embedding of `IPCController::InitializeInbox`. -/
def InitializeInbox (os : Win32 ω) (id_inbox : String) (s : IPCController) (w : ω) :
    Bool × IPCController × ω :=
  let (s, w) :=
    if s.ipc_valid_inbox then
      ({ s with mailslot_in := INVALID_HANDLE_VALUE, ipc_valid_inbox := false },
        os.CloseHandle s.mailslot_in w)
    else (s, w)
  let s := if !id_inbox.isEmpty then { s with mailslot_in_str := IPC_MAILSLOT_HEADER ++ id_inbox }
    else s
  let s := { s with ipc_inbox_enabled := true }
  match os.CreateMailslot s.mailslot_in_str w with
  | (none, w) => (false, IPCReportError os { s with mailslot_in := INVALID_HANDLE_VALUE } w, w)
  | (some h, w) => (true, { s with mailslot_in := some h, ipc_valid_inbox := true, ipc_valid := true }, w)

/-- Embedding of `IPCController::InitializeOutbox`. -/
def InitializeOutbox (os : Win32 ω) (id_outbox : String) (s : IPCController) (w : ω) :
    Bool × IPCController × ω :=
  let (s, w) :=
    if s.ipc_valid_outbox then
      ({ s with mailslot_out := INVALID_HANDLE_VALUE, ipc_valid_outbox := false },
        os.CloseHandle s.mailslot_out w)
    else (s, w)
  let s := if !id_outbox.isEmpty then { s with mailslot_out_str := IPC_MAILSLOT_HEADER ++ id_outbox }
    else s
  let s := { s with ipc_outbox_enabled := true }
  match os.CreateFile s.mailslot_out_str w with
  | (none, w) => (false, IPCReportError os { s with mailslot_out := INVALID_HANDLE_VALUE } w, w)
  | (some h, w) => (true, { s with mailslot_out := some h, ipc_valid_outbox := true, ipc_valid := true }, w)

/-- Embedding of `IPCController::Initialize`: `InitializeInbox(id_inbox) && InitializeOutbox(id_outbox)`,
the second call made only when the first returned true. -/
def Initialize (os : Win32 ω) (id_inbox id_outbox : String) (s : IPCController) (w : ω) :
    Bool × IPCController × ω :=
  match InitializeInbox os id_inbox s w with
  | (true, s, w) => InitializeOutbox os id_outbox s w
  | (false, s, w) => (false, s, w)

/-- Embedding of `IPCController::DisableInbox`. -/
def DisableInbox (os : Win32 ω) (s : IPCController) (w : ω) : IPCController × ω :=
  let (s, w) :=
    if s.ipc_valid_inbox then
      ({ s with mailslot_in := INVALID_HANDLE_VALUE, ipc_valid_inbox := false },
        os.CloseHandle s.mailslot_in w)
    else (s, w)
  ({ s with ipc_inbox_enabled := false }, w)

/-- Embedding of `IPCController::DisableOutbox`. -/
def DisableOutbox (os : Win32 ω) (s : IPCController) (w : ω) : IPCController × ω :=
  let (s, w) :=
    if s.ipc_valid_outbox then
      ({ s with mailslot_out := INVALID_HANDLE_VALUE, ipc_valid_outbox := false },
        os.CloseHandle s.mailslot_out w)
    else (s, w)
  ({ s with ipc_outbox_enabled := false }, w)

/-- Embedding of `IPCController::ClearSend`. -/
def ClearSend (s : IPCController) : IPCController := { s with outgoing_messages := [] }

/-- Embedding of `IPCController::ClearReceive`. -/
def ClearReceive (s : IPCController) : IPCController := { s with incoming_messages := [] }

/-- Embedding of `IPCController::Reset`. -/
def Reset (os : Win32 ω) (s : IPCController) (w : ω) : IPCController × ω :=
  let (s, w) := DisableInbox os s w
  let (s, w) := DisableOutbox os s w
  let s := ClearSend s
  let s := ClearReceive s
  ({ s with
      ipc_valid := false, ipc_valid_inbox := false, ipc_valid_outbox := false,
      last_error := 0, error_count := 0,
      ipc_inbox_enabled := false, ipc_outbox_enabled := false }, w)

/-- Embedding of `IPCController::Send`: the returned boolean and the state afterwards. -/
def Send (data : Msg) (s : IPCController) : Bool × IPCController :=
  if !s.ipc_valid then (false, s)
  else (true, { s with outgoing_messages := s.outgoing_messages ++ [data] })

/-- Embedding of `IPCController::Receive`: the returned boolean, the out-parameter `data` afterwards (its
value before the call is the argument `data`) and the state afterwards. -/
def Receive (data : Msg) (s : IPCController) : Bool × Msg × IPCController :=
  if !s.ipc_valid || s.incoming_messages.isEmpty then (false, data, s)
  else
    match s.incoming_messages with
    | [] => (false, data, s)
    | front :: rest => (true, front, { s with incoming_messages := rest })

/-- Embedding of `IPCController::Peek`: as `Receive`, without the `pop`. -/
def Peek (data : Msg) (s : IPCController) : Bool × Msg × IPCController :=
  if !s.ipc_valid || s.incoming_messages.isEmpty then (false, data, s)
  else
    match s.incoming_messages with
    | [] => (false, data, s)
    | front :: _ => (true, front, s)

/-- The name `InitializeInbox(id_inbox)` passes to `CreateMailslot`. -/
def inboxName (id_inbox : String) (s : IPCController) : String :=
  if !id_inbox.isEmpty then IPC_MAILSLOT_HEADER ++ id_inbox else s.mailslot_in_str

/-- The name `InitializeOutbox(id_outbox)` passes to `CreateFile`. -/
def outboxName (id_outbox : String) (s : IPCController) : String :=
  if !id_outbox.isEmpty then IPC_MAILSLOT_HEADER ++ id_outbox else s.mailslot_out_str

/-- The world in which `InitializeInbox` makes its `CreateMailslot` call. -/
def worldAtInboxBind (os : Win32 ω) (s : IPCController) (w : ω) : ω :=
  if s.ipc_valid_inbox then os.CloseHandle s.mailslot_in w else w

/-- The world in which `InitializeOutbox` makes its `CreateFile` call. -/
def worldAtOutboxBind (os : Win32 ω) (s : IPCController) (w : ω) : ω :=
  if s.ipc_valid_outbox then os.CloseHandle s.mailslot_out w else w

/-! ## The pump -/

/-- The `for` loop of `IPCController::IPCWriteData`, entered with the queue `q` (kept equal to
`s.outgoing_messages`). The loop writes through `data`, a reference bound once, by the
for-init, to the element that is the front at loop entry: `payload` is what a read through
`data` yields now, `staleVal` what it yields once that element has been popped. -/
def IPCWriteData.loop (os : Win32 ω) (staleVal : Msg) :
    Msg → List Msg → IPCController → ω → Bool × IPCController × ω
  | _, [], s, w => (true, s, w)
  | payload, _ :: rest, s, w =>
    match os.WriteFile s.mailslot_out payload w with
    | (false, w) => (false, { IPCReportError os s w with ipc_valid_outbox := false }, w)
    | (true, w) => IPCWriteData.loop os staleVal staleVal rest { s with outgoing_messages := rest } w

/-- Embedding of `IPCController::IPCWriteData`. The element `data` refers to is destroyed by the first
`pop`; `stale m` is what a read of the destroyed `std::string` that held `m` yields. -/
def IPCWriteData (os : Win32 ω) (stale : Msg → Msg) (s : IPCController) (w : ω) :
    Bool × IPCController × ω :=
  if !s.ipc_valid_outbox || s.outgoing_messages.isEmpty then (false, s, w)
  else
    match s.outgoing_messages with
    | [] => (false, s, w)
    | front :: rest => IPCWriteData.loop os (stale front) front (front :: rest) s w

/-- The inner `do ... while(totalBytes < szMsg)` loop of `IPCController::IPCReadData`, reading
with the handle `h`. Result: `none` when the loop does not finish (a read blocks, or the fuel
is used up); otherwise the world afterwards and `none` for the two `return false` exits, or
`some msg` with `msg` the contents of `msgCache` on normal exit. -/
def IPCReadData.inner (os : Win32 ω) (h : HANDLE) (szNextMsg szMsg : DWORD) :
    Nat → DWORD → DWORD → Msg → ω → Option (Option Msg × ω)
  | 0, _, _, _, _ => none
  | fuel + 1, totalBytes, retryCount, msgCache, w =>
    let cap := if szNextMsg > BUFSIZE then szNextMsg else BUFSIZE
    match os.ReadFile h cap szNextMsg w with
    | (.blocks, _) => none
    | (.failed, w) => some (none, w)
    | (.ok data, w) =>
      if data.length = 0 then
        if retryCount - 1 = 0 then some (none, w)
        else
          let w := os.Sleep 100 w
          if totalBytes < szMsg then
            IPCReadData.inner os h szNextMsg szMsg fuel totalBytes (retryCount - 1) msgCache w
          else some (some msgCache, w)
      else
        let msgCache := msgCache ++ data
        let totalBytes := (totalBytes + data.length) % 2 ^ 32
        if totalBytes < szMsg then
          IPCReadData.inner os h szNextMsg szMsg fuel totalBytes retryCount msgCache w
        else some (some msgCache, w)

/-- The outer `while(szMsg != 0)` loop of `IPCController::IPCReadData` and the final
`return true`; `none` when the loop does not finish within the fuel. -/
def IPCReadData.outer (os : Win32 ω) :
    Nat → DWORD → DWORD → IPCController → ω → Option (Bool × IPCController × ω)
  | 0, _, _, _, _ => none
  | fuel + 1, szNextMsg, szMsg, s, w =>
    if szMsg = 0 then some (true, s, w)
    else
      match IPCReadData.inner os s.mailslot_in szNextMsg szMsg fuel 0 4 "" w with
      | none => none
      | some (none, w) => some (false, IPCReportError os s w, w)
      | some (some msg, w) =>
        let s := { s with incoming_messages := s.incoming_messages ++ [msg] }
        match os.GetMailslotInfo s.mailslot_in w with
        | (none, w) => some (false, { IPCReportError os s w with ipc_valid_inbox := false }, w)
        | (some (szNextMsg, szMsg), w) =>
          if szNextMsg = MAILSLOT_NO_MESSAGE then some (true, s, w)
          else IPCReadData.outer os fuel szNextMsg szMsg s w

/-- Embedding of `IPCController::IPCReadData`; `none` when the call does not return within the fuel. -/
def IPCReadData (os : Win32 ω) (fuel : Nat) (s : IPCController) (w : ω) :
    Option (Bool × IPCController × ω) :=
  if !s.ipc_valid_inbox then some (false, s, w)
  else
    match os.GetMailslotInfo s.mailslot_in w with
    | (none, w) => some (false, IPCReportError os s w, w)
    | (some (szNextMsg, szMsg), w) =>
      if szNextMsg = MAILSLOT_NO_MESSAGE then some (false, s, w)
      else IPCReadData.outer os fuel szNextMsg szMsg s w

/-- The inbox half of one iteration of the `while(ipc_running)` loop of
`IPCController::IPCHandle`. -/
def IPCHandle.inboxStep (os : Win32 ω) (fuel : Nat) (s : IPCController) (w : ω) :
    Option (IPCController × ω) :=
  if s.ipc_inbox_enabled then
    let (s, w) :=
      if !s.ipc_valid_inbox then
        match InitializeInbox os "" s w with
        | (false, s, w) => (s, os.Sleep 100 w)
        | (true, s, w) => (s, w)
      else (s, w)
    match IPCReadData os fuel s w with
    | none => none
    | some (_, s, w) => some (s, w)
  else some (s, w)

/-- The outbox half of one iteration of the loop of `IPCController::IPCHandle`, with the
closing `Sleep(25)`. -/
def IPCHandle.outboxStep (os : Win32 ω) (stale : Msg → Msg) (s : IPCController) (w : ω) :
    IPCController × ω :=
  let (s, w) :=
    if s.ipc_outbox_enabled then
      let (s, w) :=
        if !s.ipc_valid_outbox then
          match InitializeOutbox os "" s w with
          | (false, s, w) => (s, os.Sleep 100 w)
          | (true, s, w) => (s, w)
        else (s, w)
      let (_, s, w) := IPCWriteData os stale s w
      (s, w)
    else (s, w)
  (s, os.Sleep 25 w)

/-- One iteration of the `while(ipc_running)` loop of `IPCController::IPCHandle`; `none` when
the read pass does not return within the fuel. -/
def IPCHandle.iteration (os : Win32 ω) (stale : Msg → Msg) (fuel : Nat) (s : IPCController)
    (w : ω) : Option (IPCController × ω) :=
  match IPCHandle.inboxStep os fuel s w with
  | none => none
  | some (s, w) => some (IPCHandle.outboxStep os stale s w)

/-- Embedding of `IPCController::IPCHandle` run for at most `n` iterations of its loop: it sets
`ipc_running` and iterates while the flag is set. -/
def IPCHandle (os : Win32 ω) (stale : Msg → Msg) (fuel : Nat) :
    Nat → IPCController → ω → Option (IPCController × ω)
  | n, s, w => IPCHandle.run n { s with ipc_running := true } w
where
  /-- The `while(ipc_running)` loop, cut after `n` iterations. -/
  run : Nat → IPCController → ω → Option (IPCController × ω)
    | 0, s, w => some (s, w)
    | n + 1, s, w =>
      if s.ipc_running then
        match IPCHandle.iteration os stale fuel s w with
        | none => none
        | some (s, w) => run n s w
      else some (s, w)

/-! ## Recording the calls -/

/-- A Win32 call with its arguments. -/
inductive Call where
  | CreateMailslot (name : String)
  | CreateFile (name : String)
  | CloseHandle (h : HANDLE)
  | GetMailslotInfo (h : HANDLE)
  | ReadFile (h : HANDLE) (cap : Nat) (n : DWORD)
  | WriteFile (h : HANDLE) (data : Msg)
  | Sleep (ms : DWORD)
  deriving DecidableEq, Repr

/-- The interface `os` with a log: every call is answered by `os` and appended, with its
arguments, to the list of calls made so far. -/
def traced (os : Win32 ω) : Win32 (ω × List Call) where
  CreateMailslot name w := ((os.CreateMailslot name w.1).1, (os.CreateMailslot name w.1).2,
    w.2 ++ [Call.CreateMailslot name])
  CreateFile name w := ((os.CreateFile name w.1).1, (os.CreateFile name w.1).2,
    w.2 ++ [Call.CreateFile name])
  CloseHandle h w := (os.CloseHandle h w.1, w.2 ++ [Call.CloseHandle h])
  GetMailslotInfo h w := ((os.GetMailslotInfo h w.1).1, (os.GetMailslotInfo h w.1).2,
    w.2 ++ [Call.GetMailslotInfo h])
  ReadFile h cap n w := ((os.ReadFile h cap n w.1).1, (os.ReadFile h cap n w.1).2,
    w.2 ++ [Call.ReadFile h cap n])
  WriteFile h data w := ((os.WriteFile h data w.1).1, (os.WriteFile h data w.1).2,
    w.2 ++ [Call.WriteFile h data])
  Sleep ms w := (os.Sleep ms w.1, w.2 ++ [Call.Sleep ms])
  GetLastError w := os.GetLastError w.1

/-- The payloads of the `WriteFile` calls of a log, in order. -/
def writesOf : List Call → List Msg
  | [] => []
  | Call.WriteFile _ data :: cs => data :: writesOf cs
  | _ :: cs => writesOf cs

/-! ## A reference transport: mailslots

The behaviour of the Win32 mailslot calls as Microsoft documents them, for the cases the
channel exercises. A mailslot is created by its reader (`CreateMailslot`), exists while the
reader's handle is open and holds the messages written and not yet read; a writer opens it by
name (`CreateFile` with `OPEN_EXISTING`), which fails when no mailslot of that name exists. -/

/-- The mailslots of a machine. `slots` maps the name of each existing mailslot to its pending
messages, oldest first; `handles` is the handle table, the handle value being the index:
`some (true, name)` is the reader's handle of the mailslot `name`, `some (false, name)` a
writer's handle, `none` a closed handle; `lastError` is the last-error code. -/
structure Mailslots where
  slots : List (String × List Msg)
  handles : List (Option (Bool × String))
  lastError : DWORD
  deriving DecidableEq, Repr

/-- A machine without mailslots. -/
def Mailslots.empty : Mailslots := { slots := [], handles := [], lastError := 0 }

/-- What the handle `h` denotes, if it is open. -/
def Mailslots.object (w : Mailslots) (h : HANDLE) : Option (Bool × String) :=
  match h with
  | none => none
  | some i => (w.handles.get? i).join

/-- The pending messages of the mailslot whose reader's handle is `h`. -/
def Mailslots.pending (w : Mailslots) (h : HANDLE) : Option (List Msg) :=
  match w.object h with
  | some (true, name) => w.slots.lookup name
  | _ => none

/-- Replace the pending messages of the mailslot `name`. -/
def Mailslots.setPending (w : Mailslots) (name : String) (q : List Msg) : Mailslots :=
  { w with slots := w.slots.map fun p => if p.1 = name then (name, q) else p }

/-- The Win32 error codes the reference transport reports. -/
def ERROR_FILE_NOT_FOUND : DWORD := 2
/-- Error code of a call on a handle that is not open or of the wrong kind. -/
def ERROR_INVALID_HANDLE : DWORD := 6
/-- Error code of a read whose buffer is smaller than the next message. -/
def ERROR_INSUFFICIENT_BUFFER : DWORD := 122
/-- Error code of `CreateMailslot` on a name that is taken. -/
def ERROR_ALREADY_EXISTS : DWORD := 183

/-- The mailslot calls on `Mailslots`.

* `GetMailslotInfo` on a reader's handle yields `lpNextSize`, the size of the next message or
  `MAILSLOT_NO_MESSAGE`, and `lpMessageCount`, the number of messages waiting.
* `ReadFile` on a reader's handle returns the next message whole when at most `n` bytes long
  and removes it, fails when it is longer, and blocks when none is waiting (the channel
  creates its mailslot with `MAILSLOT_WAIT_FOREVER`).
* `WriteFile` on a writer's handle appends one message to the mailslot. -/
def mailslotOS : Win32 Mailslots where
  CreateMailslot name w :=
    match w.slots.lookup name with
    | some _ => (none, { w with lastError := ERROR_ALREADY_EXISTS })
    | none => (some w.handles.length,
        { w with slots := w.slots ++ [(name, [])], handles := w.handles ++ [some (true, name)] })
  CreateFile name w :=
    match w.slots.lookup name with
    | none => (none, { w with lastError := ERROR_FILE_NOT_FOUND })
    | some _ => (some w.handles.length, { w with handles := w.handles ++ [some (false, name)] })
  CloseHandle h w :=
    match h, w.object h with
    | some i, some (true, name) =>
      { w with slots := w.slots.filter (fun p => p.1 != name), handles := w.handles.set i none }
    | some i, some (false, _) => { w with handles := w.handles.set i none }
    | _, _ => w
  GetMailslotInfo h w :=
    match w.pending h with
    | none => (none, { w with lastError := ERROR_INVALID_HANDLE })
    | some [] => (some (MAILSLOT_NO_MESSAGE, 0), w)
    | some (m :: rest) => (some (m.length, (m :: rest).length), w)
  ReadFile h _ n w :=
    match w.object h, w.pending h with
    | some (true, name), some (m :: rest) =>
      if m.length ≤ n then (ReadResult.ok m, w.setPending name rest)
      else (ReadResult.failed, { w with lastError := ERROR_INSUFFICIENT_BUFFER })
    | some (true, _), some [] => (ReadResult.blocks, w)
    | _, _ => (ReadResult.failed, { w with lastError := ERROR_INVALID_HANDLE })
  WriteFile h data w :=
    match w.object h with
    | some (false, name) =>
      match w.slots.lookup name with
      | some q => (true, w.setPending name (q ++ [data]))
      | none => (false, { w with lastError := ERROR_FILE_NOT_FOUND })
    | _ => (false, { w with lastError := ERROR_INVALID_HANDLE })
  Sleep _ w := w
  GetLastError w := w.lastError

/-! ## Sample states -/

/-- A channel marked valid whose incoming queue is `q`, all else as constructed. -/
def sampleIncoming (q : List Msg) : IPCController :=
  { IPCController.default with ipc_valid := true, incoming_messages := q }

/-- A channel marked valid whose outgoing queue is `q`, all else as constructed. -/
def sampleOutgoing (q : List Msg) : IPCController :=
  { IPCController.default with ipc_valid := true, outgoing_messages := q }

/-- A machine on which a reader has bound the inbox `"x"`: its only mailslot. -/
def sampleBusy : Mailslots :=
  (InitializeInbox mailslotOS "x" IPCController.default Mailslots.empty).2.2

/-- The name of the mailslot of id `"x"`. -/
def sampleName : String := IPC_MAILSLOT_HEADER ++ "x"

/-- Channel A after `InitializeInbox("x")` on a machine without mailslots. -/
def sampleReader : IPCController :=
  (InitializeInbox mailslotOS "x" IPCController.default Mailslots.empty).2.1

/-- Channel B after `InitializeOutbox("x")` on the machine where A has bound the inbox `"x"`. -/
def sampleWriter : IPCController :=
  (InitializeOutbox mailslotOS "x" IPCController.default sampleBusy).2.1

/-- The machine after A has bound the inbox `"x"` and B the outbox `"x"`. -/
def sampleConnected : Mailslots :=
  (InitializeOutbox mailslotOS "x" IPCController.default sampleBusy).2.2

/-- A message of 10000 bytes. -/
def sampleLarge : Msg := String.mk (List.replicate 10000 'x')

/-- The machine of `sampleConnected` with `sampleLarge` pending in the mailslot. -/
def sampleLargePending : Mailslots := sampleConnected.setPending sampleName [sampleLarge]

/-- The machine of `sampleConnected` after A's `DisableInbox()`: the mailslot is gone, B's
writer handle 1 is still open. -/
def sampleOrphaned : Mailslots := (DisableInbox mailslotOS sampleReader sampleConnected).2

/-- Channel B after `Send("m")` and a drain pass whose write failed on `sampleOrphaned`:
`validOutbox` is false, the handle `mailslot_out` is the one `InitializeOutbox("x")` opened. -/
def sampleInvalidated : IPCController :=
  { sampleWriter with
      ipc_valid_outbox := false, outgoing_messages := ["m"],
      last_error := 2, error_count := 1 }

/-- The machine after that failed write. -/
def sampleAfterFailure : Mailslots := { sampleOrphaned with lastError := ERROR_FILE_NOT_FOUND }

/-- The machine after A, its inbox disabled, has bound the inbox `"x"` again. -/
def sampleRebound : Mailslots :=
  (InitializeInbox mailslotOS "x" (DisableInbox mailslotOS sampleReader sampleConnected).1
    sampleAfterFailure).2.2

/-! ## Sequences of operations on a channel -/

/-- A public operation of `IPCController`, or one iteration of the loop of its pump thread
(`pump fuel`, with the fuel of its read pass). `Receive` and `Peek` carry the value of the
out-parameter before the call. -/
inductive Op where
  | InitializeInbox (id_inbox : String)
  | InitializeOutbox (id_outbox : String)
  | Initialize (id_inbox id_outbox : String)
  | DisableInbox
  | DisableOutbox
  | Reset
  | ClearSend
  | ClearReceive
  | Send (data : Msg)
  | Receive (data : Msg)
  | Peek (data : Msg)
  | pump (fuel : Nat)
  deriving DecidableEq, Repr

/-- One operation: the boolean it returns (`none` for a `void` one), the state and the world
afterwards; `none` when a pump iteration does not return within its fuel. -/
def stepOp (os : Win32 ω) (stale : Msg → Msg) :
    Op → IPCController → ω → Option (Option Bool × IPCController × ω)
  | Op.InitializeInbox id_inbox, s, w =>
    some (some (InitializeInbox os id_inbox s w).1, (InitializeInbox os id_inbox s w).2)
  | Op.InitializeOutbox id_outbox, s, w =>
    some (some (InitializeOutbox os id_outbox s w).1, (InitializeOutbox os id_outbox s w).2)
  | Op.Initialize id_inbox id_outbox, s, w =>
    some (some (Initialize os id_inbox id_outbox s w).1, (Initialize os id_inbox id_outbox s w).2)
  | Op.DisableInbox, s, w => some (none, DisableInbox os s w)
  | Op.DisableOutbox, s, w => some (none, DisableOutbox os s w)
  | Op.Reset, s, w => some (none, Reset os s w)
  | Op.ClearSend, s, w => some (none, ClearSend s, w)
  | Op.ClearReceive, s, w => some (none, ClearReceive s, w)
  | Op.Send data, s, w => some (some (Send data s).1, (Send data s).2, w)
  | Op.Receive data, s, w => some (some (Receive data s).1, (Receive data s).2.2, w)
  | Op.Peek data, s, w => some (some (Peek data s).1, (Peek data s).2.2, w)
  | Op.pump fuel, s, w =>
    match IPCHandle.iteration os stale fuel s w with
    | none => none
    | some (s, w) => some (none, s, w)

/-- The interface `os` with a log of the calls and of whether each succeeded (`CloseHandle`
and `Sleep`, whose result the channel does not look at, are logged as succeeded, and so is
a read that blocks). -/
def audited (os : Win32 ω) : Win32 (ω × List (Call × Bool)) where
  CreateMailslot name w := ((os.CreateMailslot name w.1).1, (os.CreateMailslot name w.1).2,
    w.2 ++ [(Call.CreateMailslot name, (os.CreateMailslot name w.1).1.isSome)])
  CreateFile name w := ((os.CreateFile name w.1).1, (os.CreateFile name w.1).2,
    w.2 ++ [(Call.CreateFile name, (os.CreateFile name w.1).1.isSome)])
  CloseHandle h w := (os.CloseHandle h w.1, w.2 ++ [(Call.CloseHandle h, true)])
  GetMailslotInfo h w := ((os.GetMailslotInfo h w.1).1, (os.GetMailslotInfo h w.1).2,
    w.2 ++ [(Call.GetMailslotInfo h, (os.GetMailslotInfo h w.1).1.isSome)])
  ReadFile h cap n w := ((os.ReadFile h cap n w.1).1, (os.ReadFile h cap n w.1).2,
    w.2 ++ [(Call.ReadFile h cap n, decide ((os.ReadFile h cap n w.1).1 ≠ ReadResult.failed))])
  WriteFile h data w := ((os.WriteFile h data w.1).1, (os.WriteFile h data w.1).2,
    w.2 ++ [(Call.WriteFile h data, (os.WriteFile h data w.1).1)])
  Sleep ms w := (os.Sleep ms w.1, w.2 ++ [(Call.Sleep ms, true)])
  GetLastError w := os.GetLastError w.1

/-- The number of `CreateMailslot` calls in a log. -/
def inboxBinds (log : List (Call × Bool)) : Nat :=
  (log.filter fun c => match c.1 with | Call.CreateMailslot _ => true | _ => false).length

/-- The number of `CreateFile` calls in a log. -/
def outboxBinds (log : List (Call × Bool)) : Nat :=
  (log.filter fun c => match c.1 with | Call.CreateFile _ => true | _ => false).length

/-- The number of failed calls in a log. -/
def failures (log : List (Call × Bool)) : Nat := (log.filter fun c => !c.2).length

/-- What a read pass leaves alone: everything but the incoming queue, `validInbox`, the last
error and the error counter. -/
def ReadFrame (s s1 : IPCController) : Prop :=
  s1.mailslot_in_str = s.mailslot_in_str ∧ s1.mailslot_out_str = s.mailslot_out_str ∧
  s1.mailslot_in = s.mailslot_in ∧ s1.mailslot_out = s.mailslot_out ∧
  s1.ipc_valid = s.ipc_valid ∧ s1.ipc_valid_outbox = s.ipc_valid_outbox ∧
  s1.ipc_running = s.ipc_running ∧ s1.ipc_inbox_enabled = s.ipc_inbox_enabled ∧
  s1.ipc_outbox_enabled = s.ipc_outbox_enabled ∧
  s1.outgoing_messages = s.outgoing_messages ∧
  (s1.ipc_valid_inbox = true → s.ipc_valid_inbox = true)

/-- What a drain pass leaves alone: everything but the outgoing queue, `validOutbox`, the
last error and the error counter. -/
def WriteFrame (s s1 : IPCController) : Prop :=
  s1.mailslot_in_str = s.mailslot_in_str ∧ s1.mailslot_out_str = s.mailslot_out_str ∧
  s1.mailslot_in = s.mailslot_in ∧ s1.mailslot_out = s.mailslot_out ∧
  s1.ipc_valid = s.ipc_valid ∧ s1.ipc_valid_inbox = s.ipc_valid_inbox ∧
  s1.ipc_running = s.ipc_running ∧ s1.ipc_inbox_enabled = s.ipc_inbox_enabled ∧
  s1.ipc_outbox_enabled = s.ipc_outbox_enabled ∧
  s1.incoming_messages = s.incoming_messages ∧
  (s1.ipc_valid_outbox = true → s.ipc_valid_outbox = true)

/-- How a step accounts for errors, from the counter `c`, the last error `e` and the number
`f` of failed calls before it to `c1`, `e1`, `f1` after it, `code` being the last-error code
of the world after it: either nothing was reported and no call failed, or one error was
reported, with `code` as last error, and at most one call failed. -/
def Reported (c : Nat) (e : Int) (f : Nat) (c1 : Nat) (e1 : Int) (f1 : Nat) (code : DWORD) :
    Prop :=
  (c1 = c ∧ e1 = e ∧ f1 = f) ∨
  (c1 = (c + 1) % SIZE_MOD ∧ e1 = dwordToInt code ∧ f ≤ f1 ∧ f1 ≤ f + 1)

/-- Error accounting of a step: the counter goes from `c` to `c1`, the number of failed calls
from `f` to `f1`, and `k` errors were reported (`error_count++` done `k` times, in `size_t`
arithmetic), `z` of them without a failed call. -/
def Accounted (c f c1 f1 k z : Nat) : Prop :=
  f1 + z = f + k ∧ c1 % SIZE_MOD = (c + k) % SIZE_MOD

/-- Summary of a step run on the audited interface from state `s` and log `log` to `s1` and
`log1`: it made `bi` inbox binds and `bo` outbox binds, and reported at most `kmax` errors,
at most `zmax` of them without a failed call; the counter stays a `size_t` value. -/
structure StepAudit (s : IPCController) (log : List (Call × Bool)) (s1 : IPCController)
    (log1 : List (Call × Bool)) (bi bo kmax zmax : Nat) : Prop where
  inbox : inboxBinds log1 = inboxBinds log + bi
  outbox : outboxBinds log1 = outboxBinds log + bo
  errors : ∃ k z, k ≤ kmax ∧ z ≤ zmax ∧
    Accounted s.error_count (failures log) s1.error_count (failures log1) k z
  bounded : s.error_count < SIZE_MOD → s1.error_count < SIZE_MOD

/-- The inbox flags of `s1` are those of `s`. -/
def InboxSame (s s1 : IPCController) : Prop :=
  s1.ipc_valid_inbox = s.ipc_valid_inbox ∧ s1.ipc_inbox_enabled = s.ipc_inbox_enabled

/-- The outbox flags of `s1` are those of `s`. -/
def OutboxSame (s s1 : IPCController) : Prop :=
  s1.ipc_valid_outbox = s.ipc_valid_outbox ∧ s1.ipc_outbox_enabled = s.ipc_outbox_enabled

/-- Whether a call is a bind, `CreateMailslot` or `CreateFile`. -/
def Call.isBind : Call → Bool
  | Call.CreateMailslot _ => true
  | Call.CreateFile _ => true
  | _ => false

/-- The accounting of `Reported`, with exactly one failed call when an error is reported. -/
def ReportedExact (c : Nat) (e : Int) (f : Nat) (c1 : Nat) (e1 : Int) (f1 : Nat)
    (code : DWORD) : Prop :=
  (c1 = c ∧ e1 = e ∧ f1 = f) ∨ (c1 = (c + 1) % SIZE_MOD ∧ e1 = dwordToInt code ∧ f1 = f + 1)

/-- The largest number of errors one operation can report: one for each bind, read pass and
drain pass it can make. -/
def Op.maxErrors : Op → Nat
  | Op.InitializeInbox _ => 1
  | Op.InitializeOutbox _ => 1
  | Op.Initialize _ _ => 2
  | Op.pump _ => 4
  | _ => 0

/-- The calls of one pump iteration of B, `"m"` queued, on `sampleOrphaned`: the write
fails. -/
def sampleFailedWriteLog : List (Call × Bool) :=
  [(Call.WriteFile (some 1) "m", false), (Call.Sleep 25, true)]

/-! ## The lifecycle controller: `CServiceBase`

A shallow embedding of `src/src/libwinservice_base.cpp`. The object is a record; the
statuses it passes to the service control manager and the entries it writes to the event
log are kept in the record, in order. A virtual `On...` member function is a `Hook`: given
the object it returns normally, raises a `DWORD`, raises something else, or never returns,
and it may have changed the object. -/

/-- The service state `SERVICE_STOPPED`. -/
def SERVICE_STOPPED : DWORD := 1
/-- The service state `SERVICE_START_PENDING`. -/
def SERVICE_START_PENDING : DWORD := 2
/-- The service state `SERVICE_STOP_PENDING`. -/
def SERVICE_STOP_PENDING : DWORD := 3
/-- The service state `SERVICE_RUNNING`. -/
def SERVICE_RUNNING : DWORD := 4
/-- The service state `SERVICE_CONTINUE_PENDING`. -/
def SERVICE_CONTINUE_PENDING : DWORD := 5
/-- The service state `SERVICE_PAUSE_PENDING`. -/
def SERVICE_PAUSE_PENDING : DWORD := 6
/-- The service state `SERVICE_PAUSED`. -/
def SERVICE_PAUSED : DWORD := 7
/-- The Win32 code `NO_ERROR` (also spelled `NOERROR`). -/
def NO_ERROR : DWORD := 0
/-- The Win32 code `ERROR_TIMEOUT`. -/
def ERROR_TIMEOUT : DWORD := 1460
/-- The event type `EVENTLOG_ERROR_TYPE`. -/
def EVENTLOG_ERROR_TYPE : Nat := 1
/-- The event type `EVENTLOG_INFORMATION_TYPE`. -/
def EVENTLOG_INFORMATION_TYPE : Nat := 4
/-- The service type `SERVICE_WIN32_OWN_PROCESS`. -/
def SERVICE_WIN32_OWN_PROCESS : DWORD := 16

/-- The Win32 structure `SERVICE_STATUS`. -/
structure SERVICE_STATUS where
  dwServiceType : DWORD
  dwCurrentState : DWORD
  dwControlsAccepted : DWORD
  dwWin32ExitCode : DWORD
  dwServiceSpecificExitCode : DWORD
  dwCheckPoint : DWORD
  dwWaitHint : DWORD
  deriving DecidableEq, Repr

/-- A `ServiceControlWrapper` object with its `CServiceBase` part. `dwCheckPoint` is the
function-local static of `CServiceBase::SetServiceStatus`; `stoppedEvent` is the state of
the manual-reset event `m_hStoppedEvent`; `reported` lists the statuses passed to
`::SetServiceStatus`, `eventLog` the entries written to the event log. -/
structure Service where
  m_name : String
  service_log : Bool
  m_status : SERVICE_STATUS
  dwCheckPoint : DWORD
  m_fStopping : Bool
  m_fPaused : Bool
  m_fSignal : Bool
  stoppedEvent : Bool
  pauseTimeout : DWORD
  updateTimeout : DWORD
  reported : List SERVICE_STATUS
  eventLog : List (String × Nat)
  deriving DecidableEq, Repr

/-- The object the constructors `CServiceBase::CServiceBase` and
`ServiceControlWrapper::ServiceControlWrapper` build. -/
def Service.create (pszServiceName : String) (dwControlsAccepted : DWORD) : Service where
  m_name := pszServiceName
  service_log := false
  m_status :=
    { dwServiceType := SERVICE_WIN32_OWN_PROCESS, dwCurrentState := SERVICE_START_PENDING,
      dwControlsAccepted := dwControlsAccepted, dwWin32ExitCode := NO_ERROR,
      dwServiceSpecificExitCode := 0, dwCheckPoint := 0, dwWaitHint := 0 }
  dwCheckPoint := 1
  m_fStopping := false
  m_fPaused := false
  m_fSignal := false
  stoppedEvent := false
  pauseTimeout := 2000
  updateTimeout := 5
  reported := []
  eventLog := []

/-- How a call of a member function that may throw ends. -/
inductive Outcome where
  | returned
  | raisedCode (dwError : DWORD)
  | raisedOther
  deriving DecidableEq, Repr

/-- A virtual member function or a user callback: its outcome and the object afterwards, or
`none` when it never returns. -/
abbrev Hook := Service → Option (Outcome × Service)

/-- Embedding of `CServiceBase::SetServiceStatus`, all three arguments given (the C++
defaults are `NO_ERROR` and `0`). -/
def SetServiceStatus (s : Service) (dwCurrentState dwWin32ExitCode dwWaitHint : DWORD) :
    Service :=
  let final := dwCurrentState == SERVICE_RUNNING || dwCurrentState == SERVICE_STOPPED
  let status : SERVICE_STATUS :=
    { s.m_status with
      dwCurrentState := dwCurrentState, dwWin32ExitCode := dwWin32ExitCode,
      dwWaitHint := dwWaitHint, dwCheckPoint := if final then 0 else s.dwCheckPoint }
  { s with
    m_status := status
    dwCheckPoint := if final then s.dwCheckPoint else (s.dwCheckPoint + 1) % 2 ^ 32
    reported := s.reported ++ [status] }

/-- Embedding of `CServiceBase::WriteEventLogEntry`. -/
def WriteEventLogEntry (s : Service) (pszMessage : String) (wType : Nat) : Service :=
  if !s.service_log then s else { s with eventLog := s.eventLog ++ [(pszMessage, wType)] }

/-- Embedding of `CServiceBase::WriteErrorLogEntry`. -/
def WriteErrorLogEntry (s : Service) (message : String) (dwError : DWORD) : Service :=
  WriteEventLogEntry s (message ++ " failed w/err 0x" ++ toString dwError) EVENTLOG_ERROR_TYPE

/-- Embedding of `CServiceBase::Start`, `OnStart` being the hook. -/
def Start (OnStart : Hook) (s : Service) : Option (Outcome × Service) :=
  match OnStart (SetServiceStatus s SERVICE_START_PENDING NO_ERROR 4000) with
  | none => none
  | some (Outcome.returned, s) => some (Outcome.returned, SetServiceStatus s SERVICE_RUNNING NO_ERROR 0)
  | some (Outcome.raisedCode dwError, s) =>
    some (Outcome.returned,
      SetServiceStatus (WriteErrorLogEntry s "Service Start" dwError) SERVICE_STOPPED dwError 0)
  | some (Outcome.raisedOther, s) =>
    some (Outcome.returned,
      SetServiceStatus (WriteEventLogEntry s "Service failed to start" EVENTLOG_ERROR_TYPE)
        SERVICE_STOPPED NO_ERROR 0)

/-- Embedding of `CServiceBase::Stop`, `OnStop` being the hook. -/
def Stop (OnStop : Hook) (s : Service) : Option (Outcome × Service) :=
  let dwOriginalState := s.m_status.dwCurrentState
  match OnStop (SetServiceStatus s SERVICE_STOP_PENDING NO_ERROR 0) with
  | none => none
  | some (Outcome.returned, s) => some (Outcome.returned, SetServiceStatus s SERVICE_STOPPED NO_ERROR 0)
  | some (Outcome.raisedCode dwError, s) =>
    some (Outcome.returned,
      SetServiceStatus (WriteErrorLogEntry s "Service Stop" dwError) dwOriginalState NO_ERROR 0)
  | some (Outcome.raisedOther, s) =>
    some (Outcome.returned,
      SetServiceStatus (WriteEventLogEntry s "Service failed to stop" EVENTLOG_ERROR_TYPE)
        dwOriginalState NO_ERROR 0)

/-- Embedding of `CServiceBase::Pause`, `OnPause` being the hook. -/
def Pause (OnPause : Hook) (s : Service) : Option (Outcome × Service) :=
  match OnPause (SetServiceStatus s SERVICE_PAUSE_PENDING NO_ERROR 0) with
  | none => none
  | some (Outcome.returned, s) => some (Outcome.returned, SetServiceStatus s SERVICE_PAUSED NO_ERROR 0)
  | some (Outcome.raisedCode dwError, s) =>
    some (Outcome.returned,
      SetServiceStatus (WriteErrorLogEntry s "Service Pause" dwError) SERVICE_RUNNING NO_ERROR 0)
  | some (Outcome.raisedOther, s) =>
    some (Outcome.returned,
      SetServiceStatus (WriteEventLogEntry s "Service failed to pause" EVENTLOG_ERROR_TYPE)
        SERVICE_RUNNING NO_ERROR 0)

/-- Embedding of `CServiceBase::Continue`, `OnContinue` being the hook. -/
def Continue (OnContinue : Hook) (s : Service) : Option (Outcome × Service) :=
  match OnContinue (SetServiceStatus s SERVICE_CONTINUE_PENDING NO_ERROR 0) with
  | none => none
  | some (Outcome.returned, s) => some (Outcome.returned, SetServiceStatus s SERVICE_RUNNING NO_ERROR 0)
  | some (Outcome.raisedCode dwError, s) =>
    some (Outcome.returned,
      SetServiceStatus (WriteErrorLogEntry s "Service Continue" dwError) SERVICE_PAUSED NO_ERROR 0)
  | some (Outcome.raisedOther, s) =>
    some (Outcome.returned,
      SetServiceStatus (WriteEventLogEntry s "Service failed to resume" EVENTLOG_ERROR_TYPE)
        SERVICE_PAUSED NO_ERROR 0)

/-- Embedding of `CServiceBase::Shutdown`, `OnShutdown` being the hook. -/
def Shutdown (OnShutdown : Hook) (s : Service) : Option (Outcome × Service) :=
  match OnShutdown s with
  | none => none
  | some (Outcome.returned, s) => some (Outcome.returned, SetServiceStatus s SERVICE_STOPPED NO_ERROR 0)
  | some (Outcome.raisedCode dwError, s) =>
    some (Outcome.returned, WriteErrorLogEntry s "Service Shutdown" dwError)
  | some (Outcome.raisedOther, s) =>
    some (Outcome.returned,
      WriteEventLogEntry s "Service failed to shut down" EVENTLOG_ERROR_TYPE)

/-! ## The lifecycle controller: `ServiceControlWrapper`, control thread

A shallow embedding of the member functions of `src/example/service_control_wrapper.cpp`
that run on the control thread. What the control thread sees of the worker thread and of
the clock while it is inside one of them is given by a `ControlEnv`. -/

/-- What the control thread observes while it polls in `OnPause` or `OnContinue`:
`workerSignals k` says whether the worker thread has set `m_fSignal` by the time of test
number `k` (from 0) of `while(!m_fSignal)`; `clock k` is the value of call number `k` of
`std::clock()` (call 0 initialises `timeout`); `CLOCKS_PER_SEC` is the macro of `<ctime>`. -/
structure ControlEnv where
  workerSignals : Nat → Bool
  clock : Nat → Int
  CLOCKS_PER_SEC : Int

/-- How `WaitForSingleObject(m_hStoppedEvent, INFINITE)` ends when the event is not yet
signalled at the call: the worker signals it (the call returns `WAIT_OBJECT_0`), the call
fails, `GetLastError()` then being `lastError`, or the call never returns. -/
inductive WaitResult where
  | signalled
  | failed (lastError : DWORD)
  | never
  deriving DecidableEq, Repr

/-- The polling loop `while(!m_fSignal){ if(... > 4){ m_fPaused = restore; throw ...; } }`
with the `m_fSignal = false` that follows it, as written in both `OnPause` (where `restore`
is false) and `OnContinue` (where it is true), from test number `k` on; `none` when the loop
is still running after `fuel` tests. Division of `clock_t` values truncates. -/
def handshakeWait (env : ControlEnv) (timeout : Int) (restore : Bool) :
    Nat → Nat → Service → Option (Outcome × Service)
  | 0, _, _ => none
  | fuel + 1, k, s =>
    if s.m_fSignal || env.workerSignals k then
      some (Outcome.returned, { s with m_fSignal := false })
    else if (env.clock (k + 1) - timeout).tdiv env.CLOCKS_PER_SEC > 4 then
      some (Outcome.raisedCode ERROR_TIMEOUT, { s with m_fPaused := restore })
    else handshakeWait env timeout restore fuel (k + 1) s

/-- Embedding of `ServiceControlWrapper::OnPause`. -/
def OnPause (env : ControlEnv) (fuel : Nat) : Hook := fun s =>
  handshakeWait env (env.clock 0) false fuel 0 { s with m_fPaused := true }

/-- Embedding of `ServiceControlWrapper::OnContinue`. -/
def OnContinue (env : ControlEnv) (fuel : Nat) : Hook := fun s =>
  handshakeWait env (env.clock 0) true fuel 0 { s with m_fPaused := false }

/-- Embedding of `ServiceControlWrapper::OnStop`; `wait` says how the wait ends when the
event is not signalled yet. -/
def OnStop (wait : WaitResult) : Hook := fun s =>
  let s := WriteEventLogEntry s "Example Service Stopping..." EVENTLOG_INFORMATION_TYPE
  let s := { s with m_fStopping := true }
  if s.stoppedEvent then some (Outcome.returned, s)
  else
    match wait with
    | WaitResult.signalled => some (Outcome.returned, { s with stoppedEvent := true })
    | WaitResult.failed lastError => some (Outcome.raisedCode lastError, s)
    | WaitResult.never => none

/-- Embedding of `ServiceControlWrapper::OnShutdown`: `callback_shutdown()`, then `Stop()`,
which calls the virtual `OnStop`. -/
def OnShutdown (callback_shutdown : Hook) (OnStop : Hook) : Hook := fun s =>
  match callback_shutdown s with
  | none => none
  | some (Outcome.returned, s) => Stop OnStop s
  | some (Outcome.raisedCode dwError, s) => some (Outcome.raisedCode dwError, s)
  | some (Outcome.raisedOther, s) => some (Outcome.raisedOther, s)

/-- A running service: the constructed object after a `Start` whose `OnStart` returned. -/
def sampleRunning : Service :=
  SetServiceStatus (SetServiceStatus (Service.create "svc" 3) SERVICE_START_PENDING NO_ERROR 4000)
    SERVICE_RUNNING NO_ERROR 0

/-- A hook that raises the error code 5 and changes nothing. -/
def sampleRaise : Hook := fun s => some (Outcome.raisedCode 5, s)

/-- A hook that raises something that is not a `DWORD` and changes nothing. -/
def sampleRaiseOther : Hook := fun s => some (Outcome.raisedOther, s)

/-- A hook that returns and changes nothing. -/
def sampleReturn : Hook := fun s => some (Outcome.returned, s)

/-- A control thread's view in which the worker never sets the signal and the clock, at
1000 ticks per second, advances by one second per call. -/
def sampleHang : ControlEnv where
  workerSignals := fun _ => false
  clock := fun k => 1000 * (k : Int)
  CLOCKS_PER_SEC := 1000

/-! ## The lifecycle controller: the worker thread beside the control thread

`ServiceWorkerThread` runs on a thread of its own while the control thread runs `Stop`,
`Pause` and `Continue`; the threads share `m_fStopping`, `m_fPaused`, `m_fSignal` and the
event `m_hStoppedEvent`. An execution is a schedule: a list of `Action`s, each one step of
one of the two threads, every access to a shared variable being a step of its own. The user
callbacks are taken to return and to leave the wrapper's variables alone. -/

/-- What an execution records: the calls of the user callbacks by the worker thread, the
loop test of `ServiceWorkerThread` that reads `m_fStopping` as true, the call of `SetEvent`,
and the return of `Stop`. -/
inductive Event where
  | callback_start
  | callback_update
  | callback_paused
  | callback_continue
  | callback_stopped
  | stopObserved
  | SetEvent
  | StopReturned
  deriving DecidableEq, Repr

/-- Where the worker thread stands: the statement of `ServiceWorkerThread` or of
`CheckForPause` it executes next, named in the order of the source text; `finished` when
`ServiceWorkerThread` has returned. -/
inductive WorkerPC where
  | entry          -- callback_start();
  | loopTest       -- while (!m_fStopping)
  | sleepUpdate    -- Sleep(updateTimeout);
  | update         -- callback_update();
  | pauseTest      -- CheckForPause: if(m_fPaused)
  | signalTest1    -- if(!m_fSignal)
  | setSignal1     -- m_fSignal = true;
  | paused         -- callback_paused();
  | pausedTest     -- while(m_fPaused)
  | sleepPaused    -- Sleep(pauseTimeout);
  | stopTest       -- if(m_fStopping) return;
  | signalTest2    -- if(!m_fSignal)
  | continued      -- callback_continue();
  | setSignal2     -- m_fSignal = true;
  | stopped        -- callback_stopped();
  | setEvent       -- SetEvent(m_hStoppedEvent);
  | finished
  deriving DecidableEq, Repr

/-- One step of `ServiceWorkerThread` (with `CheckForPause` inlined at its one call): the
object and the position afterwards, and what the step records. -/
def ServiceWorkerThread (s : Service) : WorkerPC → Service × WorkerPC × Option Event
  | WorkerPC.entry => (s, WorkerPC.loopTest, some Event.callback_start)
  | WorkerPC.loopTest =>
    if !s.m_fStopping then (s, WorkerPC.sleepUpdate, none)
    else (s, WorkerPC.stopped, some Event.stopObserved)
  | WorkerPC.sleepUpdate => (s, WorkerPC.update, none)
  | WorkerPC.update => (s, WorkerPC.pauseTest, some Event.callback_update)
  | WorkerPC.pauseTest =>
    if s.m_fPaused then (s, WorkerPC.signalTest1, none) else (s, WorkerPC.loopTest, none)
  | WorkerPC.signalTest1 =>
    if !s.m_fSignal then (s, WorkerPC.setSignal1, none) else (s, WorkerPC.pausedTest, none)
  | WorkerPC.setSignal1 => ({ s with m_fSignal := true }, WorkerPC.paused, none)
  | WorkerPC.paused => (s, WorkerPC.pausedTest, some Event.callback_paused)
  | WorkerPC.pausedTest =>
    if s.m_fPaused then (s, WorkerPC.sleepPaused, none) else (s, WorkerPC.signalTest2, none)
  | WorkerPC.sleepPaused => (s, WorkerPC.stopTest, none)
  | WorkerPC.stopTest =>
    if s.m_fStopping then (s, WorkerPC.loopTest, none) else (s, WorkerPC.pausedTest, none)
  | WorkerPC.signalTest2 =>
    if !s.m_fSignal then (s, WorkerPC.continued, none) else (s, WorkerPC.loopTest, none)
  | WorkerPC.continued => (s, WorkerPC.setSignal2, some Event.callback_continue)
  | WorkerPC.setSignal2 => ({ s with m_fSignal := true }, WorkerPC.loopTest, none)
  | WorkerPC.stopped => (s, WorkerPC.setEvent, some Event.callback_stopped)
  | WorkerPC.setEvent => ({ s with stoppedEvent := true }, WorkerPC.finished, some Event.SetEvent)
  | WorkerPC.finished => (s, WorkerPC.finished, none)

/-- Where the control thread stands: outside the transition methods, or inside one of them
at the point where it waits for the worker: in `OnStop` at `WaitForSingleObject` (`Stop`
keeps `dwOriginalState`), or in the polling loop of `OnPause` or of `OnContinue`. -/
inductive ControlPC where
  | idle
  | inStop (dwOriginalState : DWORD)
  | inPause
  | inContinue
  deriving DecidableEq, Repr

/-- The two threads and the object they share, with what has been recorded so far. -/
structure Machine where
  svc : Service
  pc : WorkerPC
  control : ControlPC
  trace : List Event
  deriving DecidableEq, Repr

/-- One step of an execution. `worker`: the worker thread executes its next statement.
`Stop`, `Pause`, `Continue`: the control thread, idle, enters the method and runs it up to
its wait for the worker. `waitSignalled`: the wait of `OnStop` returns `WAIT_OBJECT_0`, the
event being signalled, and `Stop` runs to its end. `signalSeen`: the loop
test of `OnPause` or `OnContinue` reads `m_fSignal` as true and the method runs to its end.
`timedOut`: the clock test of that loop succeeds and the method runs to its end.

The wait of `OnStop` is `WaitForSingleObject(m_hStoppedEvent, INFINITE)` on the event the
constructor has created (it throws when `CreateEvent` fails) and only the destructor closes:
the handle is valid and the wait has no timeout, so the call returns only once the event is
signalled, with `WAIT_OBJECT_0`. `waitSignalled` is therefore the one step that ends `Stop`. -/
inductive Action where
  | worker
  | Stop
  | waitSignalled
  | Pause
  | Continue
  | signalSeen
  | timedOut
  deriving DecidableEq, Repr

/-- The machine after one step, `none` when the step cannot be taken in this state. -/
def Machine.step (m : Machine) : Action → Option Machine
  | Action.worker =>
    match ServiceWorkerThread m.svc m.pc with
    | (s, pc, none) => some { m with svc := s, pc := pc }
    | (s, pc, some e) => some { m with svc := s, pc := pc, trace := m.trace ++ [e] }
  | Action.Stop =>
    match m.control with
    | ControlPC.idle =>
      let s := SetServiceStatus m.svc SERVICE_STOP_PENDING NO_ERROR 0
      let s := WriteEventLogEntry s "Example Service Stopping..." EVENTLOG_INFORMATION_TYPE
      some { m with
        svc := { s with m_fStopping := true }
        control := ControlPC.inStop m.svc.m_status.dwCurrentState }
    | _ => none
  | Action.waitSignalled =>
    match m.control with
    | ControlPC.inStop _ =>
      if m.svc.stoppedEvent then
        some { m with
          svc := SetServiceStatus m.svc SERVICE_STOPPED NO_ERROR 0
          control := ControlPC.idle
          trace := m.trace ++ [Event.StopReturned] }
      else none
    | _ => none
  | Action.Pause =>
    match m.control with
    | ControlPC.idle =>
      some { m with
        svc := { SetServiceStatus m.svc SERVICE_PAUSE_PENDING NO_ERROR 0 with m_fPaused := true }
        control := ControlPC.inPause }
    | _ => none
  | Action.Continue =>
    match m.control with
    | ControlPC.idle =>
      some { m with
        svc := { SetServiceStatus m.svc SERVICE_CONTINUE_PENDING NO_ERROR 0 with
          m_fPaused := false }
        control := ControlPC.inContinue }
    | _ => none
  | Action.signalSeen =>
    if m.svc.m_fSignal then
      match m.control with
      | ControlPC.inPause =>
        some { m with
          svc := SetServiceStatus { m.svc with m_fSignal := false } SERVICE_PAUSED NO_ERROR 0
          control := ControlPC.idle }
      | ControlPC.inContinue =>
        some { m with
          svc := SetServiceStatus { m.svc with m_fSignal := false } SERVICE_RUNNING NO_ERROR 0
          control := ControlPC.idle }
      | _ => none
    else none
  | Action.timedOut =>
    match m.control with
    | ControlPC.inPause =>
      some { m with
        svc := SetServiceStatus (WriteErrorLogEntry { m.svc with m_fPaused := false }
          "Service Pause" ERROR_TIMEOUT) SERVICE_RUNNING NO_ERROR 0
        control := ControlPC.idle }
    | ControlPC.inContinue =>
      some { m with
        svc := SetServiceStatus (WriteErrorLogEntry { m.svc with m_fPaused := true }
          "Service Continue" ERROR_TIMEOUT) SERVICE_PAUSED NO_ERROR 0
        control := ControlPC.idle }
    | _ => none

/-- The machine after a schedule, `none` when one of its steps cannot be taken. -/
def Machine.run : List Action → Machine → Option Machine
  | [], m => some m
  | a :: rest, m =>
    match m.step a with
    | none => none
    | some m1 => Machine.run rest m1

/-- Every occurrence of `e` in the trace has an occurrence of `d` before it. -/
def Precedes (d e : Event) (trace : List Event) : Prop :=
  ∀ before after, trace = before ++ e :: after → d ∈ before

/-- No occurrence of `e` in the trace comes after an occurrence of `d`. -/
def NeverAfter (d e : Event) (trace : List Event) : Prop :=
  ∀ before after, trace = before ++ d :: after → e ∉ after

/-- A running service whose worker thread has been queued and has not run yet. -/
def sampleQueued : Machine where
  svc := sampleRunning
  pc := WorkerPC.entry
  control := ControlPC.idle
  trace := []

/-- What holds, in every state an execution reaches, of the worker's position, of the state
of the event and of the trace. -/
structure WorkerInv (pc : WorkerPC) (stoppedEvent : Bool) (tr : List Event) : Prop where
  startCount : tr.count Event.callback_start = if pc = WorkerPC.entry then 0 else 1
  stoppedCount : tr.count Event.callback_stopped =
    if pc = WorkerPC.setEvent ∨ pc = WorkerPC.finished then 1 else 0
  startMem : Event.callback_start ∈ tr ↔ pc ≠ WorkerPC.entry
  stoppedMem : Event.callback_stopped ∈ tr ↔ pc = WorkerPC.setEvent ∨ pc = WorkerPC.finished
  setMem : Event.SetEvent ∈ tr ↔ pc = WorkerPC.finished
  observed : pc = WorkerPC.stopped → Event.stopObserved ∈ tr
  signalled : stoppedEvent = true → pc = WorkerPC.finished
  joined : Event.StopReturned ∈ tr → pc = WorkerPC.finished
  startUpdate : Precedes Event.callback_start Event.callback_update tr
  startPaused : Precedes Event.callback_start Event.callback_paused tr
  startContinue : Precedes Event.callback_start Event.callback_continue tr
  startStopped : Precedes Event.callback_start Event.callback_stopped tr
  observedStopped : Precedes Event.stopObserved Event.callback_stopped tr
  stoppedSet : Precedes Event.callback_stopped Event.SetEvent tr
  setReturned : Precedes Event.SetEvent Event.StopReturned tr
  stoppedUpdate : NeverAfter Event.callback_stopped Event.callback_update tr
  stoppedPaused : NeverAfter Event.callback_stopped Event.callback_paused tr
  stoppedContinue : NeverAfter Event.callback_stopped Event.callback_continue tr
  returnedUpdate : NeverAfter Event.StopReturned Event.callback_update tr

/-- A schedule in which `Stop` is joined by the worker: the worker runs one round of its
loop, `Stop` is entered, the worker sees the flag, finishes and signals, the wait returns. -/
def sampleJoined : List Action :=
  [Action.worker, Action.worker, Action.worker, Action.worker, Action.Stop, Action.worker,
    Action.worker, Action.worker, Action.worker, Action.waitSignalled]

/-! ## Sequences of status reports -/

/-- A sequence of calls of `CServiceBase::SetServiceStatus`, each given by its three
arguments, made one after the other. -/
def reportAll : List (DWORD × DWORD × DWORD) → Service → Service
  | [], s => s
  | (dwCurrentState, dwWin32ExitCode, dwWaitHint) :: rest, s =>
    reportAll rest (SetServiceStatus s dwCurrentState dwWin32ExitCode dwWaitHint)

/-- Whether a reported status has the state Running or Stopped. -/
def SERVICE_STATUS.settled (status : SERVICE_STATUS) : Bool :=
  status.dwCurrentState == SERVICE_RUNNING || status.dwCurrentState == SERVICE_STOPPED

/-- The checkpoints of the reported statuses whose state is neither Running nor Stopped, in
the order of the reports. -/
def pendingCheckpoints (reported : List SERVICE_STATUS) : List DWORD :=
  (reported.filter fun status => !status.settled).map fun status => status.dwCheckPoint

/-- The status reports of a service that is started, paused and stopped: for each, the
state, the exit code and the wait hint. -/
def sampleReports : List (DWORD × DWORD × DWORD) :=
  [(SERVICE_START_PENDING, NO_ERROR, 4000), (SERVICE_RUNNING, NO_ERROR, 0),
    (SERVICE_PAUSE_PENDING, NO_ERROR, 0), (SERVICE_PAUSED, NO_ERROR, 0),
    (SERVICE_STOP_PENDING, NO_ERROR, 0), (SERVICE_STOPPED, NO_ERROR, 0)]

/-- The outcomes of the `WriteFile` calls of a log, in order. -/
def writeOutcomes (log : List (Call × Bool)) : List Bool :=
  (log.filter fun c => match c.1 with | Call.WriteFile _ _ => true | _ => false).map
    fun c => c.2

/-- A transport on which the next `w` writes succeed and every later write fails; nothing can
be bound or read on it. -/
def flakyOS : Win32 Nat where
  CreateMailslot _ w := (none, w)
  CreateFile _ w := (none, w)
  CloseHandle _ w := w
  GetMailslotInfo _ w := (none, w)
  ReadFile _ _ _ w := (ReadResult.failed, w)
  WriteFile _ _ w := if w = 0 then (false, 0) else (true, w - 1)
  Sleep _ w := w
  GetLastError _ := ERROR_FILE_NOT_FOUND

/-- A channel with a valid outbox and the messages `"a"`, `"b"`, `"c"` queued. -/
def sampleThree : IPCController :=
  { sampleWriter with outgoing_messages := ["a", "b", "c"] }

/-! ## Recording the replies of the transport -/

/-- A length query or a read, with the transport's reply: for a query, what
`GetMailslotInfo` stored (`none` when it failed); for a read, the capacity of the buffer,
the number of bytes asked for, and what `ReadFile` did. -/
inductive Exchange where
  | query (reply : Option (DWORD × DWORD))
  | read (cap : Nat) (n : DWORD) (reply : ReadResult)
  deriving DecidableEq, Repr

/-- The interface `os` with a record of its length queries and reads: every call is answered
by `os`, and each `GetMailslotInfo` and `ReadFile` call is appended, with its reply, to the
list of exchanges so far. -/
def recorded (os : Win32 ω) : Win32 (ω × List Exchange) where
  CreateMailslot name w := ((os.CreateMailslot name w.1).1, (os.CreateMailslot name w.1).2, w.2)
  CreateFile name w := ((os.CreateFile name w.1).1, (os.CreateFile name w.1).2, w.2)
  CloseHandle h w := (os.CloseHandle h w.1, w.2)
  GetMailslotInfo h w := ((os.GetMailslotInfo h w.1).1, (os.GetMailslotInfo h w.1).2,
    w.2 ++ [Exchange.query (os.GetMailslotInfo h w.1).1])
  ReadFile h cap n w := ((os.ReadFile h cap n w.1).1, (os.ReadFile h cap n w.1).2,
    w.2 ++ [Exchange.read cap n (os.ReadFile h cap n w.1).1])
  WriteFile h data w := ((os.WriteFile h data w.1).1, (os.WriteFile h data w.1).2, w.2)
  Sleep ms w := (os.Sleep ms w.1, w.2)
  GetLastError w := os.GetLastError w.1

/-- Whether an exchange is a read that returned zero bytes. -/
def Exchange.isZeroRead : Exchange → Bool
  | Exchange.read _ _ (ReadResult.ok data) => data.length == 0
  | _ => false

/-- Whether an exchange is a read that failed. -/
def Exchange.isFailedRead : Exchange → Bool
  | Exchange.read _ _ ReadResult.failed => true
  | _ => false

/-- The number of reads in a record that returned zero bytes. -/
def zeroReads (log : List Exchange) : Nat := (log.filter Exchange.isZeroRead).length

/-- The number of reads in a record that failed. -/
def failedReads (log : List Exchange) : Nat := (log.filter Exchange.isFailedRead).length

/-- A transport whose world is a script of read replies: each read returns the next entry of
the script, cut to the number of bytes asked for, and zero bytes once the script is used up;
a length query always finds 3 messages waiting, the next of 8 bytes. -/
def scriptOS : Win32 (List Msg) where
  CreateMailslot _ w := (none, w)
  CreateFile _ w := (none, w)
  CloseHandle _ w := w
  GetMailslotInfo _ w := (some (8, 3), w)
  ReadFile _ _ n w := (ReadResult.ok (String.mk ((w.headD "").data.take n)), w.tail)
  WriteFile _ _ w := (false, w)
  Sleep _ w := w
  GetLastError _ := 0

/-- A control thread's view in which the worker sets the signal between the first and the
second test of the polling loop, 4.5 seconds after the wait began, the clock having 1000
ticks per second. -/
def sampleLate : ControlEnv where
  workerSignals := fun k => decide (1 ≤ k)
  clock := fun k => 4500 * (k : Int)
  CLOCKS_PER_SEC := 1000

/-- A schedule in which a pause is requested and acknowledged: the worker runs into its
loop, `Pause` is entered, the worker calls `update`, finds the pause requested and the
signal unset, and sets the signal. -/
def samplePauseAck : List Action :=
  [Action.worker, Action.worker, Action.worker, Action.Pause, Action.worker, Action.worker,
    Action.worker, Action.worker]

/-- The schedule `samplePauseAck`, followed by the rest of the pause and by a continue: the
control thread sees the signal and `Pause` ends, the worker calls `paused`, `Continue` is
entered, the worker finds the pause lifted and the signal unset and calls `continue`. -/
def sampleContinueAck : List Action :=
  samplePauseAck ++ [Action.signalSeen, Action.worker, Action.Continue, Action.worker,
    Action.worker, Action.worker]

/-- The next-message size in force after the exchanges of a record, `declared` being the one
in force before them: the size stored by the latest length query that succeeded. -/
def declaredAfter : Option DWORD → List Exchange → Option DWORD
  | declared, [] => declared
  | _, Exchange.query (some (szNextMsg, _)) :: rest => declaredAfter (some szNextMsg) rest
  | declared, _ :: rest => declaredAfter declared rest

/-- Whether every read of a record asks for the next-message size in force at that point,
`declared` being the one in force at the start, into a buffer that is the scratch buffer of
`BUFSIZE` bytes when that size is at most `BUFSIZE` and a buffer of exactly that size
otherwise. -/
def readsFit : Option DWORD → List Exchange → Bool
  | _, [] => true
  | _, Exchange.query (some (szNextMsg, _)) :: rest => readsFit (some szNextMsg) rest
  | declared, Exchange.query none :: rest => readsFit declared rest
  | declared, Exchange.read cap n _ :: rest =>
    declared == some n && cap == (if n > BUFSIZE then n else BUFSIZE) && readsFit declared rest

/-! ## The heap buffer of a read pass

`IPCReadData` reads into `cacheBuf` or, for a message longer than `BUFSIZE`, into a buffer
it takes from the heap. The functions below are `IPCReadData.inner`, `IPCReadData.outer`
and `IPCReadData` again, statement by statement, with the `new char[szNextMsg]` and the
`delete[] pCache` they execute appended to a list. -/

/-- A heap operation of a read pass: `new char[size]`, or `delete[]` of the buffer obtained
last. -/
inductive HeapEvent where
  | alloc (size : DWORD)
  | release
  deriving DecidableEq, Repr

/-- The inner loop of `IPCController::IPCReadData` with the `if(alloc) delete[] pCache` of
its two `return false` exits recorded. -/
def IPCReadData.innerHeap (os : Win32 ω) (h : HANDLE) (szNextMsg szMsg : DWORD) :
    Nat → DWORD → DWORD → Msg → ω → List HeapEvent →
      Option (Option Msg × ω × List HeapEvent)
  | 0, _, _, _, _, _ => none
  | fuel + 1, totalBytes, retryCount, msgCache, w, heap =>
    let cap := if szNextMsg > BUFSIZE then szNextMsg else BUFSIZE
    match os.ReadFile h cap szNextMsg w with
    | (.blocks, _) => none
    | (.failed, w) =>
      some (none, w, if szNextMsg > BUFSIZE then heap ++ [HeapEvent.release] else heap)
    | (.ok data, w) =>
      if data.length = 0 then
        if retryCount - 1 = 0 then
          some (none, w, if szNextMsg > BUFSIZE then heap ++ [HeapEvent.release] else heap)
        else
          let w := os.Sleep 100 w
          if totalBytes < szMsg then
            IPCReadData.innerHeap os h szNextMsg szMsg fuel totalBytes (retryCount - 1)
              msgCache w heap
          else some (some msgCache, w, heap)
      else
        let msgCache := msgCache ++ data
        let totalBytes := (totalBytes + data.length) % 2 ^ 32
        if totalBytes < szMsg then
          IPCReadData.innerHeap os h szNextMsg szMsg fuel totalBytes retryCount msgCache w heap
        else some (some msgCache, w, heap)

/-- The outer loop of `IPCController::IPCReadData` with the `new char[szNextMsg]` before the
inner loop and the `if(alloc) delete[] pCache` after it recorded. -/
def IPCReadData.outerHeap (os : Win32 ω) :
    Nat → DWORD → DWORD → IPCController → ω → List HeapEvent →
      Option (Bool × IPCController × ω × List HeapEvent)
  | 0, _, _, _, _, _ => none
  | fuel + 1, szNextMsg, szMsg, s, w, heap =>
    if szMsg = 0 then some (true, s, w, heap)
    else
      let heap := if szNextMsg > BUFSIZE then heap ++ [HeapEvent.alloc szNextMsg] else heap
      match IPCReadData.innerHeap os s.mailslot_in szNextMsg szMsg fuel 0 4 "" w heap with
      | none => none
      | some (none, w, heap) => some (false, IPCReportError os s w, w, heap)
      | some (some msg, w, heap) =>
        let heap := if szNextMsg > BUFSIZE then heap ++ [HeapEvent.release] else heap
        let s := { s with incoming_messages := s.incoming_messages ++ [msg] }
        match os.GetMailslotInfo s.mailslot_in w with
        | (none, w) =>
          some (false, { IPCReportError os s w with ipc_valid_inbox := false }, w, heap)
        | (some (szNextMsg, szMsg), w) =>
          if szNextMsg = MAILSLOT_NO_MESSAGE then some (true, s, w, heap)
          else IPCReadData.outerHeap os fuel szNextMsg szMsg s w heap

/-- Embedding of `IPCController::IPCReadData` with its heap operations recorded. -/
def IPCReadDataHeap (os : Win32 ω) (fuel : Nat) (s : IPCController) (w : ω) :
    Option (Bool × IPCController × ω × List HeapEvent) :=
  if !s.ipc_valid_inbox then some (false, s, w, [])
  else
    match os.GetMailslotInfo s.mailslot_in w with
    | (none, w) => some (false, IPCReportError os s w, w, [])
    | (some (szNextMsg, szMsg), w) =>
      if szNextMsg = MAILSLOT_NO_MESSAGE then some (false, s, w, [])
      else IPCReadData.outerHeap os fuel szNextMsg szMsg s w []

/-- The heap operations of a pass that takes one buffer for each of the sizes, in order, and
gives each back before it takes the next. -/
def heapBlocks : List DWORD → List HeapEvent
  | [] => []
  | size :: rest => HeapEvent.alloc size :: HeapEvent.release :: heapBlocks rest

/-- A transport on which one message, announced as 5000 bytes long, is pending until a read
has been made: the world is the number of reads made so far, and a read returns `"x"`. -/
def bulkOS : Win32 Nat where
  CreateMailslot _ w := (none, w)
  CreateFile _ w := (none, w)
  CloseHandle _ w := w
  GetMailslotInfo _ w :=
    if w = 0 then (some (5000, 1), w) else (some (MAILSLOT_NO_MESSAGE, 0), w)
  ReadFile _ _ _ w := (ReadResult.ok "x", w + 1)
  WriteFile _ _ w := (false, w)
  Sleep _ w := w
  GetLastError _ := 0

/-! ## The pump thread beside the caller's thread

`IPCHandle` runs on a thread of its own, started by the constructor, while the owner of the
channel calls the public member functions. The flags are `std::atomic_bool`s; no lock covers
a test of a flag together with the stores that follow it. An execution is a list of `Move`s:
the next statement of the pump thread, a public operation run by the caller's thread from
its first statement to its last, or a Win32 call made by another process. The statements of
the pump thread are those of `IPCHandle` with its calls `InitializeInbox()` and
`InitializeOutbox()` inlined (their argument is the empty string, so the names are left
alone); the read pass and the drain pass are one statement each. -/

/-- Where the pump thread stands: the statement of `IPCHandle`, or of the `InitializeInbox()`
or `InitializeOutbox()` it has called, that it executes next; `exited` when `IPCHandle` has
returned. -/
inductive PumpPC where
  | entry                 -- ipc_running = true;
  | loopTest              -- while(ipc_running)
  | inboxEnabledTest      -- if(ipc_inbox_enabled)
  | inboxValidTest        -- if(!ipc_valid_inbox)
  | inboxCloseTest        -- InitializeInbox: if(ipc_valid_inbox)
  | inboxClose            -- CloseHandle(mailslot_in); mailslot_in = INVALID_HANDLE_VALUE;
  | inboxClearValid       -- ipc_valid_inbox = false;
  | inboxEnable           -- ipc_inbox_enabled = true;
  | inboxCreate           -- mailslot_in = CreateMailslot(...);
  | inboxHandleTest       -- if(mailslot_in == INVALID_HANDLE_VALUE){ IPCReportError(); return false; }
  | inboxSetValidInbox    -- ipc_valid_inbox = true;
  | inboxSetValid         -- ipc_valid = true; return true;
  | inboxSleep            -- Sleep(100);
  | inboxRead             -- IPCReadData();
  | outboxEnabledTest     -- if(ipc_outbox_enabled)
  | outboxValidTest       -- if(!ipc_valid_outbox)
  | outboxCloseTest       -- InitializeOutbox: if(ipc_valid_outbox)
  | outboxClose           -- CloseHandle(mailslot_out); mailslot_out = INVALID_HANDLE_VALUE;
  | outboxClearValid      -- ipc_valid_outbox = false;
  | outboxEnable          -- ipc_outbox_enabled = true;
  | outboxCreate          -- mailslot_out = CreateFile(...);
  | outboxHandleTest      -- if(mailslot_out == INVALID_HANDLE_VALUE){ IPCReportError(); return false; }
  | outboxSetValidOutbox  -- ipc_valid_outbox = true;
  | outboxSetValid        -- ipc_valid = true; return true;
  | outboxSleep           -- Sleep(100);
  | outboxWrite           -- IPCWriteData();
  | idleSleep             -- Sleep(25);
  | exited
  deriving DecidableEq, Repr

/-- The channel object, the machine it runs on and the position of its pump thread. -/
structure Channel (ω : Type) where
  ipc : IPCController
  world : ω
  pc : PumpPC

/-- A channel as the default constructor leaves it: the pump thread has been started and has
not run yet. -/
def Channel.create (w : ω) : Channel ω where
  ipc := IPCController.default
  world := w
  pc := PumpPC.entry

/-- The next statement of the pump thread; `none` when its read pass does not return within
the fuel. A thread that has left `IPCHandle` has no statement left: its step changes
nothing. -/
def Channel.pumpStep (os : Win32 ω) (stale : Msg → Msg) (fuel : Nat) (m : Channel ω) :
    Option (Channel ω) :=
  match m.pc with
  | PumpPC.entry =>
    some { m with ipc := { m.ipc with ipc_running := true }, pc := PumpPC.loopTest }
  | PumpPC.loopTest =>
    some { m with pc := if m.ipc.ipc_running then PumpPC.inboxEnabledTest else PumpPC.exited }
  | PumpPC.inboxEnabledTest =>
    some { m with
      pc := if m.ipc.ipc_inbox_enabled then PumpPC.inboxValidTest else PumpPC.outboxEnabledTest }
  | PumpPC.inboxValidTest =>
    some { m with
      pc := if !m.ipc.ipc_valid_inbox then PumpPC.inboxCloseTest else PumpPC.inboxRead }
  | PumpPC.inboxCloseTest =>
    some { m with pc := if m.ipc.ipc_valid_inbox then PumpPC.inboxClose else PumpPC.inboxEnable }
  | PumpPC.inboxClose =>
    some { m with
      ipc := { m.ipc with mailslot_in := INVALID_HANDLE_VALUE }
      world := os.CloseHandle m.ipc.mailslot_in m.world
      pc := PumpPC.inboxClearValid }
  | PumpPC.inboxClearValid =>
    some { m with ipc := { m.ipc with ipc_valid_inbox := false }, pc := PumpPC.inboxEnable }
  | PumpPC.inboxEnable =>
    some { m with ipc := { m.ipc with ipc_inbox_enabled := true }, pc := PumpPC.inboxCreate }
  | PumpPC.inboxCreate =>
    some { m with
      ipc := { m.ipc with mailslot_in := (os.CreateMailslot m.ipc.mailslot_in_str m.world).1 }
      world := (os.CreateMailslot m.ipc.mailslot_in_str m.world).2
      pc := PumpPC.inboxHandleTest }
  | PumpPC.inboxHandleTest =>
    if m.ipc.mailslot_in = INVALID_HANDLE_VALUE then
      some { m with ipc := IPCReportError os m.ipc m.world, pc := PumpPC.inboxSleep }
    else some { m with pc := PumpPC.inboxSetValidInbox }
  | PumpPC.inboxSetValidInbox =>
    some { m with ipc := { m.ipc with ipc_valid_inbox := true }, pc := PumpPC.inboxSetValid }
  | PumpPC.inboxSetValid =>
    some { m with ipc := { m.ipc with ipc_valid := true }, pc := PumpPC.inboxRead }
  | PumpPC.inboxSleep =>
    some { m with world := os.Sleep 100 m.world, pc := PumpPC.inboxRead }
  | PumpPC.inboxRead =>
    match IPCReadData os fuel m.ipc m.world with
    | none => none
    | some (_, s, w) => some { ipc := s, world := w, pc := PumpPC.outboxEnabledTest }
  | PumpPC.outboxEnabledTest =>
    some { m with
      pc := if m.ipc.ipc_outbox_enabled then PumpPC.outboxValidTest else PumpPC.idleSleep }
  | PumpPC.outboxValidTest =>
    some { m with
      pc := if !m.ipc.ipc_valid_outbox then PumpPC.outboxCloseTest else PumpPC.outboxWrite }
  | PumpPC.outboxCloseTest =>
    some { m with
      pc := if m.ipc.ipc_valid_outbox then PumpPC.outboxClose else PumpPC.outboxEnable }
  | PumpPC.outboxClose =>
    some { m with
      ipc := { m.ipc with mailslot_out := INVALID_HANDLE_VALUE }
      world := os.CloseHandle m.ipc.mailslot_out m.world
      pc := PumpPC.outboxClearValid }
  | PumpPC.outboxClearValid =>
    some { m with ipc := { m.ipc with ipc_valid_outbox := false }, pc := PumpPC.outboxEnable }
  | PumpPC.outboxEnable =>
    some { m with ipc := { m.ipc with ipc_outbox_enabled := true }, pc := PumpPC.outboxCreate }
  | PumpPC.outboxCreate =>
    some { m with
      ipc := { m.ipc with mailslot_out := (os.CreateFile m.ipc.mailslot_out_str m.world).1 }
      world := (os.CreateFile m.ipc.mailslot_out_str m.world).2
      pc := PumpPC.outboxHandleTest }
  | PumpPC.outboxHandleTest =>
    if m.ipc.mailslot_out = INVALID_HANDLE_VALUE then
      some { m with ipc := IPCReportError os m.ipc m.world, pc := PumpPC.outboxSleep }
    else some { m with pc := PumpPC.outboxSetValidOutbox }
  | PumpPC.outboxSetValidOutbox =>
    some { m with ipc := { m.ipc with ipc_valid_outbox := true }, pc := PumpPC.outboxSetValid }
  | PumpPC.outboxSetValid =>
    some { m with ipc := { m.ipc with ipc_valid := true }, pc := PumpPC.outboxWrite }
  | PumpPC.outboxSleep =>
    some { m with world := os.Sleep 100 m.world, pc := PumpPC.outboxWrite }
  | PumpPC.outboxWrite =>
    some { ipc := (IPCWriteData os stale m.ipc m.world).2.1
           world := (IPCWriteData os stale m.ipc m.world).2.2
           pc := PumpPC.idleSleep }
  | PumpPC.idleSleep =>
    some { m with world := os.Sleep 25 m.world, pc := PumpPC.loopTest }
  | PumpPC.exited => some m

/-- The world after another process has made the call (what the call returns is that
process's business). -/
def Call.perform (os : Win32 ω) : Call → ω → ω
  | Call.CreateMailslot name, w => (os.CreateMailslot name w).2
  | Call.CreateFile name, w => (os.CreateFile name w).2
  | Call.CloseHandle h, w => os.CloseHandle h w
  | Call.GetMailslotInfo h, w => (os.GetMailslotInfo h w).2
  | Call.ReadFile h cap n, w => (os.ReadFile h cap n w).2
  | Call.WriteFile h data, w => (os.WriteFile h data w).2
  | Call.Sleep ms, w => os.Sleep ms w

/-- One step of an execution: `pump fuel`, the pump thread executes its next statement (with
`fuel` for a read pass); `call op`, the caller's thread runs the public operation `op`;
`peer c`, another process makes the Win32 call `c`. -/
inductive Move where
  | pump (fuel : Nat)
  | call (op : Op)
  | peer (c : Call)
  deriving DecidableEq, Repr

/-- The channel after one move and what a call returned; `none` when the move cannot be
made (`Op.pump` is no public operation) or does not return. -/
def Channel.step (os : Win32 ω) (stale : Msg → Msg) :
    Move → Channel ω → Option (Option Bool × Channel ω)
  | Move.pump fuel, m =>
    match m.pumpStep os stale fuel with
    | none => none
    | some m1 => some (none, m1)
  | Move.call (Op.pump _), _ => none
  | Move.call op, m =>
    match stepOp os stale op m.ipc m.world with
    | none => none
    | some (r, s, w) => some (r, { m with ipc := s, world := w })
  | Move.peer c, m => some (none, { m with world := c.perform os m.world })

/-- The channel after a list of moves, with the record of the execution: each move, the
position of the pump thread when it was made, and what it returned. -/
def Channel.run (os : Win32 ω) (stale : Msg → Msg) :
    List Move → Channel ω → Option (List (Move × PumpPC × Option Bool) × Channel ω)
  | [], m => some ([], m)
  | mv :: rest, m =>
    match Channel.step os stale mv m with
    | none => none
    | some (r, m1) =>
      match Channel.run os stale rest m1 with
      | none => none
      | some (res, m2) => some ((mv, m.pc, r) :: res, m2)

/-- C3: `Send(m)` on a channel whose `valid` flag is false returns false and leaves the whole
state as it was; on a channel whose `valid` flag is true it returns true and the state
afterwards is the state before with `m` appended at the back of the outgoing queue. Nothing
is assumed about `m` or about `validOutbox`. -/
theorem Send_spec (m : Msg) (s : IPCController) :
    (s.ipc_valid = false → Send m s = (false, s)) ∧
    (s.ipc_valid = true →
      Send m s = (true, { s with outgoing_messages := s.outgoing_messages ++ [m] })) := by
  constructor <;> intro h <;> simp [Send, h]

/-- Witness of C3 on an invalid channel, and on a valid channel whose outbox is not valid,
sending the empty string. -/
theorem Send_spec_witness :
    Send "" IPCController.default = (false, IPCController.default) ∧
    Send "" (sampleOutgoing ["a"]) = (true, sampleOutgoing ["a", ""]) :=
  ⟨(Send_spec "" IPCController.default).1 rfl, (Send_spec "" (sampleOutgoing ["a"])).2 rfl⟩

/-- C4: `Receive(out)` returns false exactly when `valid` is false or the incoming queue is
empty, and then leaves the state and the out-parameter as they were; otherwise, the queue
being `front :: rest`, it returns true, stores `front` in the out-parameter and leaves `rest`
as the incoming queue, nothing else changed. -/
theorem Receive_spec (out : Msg) (s : IPCController) :
    ((Receive out s).1 = false ↔ (s.ipc_valid = false ∨ s.incoming_messages = [])) ∧
    ((s.ipc_valid = false ∨ s.incoming_messages = []) → Receive out s = (false, out, s)) ∧
    (∀ front rest, s.ipc_valid = true → s.incoming_messages = front :: rest →
      Receive out s = (true, front, { s with incoming_messages := rest })) := by
  refine ⟨?_, ?_, ?_⟩
  · cases hv : s.ipc_valid <;> cases hq : s.incoming_messages <;> simp [Receive, hv, hq]
  · rintro (h | h) <;> simp [Receive, h]
  · intro front rest hv hq
    simp [Receive, hv, hq]

/-- Witness of C4: a receive on an empty queue, and one on a queue of two messages. -/
theorem Receive_spec_witness :
    Receive "old" (sampleIncoming []) = (false, "old", sampleIncoming []) ∧
    Receive "old" (sampleIncoming ["a", "b"]) = (true, "a", sampleIncoming ["b"]) :=
  ⟨(Receive_spec "old" (sampleIncoming [])).2.1 (Or.inr rfl),
   (Receive_spec "old" (sampleIncoming ["a", "b"])).2.2 "a" ["b"] rfl rfl⟩

/-- C5, counterexample: on a channel marked valid whose incoming queue is empty, the calls
`Peek(x); Peek(y)` made with `x` holding `"x"` and `y` holding `"y"` both return false and
each leaves its out-parameter as it was, so `x == y` is false after the pair. The same
happens on a channel whose `valid` flag is false. -/
theorem Peek_twice_counterexample :
    (Peek "x" (sampleIncoming [])).1 = false ∧
    (Peek "y" (Peek "x" (sampleIncoming [])).2.2).1 = false ∧
    (Peek "x" (sampleIncoming [])).2.1 = "x" ∧
    (Peek "y" (Peek "x" (sampleIncoming [])).2.2).2.1 = "y" ∧
    (Peek "x" (sampleIncoming [])).2.1 ≠ (Peek "y" (Peek "x" (sampleIncoming [])).2.2).2.1 ∧
    (Peek "x" IPCController.default).2.1 ≠
      (Peek "y" (Peek "x" IPCController.default).2.2).2.1 := by
  decide

/-- C5, amended: from every state and every value `out` of the out-parameter, `Peek` returns
the boolean and the message `Receive` returns and leaves the state as it was; hence of two
consecutive calls `Peek(x); Peek(y)` the second returns the boolean of the first; when that
boolean is true, `x == y` after the pair; when it is false, `x` and `y` are what they were
before the calls (so `x == y` only if they were equal before). -/
theorem Peek_spec (out y : Msg) (s : IPCController) :
    (Peek out s).1 = (Receive out s).1 ∧
    (Peek out s).2.1 = (Receive out s).2.1 ∧
    (Peek out s).2.2 = s ∧
    (Peek y (Peek out s).2.2).1 = (Peek out s).1 ∧
    (Peek out (Peek out s).2.2).2.1 = (Peek out s).2.1 ∧
    ((Peek out s).1 = true → (Peek y (Peek out s).2.2).2.1 = (Peek out s).2.1) ∧
    ((Peek out s).1 = false → (Peek out s).2.1 = out ∧ (Peek y (Peek out s).2.2).2.1 = y) := by
  cases hv : s.ipc_valid <;> cases hq : s.incoming_messages <;> simp [Peek, Receive, hv, hq]

/-- Witness of C5 on a queue of two messages: both calls return true and `"a"`. -/
theorem Peek_spec_witness :
    (Peek "x" (sampleIncoming ["a", "b"])).1 = true ∧
    (Peek "y" (Peek "x" (sampleIncoming ["a", "b"])).2.2).2.1 =
      (Peek "x" (sampleIncoming ["a", "b"])).2.1 :=
  ⟨rfl, (Peek_spec "x" "y" (sampleIncoming ["a", "b"])).2.2.2.2.2.1 rfl⟩

/-! ## Theorems: reset -/

/-- C10: from every state, `Reset` yields a state whose flags `valid`, `validInbox`,
`validOutbox`, `inboxEnabled`, `outboxEnabled` are false, whose last error and error counter
are 0 and whose two queues are empty, as `IPCController::IPCController()` initialises them;
the flag `ipc_running` of the pump is what it was. -/
theorem Reset_spec (os : Win32 ω) (s : IPCController) (w : ω) :
    (Reset os s w).1.ipc_valid = false ∧
    (Reset os s w).1.ipc_valid_inbox = false ∧
    (Reset os s w).1.ipc_valid_outbox = false ∧
    (Reset os s w).1.ipc_inbox_enabled = false ∧
    (Reset os s w).1.ipc_outbox_enabled = false ∧
    (Reset os s w).1.last_error = 0 ∧
    (Reset os s w).1.error_count = 0 ∧
    (Reset os s w).1.outgoing_messages = [] ∧
    (Reset os s w).1.incoming_messages = [] ∧
    (Reset os s w).1.ipc_running = s.ipc_running ∧
    { (Reset os s w).1 with
        mailslot_in_str := "", mailslot_out_str := "",
        mailslot_in := INVALID_HANDLE_VALUE, mailslot_out := INVALID_HANDLE_VALUE } =
      { IPCController.default with ipc_running := s.ipc_running } := by
  cases hi : s.ipc_valid_inbox <;> cases ho : s.ipc_valid_outbox <;>
    simp [Reset, DisableInbox, DisableOutbox, ClearSend, ClearReceive, IPCController.default, hi, ho]

/-! ## Theorems: binding the endpoints -/

/-- Characterisation of `InitializeOutbox` in one step: the outcome of its `CreateFile` call decides the result. -/
theorem InitializeOutbox_eq (os : Win32 ω) (id : String) (s : IPCController) (w : ω) :
    InitializeOutbox os id s w =
      match os.CreateFile (outboxName id s) (worldAtOutboxBind os s w) with
      | (none, w1) =>
        (false, { s with
          mailslot_out_str := outboxName id s, mailslot_out := INVALID_HANDLE_VALUE,
          ipc_valid_outbox := false, ipc_outbox_enabled := true,
          last_error := dwordToInt (os.GetLastError w1),
          error_count := (s.error_count + 1) % SIZE_MOD }, w1)
      | (some h, w1) =>
        (true, { s with
          mailslot_out_str := outboxName id s, mailslot_out := some h,
          ipc_valid_outbox := true, ipc_valid := true, ipc_outbox_enabled := true }, w1) := by
  cases hv : s.ipc_valid_outbox <;> cases he : id.isEmpty <;>
    simp only [InitializeOutbox, outboxName, worldAtOutboxBind, IPCReportError, hv, he] <;>
    simp only [Bool.not_true, Bool.not_false, Bool.false_eq_true, if_true, if_false] <;>
    (split <;> rename_i heq <;> first | simp only [heq] | simp [heq, INVALID_HANDLE_VALUE, hv])

/-- Characterisation of `InitializeInbox` in one step: the outcome of its `CreateMailslot` call decides the
result. -/
theorem InitializeInbox_eq (os : Win32 ω) (id : String) (s : IPCController) (w : ω) :
    InitializeInbox os id s w =
      match os.CreateMailslot (inboxName id s) (worldAtInboxBind os s w) with
      | (none, w1) =>
        (false, { s with
          mailslot_in_str := inboxName id s, mailslot_in := INVALID_HANDLE_VALUE,
          ipc_valid_inbox := false, ipc_inbox_enabled := true,
          last_error := dwordToInt (os.GetLastError w1),
          error_count := (s.error_count + 1) % SIZE_MOD }, w1)
      | (some h, w1) =>
        (true, { s with
          mailslot_in_str := inboxName id s, mailslot_in := some h,
          ipc_valid_inbox := true, ipc_valid := true, ipc_inbox_enabled := true }, w1) := by
  cases hv : s.ipc_valid_inbox <;> cases he : id.isEmpty <;>
    simp only [InitializeInbox, inboxName, worldAtInboxBind, IPCReportError, hv, he] <;>
    simp only [Bool.not_true, Bool.not_false, Bool.false_eq_true, if_true, if_false] <;>
    (split <;> rename_i heq <;> first | simp only [heq] | simp [heq, INVALID_HANDLE_VALUE, hv])

/-- C8: when the `CreateFile` call of `InitializeOutbox` fails, `InitializeOutbox` returns
false, `validOutbox` is false afterwards, the last error is the code `GetLastError` reports
after the failed call, the error counter has gone up by one (in `size_t` arithmetic, so by
exactly one unless it was at its maximum), and the inbox flags and both queues are what they
were. The same holds for `InitializeInbox` and its `CreateMailslot` call, with the roles of
inbox and outbox exchanged. -/
theorem Initialize_bind_failure (os : Win32 ω) (id : String) (s : IPCController) (w : ω) :
    ((os.CreateFile (outboxName id s) (worldAtOutboxBind os s w)).1 = none →
      (InitializeOutbox os id s w).1 = false ∧
      (InitializeOutbox os id s w).2.1.ipc_valid_outbox = false ∧
      (InitializeOutbox os id s w).2.2 =
        (os.CreateFile (outboxName id s) (worldAtOutboxBind os s w)).2 ∧
      (InitializeOutbox os id s w).2.1.last_error =
        dwordToInt (os.GetLastError (InitializeOutbox os id s w).2.2) ∧
      (InitializeOutbox os id s w).2.1.error_count = (s.error_count + 1) % SIZE_MOD ∧
      (s.error_count + 1 < SIZE_MOD →
        (InitializeOutbox os id s w).2.1.error_count = s.error_count + 1) ∧
      (InitializeOutbox os id s w).2.1.ipc_valid_inbox = s.ipc_valid_inbox ∧
      (InitializeOutbox os id s w).2.1.ipc_inbox_enabled = s.ipc_inbox_enabled ∧
      (InitializeOutbox os id s w).2.1.outgoing_messages = s.outgoing_messages ∧
      (InitializeOutbox os id s w).2.1.incoming_messages = s.incoming_messages) ∧
    ((os.CreateMailslot (inboxName id s) (worldAtInboxBind os s w)).1 = none →
      (InitializeInbox os id s w).1 = false ∧
      (InitializeInbox os id s w).2.1.ipc_valid_inbox = false ∧
      (InitializeInbox os id s w).2.2 =
        (os.CreateMailslot (inboxName id s) (worldAtInboxBind os s w)).2 ∧
      (InitializeInbox os id s w).2.1.last_error =
        dwordToInt (os.GetLastError (InitializeInbox os id s w).2.2) ∧
      (InitializeInbox os id s w).2.1.error_count = (s.error_count + 1) % SIZE_MOD ∧
      (s.error_count + 1 < SIZE_MOD →
        (InitializeInbox os id s w).2.1.error_count = s.error_count + 1) ∧
      (InitializeInbox os id s w).2.1.ipc_valid_outbox = s.ipc_valid_outbox ∧
      (InitializeInbox os id s w).2.1.ipc_outbox_enabled = s.ipc_outbox_enabled ∧
      (InitializeInbox os id s w).2.1.outgoing_messages = s.outgoing_messages ∧
      (InitializeInbox os id s w).2.1.incoming_messages = s.incoming_messages) := by
  have hmod : s.error_count + 1 < SIZE_MOD → (s.error_count + 1) % SIZE_MOD = s.error_count + 1 :=
    fun h => Nat.mod_eq_of_lt h
  constructor
  · rw [InitializeOutbox_eq]
    rcases os.CreateFile (outboxName id s) (worldAtOutboxBind os s w) with ⟨_ | h, w1⟩
    · intro _
      exact ⟨rfl, rfl, rfl, rfl, rfl, hmod, rfl, rfl, rfl, rfl⟩
    · intro h
      cases h
  · rw [InitializeInbox_eq]
    rcases os.CreateMailslot (inboxName id s) (worldAtInboxBind os s w) with ⟨_ | h, w1⟩
    · intro _
      exact ⟨rfl, rfl, rfl, rfl, rfl, hmod, rfl, rfl, rfl, rfl⟩
    · intro h
      cases h

/-- Witness of C8: binding the outbox `"x"` on a machine without mailslots fails with
`ERROR_FILE_NOT_FOUND`, and binding the inbox `"x"` on a machine where that mailslot exists
fails with `ERROR_ALREADY_EXISTS`; each time the error counter goes from 0 to 1. -/
theorem Initialize_bind_failure_witness :
    ((InitializeOutbox mailslotOS "x" IPCController.default Mailslots.empty).1 = false ∧
      (InitializeOutbox mailslotOS "x" IPCController.default Mailslots.empty).2.1.error_count =
        IPCController.default.error_count + 1) ∧
    ((InitializeInbox mailslotOS "x" IPCController.default sampleBusy).1 = false ∧
      (InitializeInbox mailslotOS "x" IPCController.default sampleBusy).2.1.error_count =
        IPCController.default.error_count + 1) := by
  have hOut := (Initialize_bind_failure mailslotOS "x" IPCController.default Mailslots.empty).1
    (by decide)
  have hIn := (Initialize_bind_failure mailslotOS "x" IPCController.default sampleBusy).2
    (by decide)
  exact ⟨⟨hOut.1, hOut.2.2.2.2.2.1 (by decide)⟩, ⟨hIn.1, hIn.2.2.2.2.2.1 (by decide)⟩⟩

/-! ## Theorems: the drain pass -/

/-- The writes of a concatenated log. -/
theorem writesOf_append (l1 l2 : List Call) : writesOf (l1 ++ l2) = writesOf l1 ++ writesOf l2 := by
  induction l1 with
  | nil => rfl
  | cons c cs ih => cases c <;> simp [writesOf, ih]

/-- The loop of `IPCWriteData` on a transport whose writes all succeed: it empties the queue,
and its writes carry `payload` once and then `staleVal`, once for every further element. -/
theorem IPCWriteData.loop_all_succeed (os : Win32 ω)
    (hw : ∀ h d w, (os.WriteFile h d w).1 = true) (staleVal : Msg) :
    ∀ (q : List Msg) (payload : Msg) (s : IPCController) (w : ω) (log : List Call),
      s.outgoing_messages = q →
      (IPCWriteData.loop (traced os) staleVal payload q s (w, log)).1 = true ∧
      (IPCWriteData.loop (traced os) staleVal payload q s (w, log)).2.1 =
        { s with outgoing_messages := [] } ∧
      writesOf (IPCWriteData.loop (traced os) staleVal payload q s (w, log)).2.2.2 =
        writesOf log ++
          (match q with
           | [] => []
           | _ :: rest => payload :: List.replicate rest.length staleVal) := by
  intro q
  induction q with
  | nil =>
    intro payload s w log hq
    refine ⟨rfl, ?_, by simp [IPCWriteData.loop]⟩
    simp only [IPCWriteData.loop]
    rw [← hq]
  | cons m rest ih =>
    intro payload s w log _
    have hstep : IPCWriteData.loop (traced os) staleVal payload (m :: rest) s (w, log) =
        IPCWriteData.loop (traced os) staleVal staleVal rest { s with outgoing_messages := rest }
          ((os.WriteFile s.mailslot_out payload w).2,
            log ++ [Call.WriteFile s.mailslot_out payload]) := by
      simp [IPCWriteData.loop, traced, hw]
    rw [hstep]
    obtain ⟨h1, h2, h3⟩ := ih staleVal { s with outgoing_messages := rest }
      (os.WriteFile s.mailslot_out payload w).2 (log ++ [Call.WriteFile s.mailslot_out payload]) rfl
    refine ⟨h1, h2, ?_⟩
    rw [h3, writesOf_append]
    cases rest with
    | nil => simp [writesOf]
    | cons m2 rest2 => simp [writesOf, List.replicate_succ]

/-- A drain pass over the queue `m1 :: rest` with a valid outbox, on a transport whose writes
all succeed: the pass returns true, empties the queue and makes one write per element; the
first carries `m1`, every later one what a read of the destroyed front yields, `stale m1`. -/
theorem IPCWriteData_all_succeed (os : Win32 ω) (hw : ∀ h d w, (os.WriteFile h d w).1 = true)
    (stale : Msg → Msg) (s : IPCController) (w : ω) (m1 : Msg) (rest : List Msg)
    (hv : s.ipc_valid_outbox = true) (hq : s.outgoing_messages = m1 :: rest) :
    (IPCWriteData (traced os) stale s (w, [])).1 = true ∧
    (IPCWriteData (traced os) stale s (w, [])).2.1 = { s with outgoing_messages := [] } ∧
    writesOf (IPCWriteData (traced os) stale s (w, [])).2.2.2 =
      m1 :: List.replicate rest.length (stale m1) := by
  have h := IPCWriteData.loop_all_succeed os hw (stale m1) (m1 :: rest) m1 s w [] hq
  have he : IPCWriteData (traced os) stale s (w, []) =
      IPCWriteData.loop (traced os) (stale m1) m1 (m1 :: rest) s (w, []) := by
    simp [IPCWriteData, hv, hq]
  rw [he]
  simpa [writesOf] using h

/-- C1, at the queue `"a", "b"`: on the machine where A has bound the inbox `"x"` and B the
outbox `"x"`, after B's `Send("a")` and `Send("b")` one drain pass of B returns true, leaves
the outgoing queue empty and makes exactly two writes, both of which succeed; the first
carries `"a"`, the second carries what a read of the destroyed front element yields,
`stale "a"`, whatever `"b"` is. -/
theorem IPCWriteData_second_write (stale : Msg → Msg) :
    (Send "b" (Send "a" sampleWriter).2).2.outgoing_messages = ["a", "b"] ∧
    (Send "b" (Send "a" sampleWriter).2).2.ipc_valid_outbox = true ∧
    IPCWriteData (traced mailslotOS) stale (Send "b" (Send "a" sampleWriter).2).2
        (sampleConnected, []) =
      (true, sampleWriter, sampleConnected.setPending sampleName ["a", stale "a"],
        [Call.WriteFile (some 1) "a", Call.WriteFile (some 1) (stale "a")]) ∧
    sampleWriter.outgoing_messages = [] :=
  ⟨rfl, rfl, rfl, rfl⟩

/-! ## Theorems: the read pass -/

/-- A read pass that finds one message `m` waiting: the length query reports the size of `m`
and a count `c` with `0 < c ≤ size`, the read returns `m` whole, and the second query reports
no message. The pass then returns true and has appended `m` to the incoming queue. -/
theorem IPCReadData_one_message (os : Win32 ω) (s : IPCController) (w w1 w2 w3 : ω) (m : Msg)
    (c c2 : DWORD) (fuel : Nat)
    (hv : s.ipc_valid_inbox = true)
    (h1 : os.GetMailslotInfo s.mailslot_in w = (some (m.length, c), w1))
    (h2 : os.ReadFile s.mailslot_in (if m.length > BUFSIZE then m.length else BUFSIZE)
      m.length w1 = (ReadResult.ok m, w2))
    (h3 : os.GetMailslotInfo s.mailslot_in w2 = (some (MAILSLOT_NO_MESSAGE, c2), w3))
    (hc : c ≠ 0) (hcm : c ≤ m.length) (hmax : m.length < MAILSLOT_NO_MESSAGE) :
    IPCReadData os (fuel + 2) s w =
      some (true, { s with incoming_messages := s.incoming_messages ++ [m] }, w3) := by
  have hne : m.length ≠ MAILSLOT_NO_MESSAGE := Nat.ne_of_lt hmax
  have hpos : m.length ≠ 0 := fun h => hc (Nat.le_zero.mp (h ▸ hcm))
  have hmod : m.length % 4294967296 = m.length :=
    Nat.mod_eq_of_lt (Nat.lt_trans hmax (by decide))
  have hnot : ¬ m.length < c := Nat.not_lt.mpr hcm
  simp [IPCReadData, IPCReadData.outer, IPCReadData.inner, hv, h1, h2, h3, hne, hc, hpos, hmod,
    hnot]

/-- On `Mailslots`, replacing the pending messages of an existing mailslot is seen by a
later lookup of its name. -/
theorem lookup_setPending (name : String) (q : List Msg) :
    ∀ (slots : List (String × List Msg)) (q0 : List Msg), slots.lookup name = some q0 →
      (slots.map fun p => if p.1 = name then (name, q) else p).lookup name = some q := by
  intro slots
  induction slots with
  | nil => intro q0 h; simp at h
  | cons p rest ih =>
    intro q0 h
    obtain ⟨k, v⟩ := p
    by_cases hk : k = name
    · subst hk
      simp
    · have hk2 : (name == k) = false := by simpa using fun h => hk h.symm
      simp only [List.lookup_cons, hk2] at h
      simp only [List.map_cons, hk, if_false, List.lookup_cons, hk2]
      exact ih q0 h

/-- C7: on a valid inbox whose mailslot holds one pending message `m` of more than
`BUFSIZE = 4096` bytes (and of a size a `DWORD` other than `MAILSLOT_NO_MESSAGE` can hold),
a read pass on the mailslot transport, given fuel for two loop iterations or more, returns
true, appends exactly the one entry `m` to the incoming queue, changes nothing else in the
channel and leaves the mailslot empty; it makes a single read, into a buffer of the size of
`m`, asking for that many bytes. -/
theorem IPCReadData_large_message (s : IPCController) (w : Mailslots) (name : String) (m : Msg)
    (fuel : Nat) (log : List Call)
    (hv : s.ipc_valid_inbox = true)
    (hobj : w.object s.mailslot_in = some (true, name))
    (hq : w.slots.lookup name = some [m])
    (hL : BUFSIZE < m.length) (hmax : m.length < MAILSLOT_NO_MESSAGE) (hfuel : 2 ≤ fuel) :
    IPCReadData mailslotOS fuel s w =
      some (true, { s with incoming_messages := s.incoming_messages ++ [m] },
        w.setPending name []) ∧
    IPCReadData (traced mailslotOS) fuel s (w, log) =
      some (true, { s with incoming_messages := s.incoming_messages ++ [m] },
        w.setPending name [],
        log ++ [Call.GetMailslotInfo s.mailslot_in,
          Call.ReadFile s.mailslot_in m.length m.length,
          Call.GetMailslotInfo s.mailslot_in]) := by
  obtain ⟨n, rfl⟩ : ∃ n, fuel = n + 2 := ⟨fuel - 2, by omega⟩
  have hpend : w.pending s.mailslot_in = some [m] := by simp [Mailslots.pending, hobj, hq]
  have hobj2 : (w.setPending name []).object s.mailslot_in = some (true, name) := by
    simpa [Mailslots.object, Mailslots.setPending] using hobj
  have hpend2 : (w.setPending name []).pending s.mailslot_in = some [] := by
    simp only [Mailslots.pending, hobj2]
    exact lookup_setPending name [] w.slots [m] hq
  have hcap : (if m.length > BUFSIZE then m.length else BUFSIZE) = m.length := if_pos hL
  have hbig : 1 ≤ m.length := Nat.le_trans (by decide) (Nat.le_of_lt hL)
  have g1 : mailslotOS.GetMailslotInfo s.mailslot_in w = (some (m.length, 1), w) := by
    simp [mailslotOS, hpend]
  have g2 : mailslotOS.ReadFile s.mailslot_in
      (if m.length > BUFSIZE then m.length else BUFSIZE) m.length w =
        (ReadResult.ok m, w.setPending name []) := by
    simp [mailslotOS, hpend, hobj]
  have g3 : mailslotOS.GetMailslotInfo s.mailslot_in (w.setPending name []) =
      (some (MAILSLOT_NO_MESSAGE, 0), w.setPending name []) := by
    simp [mailslotOS, hpend2]
  constructor
  · exact IPCReadData_one_message mailslotOS s w w (w.setPending name []) (w.setPending name [])
      m 1 0 n hv g1 g2 g3 (by decide) hbig hmax
  · have t1 : (traced mailslotOS).GetMailslotInfo s.mailslot_in (w, log) =
        (some (m.length, 1), w, log ++ [Call.GetMailslotInfo s.mailslot_in]) := by
      simp [traced, g1]
    have t2 : (traced mailslotOS).ReadFile s.mailslot_in
        (if m.length > BUFSIZE then m.length else BUFSIZE) m.length
          (w, log ++ [Call.GetMailslotInfo s.mailslot_in]) =
        (ReadResult.ok m, w.setPending name [],
          log ++ [Call.GetMailslotInfo s.mailslot_in] ++
            [Call.ReadFile s.mailslot_in m.length m.length]) := by
      rw [hcap] at g2 ⊢
      simp only [traced, g2]
    have t3 : (traced mailslotOS).GetMailslotInfo s.mailslot_in
        (w.setPending name [], log ++ [Call.GetMailslotInfo s.mailslot_in] ++
            [Call.ReadFile s.mailslot_in m.length m.length]) =
        (some (MAILSLOT_NO_MESSAGE, 0), w.setPending name [],
          log ++ [Call.GetMailslotInfo s.mailslot_in] ++
            [Call.ReadFile s.mailslot_in m.length m.length] ++
            [Call.GetMailslotInfo s.mailslot_in]) := by
      simp [traced, g3]
    have h := IPCReadData_one_message (traced mailslotOS) s _ _ _ _ m 1 0 n hv t1 t2 t3
      (by decide) hbig hmax
    simpa using h

/-- The size of `sampleLarge`. -/
theorem sampleLarge_length : sampleLarge.length = 10000 :=
  List.length_replicate ..

/-- Witness of C7: channel A, its inbox bound to `"x"`, with the 10000-byte message
`sampleLarge` as the only pending one. -/
theorem IPCReadData_large_message_witness :
    sampleLarge.length = 10000 ∧
    IPCReadData mailslotOS 2 sampleReader sampleLargePending =
      some (true,
        { sampleReader with incoming_messages := sampleReader.incoming_messages ++ [sampleLarge] },
        sampleLargePending.setPending sampleName []) :=
  ⟨sampleLarge_length,
   (IPCReadData_large_message sampleReader sampleLargePending sampleName sampleLarge 2 []
      rfl rfl rfl (by rw [sampleLarge_length]; decide) (by rw [sampleLarge_length]; decide)
      (by decide)).1⟩

/-- C2, at the pending messages `"a", "b"`: B sends `"a"` and `"b"`, draining after each, so
that A's mailslot holds the two one-byte messages; A's inbox is valid and every length query
and read succeeds. One read pass of A, given fuel for three loop iterations or more, returns
true and appends ONE entry, `"ab"`, to the incoming queue: the length query stores the number
of waiting messages, 2, in `szMsg`, and the inner loop reads on until `totalBytes` reaches
it. The first `Receive` then returns `"ab"` and the second returns false. -/
theorem IPCReadData_merges_short_messages (stale : Msg → Msg) (n : Nat) :
    IPCHandle.iteration mailslotOS stale n (Send "a" sampleWriter).2 sampleConnected =
      some (sampleWriter, sampleConnected.setPending sampleName ["a"]) ∧
    IPCHandle.iteration mailslotOS stale n (Send "b" sampleWriter).2
        (sampleConnected.setPending sampleName ["a"]) =
      some (sampleWriter, sampleConnected.setPending sampleName ["a", "b"]) ∧
    sampleReader.ipc_valid_inbox = true ∧
    mailslotOS.GetMailslotInfo sampleReader.mailslot_in
        (sampleConnected.setPending sampleName ["a", "b"]) =
      (some (1, 2), sampleConnected.setPending sampleName ["a", "b"]) ∧
    IPCReadData mailslotOS (n + 3) sampleReader
        (sampleConnected.setPending sampleName ["a", "b"]) =
      some (true, { sampleReader with incoming_messages := ["ab"] }, sampleConnected) ∧
    Receive "" { sampleReader with incoming_messages := ["ab"] } = (true, "ab", sampleReader) ∧
    Receive "" sampleReader = (false, "", sampleReader) :=
  ⟨rfl, rfl, rfl, rfl, rfl, rfl, rfl⟩

/-! ## Theorems: end to end -/

/-- C6: on a machine without mailslots channel A binds the inbox `"x"`, then channel B binds
the outbox `"x"`; both calls return true. B's `Send("hello;world")` returns true; one
iteration of B's pump writes the message and empties B's outgoing queue; one iteration of A's
pump (fuel for two loop iterations or more) appends `"hello;world"` to A's incoming queue.
A's first `Receive` returns true with exactly `"hello;world"`, the second returns false and
leaves its out-parameter alone. -/
theorem end_to_end_hello_world (stale : Msg → Msg) (n : Nat) (out : Msg) :
    InitializeInbox mailslotOS "x" IPCController.default Mailslots.empty =
      (true, sampleReader, sampleBusy) ∧
    InitializeOutbox mailslotOS "x" IPCController.default sampleBusy =
      (true, sampleWriter, sampleConnected) ∧
    (Send "hello;world" sampleWriter).1 = true ∧
    IPCHandle.iteration mailslotOS stale n (Send "hello;world" sampleWriter).2 sampleConnected =
      some (sampleWriter, sampleConnected.setPending sampleName ["hello;world"]) ∧
    IPCHandle.iteration mailslotOS stale (n + 2) sampleReader
        (sampleConnected.setPending sampleName ["hello;world"]) =
      some ({ sampleReader with incoming_messages := ["hello;world"] }, sampleConnected) ∧
    Receive out { sampleReader with incoming_messages := ["hello;world"] } =
      (true, "hello;world", sampleReader) ∧
    Receive out sampleReader = (false, out, sampleReader) :=
  ⟨rfl, rfl, rfl, rfl, rfl, rfl, rfl⟩

/-! ## Theorems: rebinding after a failed write -/

/-- When its bind succeeds, `InitializeOutbox` returns true, sets `validOutbox` and `valid`,
and leaves the error counter, the last error, the inbox flags and both queues as they were;
`CloseHandle(mailslot_out)` precedes the bind exactly when `validOutbox` was set.
`InitializeInbox` likewise. -/
theorem Initialize_bind_success (os : Win32 ω) (id : String) (s : IPCController) (w : ω) :
    ((os.CreateFile (outboxName id s) (worldAtOutboxBind os s w)).1.isSome = true →
      (InitializeOutbox os id s w).1 = true ∧
      (InitializeOutbox os id s w).2.1 =
        { s with
          mailslot_out_str := outboxName id s,
          mailslot_out := (os.CreateFile (outboxName id s) (worldAtOutboxBind os s w)).1,
          ipc_valid_outbox := true, ipc_valid := true, ipc_outbox_enabled := true }) ∧
    ((os.CreateMailslot (inboxName id s) (worldAtInboxBind os s w)).1.isSome = true →
      (InitializeInbox os id s w).1 = true ∧
      (InitializeInbox os id s w).2.1 =
        { s with
          mailslot_in_str := inboxName id s,
          mailslot_in := (os.CreateMailslot (inboxName id s) (worldAtInboxBind os s w)).1,
          ipc_valid_inbox := true, ipc_valid := true, ipc_inbox_enabled := true }) := by
  constructor
  · rw [InitializeOutbox_eq]
    rcases os.CreateFile (outboxName id s) (worldAtOutboxBind os s w) with ⟨_ | h, w1⟩
    · intro h
      cases h
    · intro _
      exact ⟨rfl, rfl⟩
  · rw [InitializeInbox_eq]
    rcases os.CreateMailslot (inboxName id s) (worldAtInboxBind os s w) with ⟨_ | h, w1⟩
    · intro h
      cases h
    · intro _
      exact ⟨rfl, rfl⟩

/-- C9, at a channel whose outbox was invalidated by a failed write: B has bound the outbox
`"x"` (handle 1) and sent `"m"`; A disables its inbox, so the write of B's drain pass fails
and `IPCWriteData` clears `validOutbox` without closing handle 1; A binds the inbox `"x"`
again. B's `InitializeOutbox()` then succeeds, returns true and sets `validOutbox` and
`valid`, and its only Win32 call is the `CreateFile`: handle 1 was open before the call, no
`CloseHandle` is made, `mailslot_out` becomes handle 3 and handle 1 is still open. -/
theorem InitializeOutbox_skips_close (stale : Msg → Msg) (n : Nat) :
    IPCHandle.iteration mailslotOS stale n (Send "m" sampleWriter).2 sampleOrphaned =
      some (sampleInvalidated, sampleAfterFailure) ∧
    sampleInvalidated.mailslot_out = some 1 ∧
    sampleRebound.object (some 1) = some (false, sampleName) ∧
    (InitializeOutbox (traced mailslotOS) "" sampleInvalidated (sampleRebound, [])).1 = true ∧
    (InitializeOutbox (traced mailslotOS) "" sampleInvalidated (sampleRebound, [])).2.1 =
      { sampleInvalidated with mailslot_out := some 3, ipc_valid_outbox := true } ∧
    (InitializeOutbox (traced mailslotOS) "" sampleInvalidated (sampleRebound, [])).2.2.2 =
      [Call.CreateFile sampleName] ∧
    (InitializeOutbox (traced mailslotOS) "" sampleInvalidated
      (sampleRebound, [])).2.2.1.object (some 1) = some (false, sampleName) :=
  ⟨rfl, rfl, rfl, rfl, rfl, rfl, rfl⟩

/-! ## Theorems: the bound names -/

/-- C14: `InitializeInbox(id)` with a non-empty `id` makes `\\.\mailslot\` followed by `id`
the inbox name, with an empty `id` it leaves the inbox name as it was; in both cases its
`CreateMailslot` call is made on that name (preceded by `CloseHandle(mailslot_in)` when
`validInbox` was set, and by no other call), and the outbox name is not changed. The same
holds for `InitializeOutbox`, its `CreateFile` call and the outbox name, the inbox name
being left alone. -/
theorem Initialize_names (os : Win32 ω) (id : String) (s : IPCController) (w : ω)
    (log : List Call) :
    (id ≠ "" → inboxName id s = IPC_MAILSLOT_HEADER ++ id ∧
      outboxName id s = IPC_MAILSLOT_HEADER ++ id) ∧
    (inboxName "" s = s.mailslot_in_str ∧ outboxName "" s = s.mailslot_out_str) ∧
    ((InitializeInbox os id s w).2.1.mailslot_in_str = inboxName id s ∧
      (InitializeInbox os id s w).2.1.mailslot_out_str = s.mailslot_out_str ∧
      (InitializeInbox (traced os) id s (w, log)).2.2.2 =
        log ++ (if s.ipc_valid_inbox then [Call.CloseHandle s.mailslot_in] else []) ++
          [Call.CreateMailslot (inboxName id s)]) ∧
    ((InitializeOutbox os id s w).2.1.mailslot_out_str = outboxName id s ∧
      (InitializeOutbox os id s w).2.1.mailslot_in_str = s.mailslot_in_str ∧
      (InitializeOutbox (traced os) id s (w, log)).2.2.2 =
        log ++ (if s.ipc_valid_outbox then [Call.CloseHandle s.mailslot_out] else []) ++
          [Call.CreateFile (outboxName id s)]) := by
  refine ⟨?_, ⟨rfl, rfl⟩, ⟨?_, ?_, ?_⟩, ⟨?_, ?_, ?_⟩⟩
  · intro h
    have he : id.isEmpty = false := by
      cases hb : id.isEmpty
      · rfl
      · exact absurd ((String.isEmpty_iff id).mp hb) h
    simp [inboxName, outboxName, he]
  · rw [InitializeInbox_eq]
    rcases os.CreateMailslot (inboxName id s) (worldAtInboxBind os s w) with ⟨_ | h, w1⟩ <;> rfl
  · rw [InitializeInbox_eq]
    rcases os.CreateMailslot (inboxName id s) (worldAtInboxBind os s w) with ⟨_ | h, w1⟩ <;> rfl
  · rw [InitializeInbox_eq]
    cases hv : s.ipc_valid_inbox <;>
      simp only [worldAtInboxBind, hv, traced] <;>
      (split <;> rename_i heq <;> simp at heq <;> simp [← heq.2])
  · rw [InitializeOutbox_eq]
    rcases os.CreateFile (outboxName id s) (worldAtOutboxBind os s w) with ⟨_ | h, w1⟩ <;> rfl
  · rw [InitializeOutbox_eq]
    rcases os.CreateFile (outboxName id s) (worldAtOutboxBind os s w) with ⟨_ | h, w1⟩ <;> rfl
  · rw [InitializeOutbox_eq]
    cases hv : s.ipc_valid_outbox <;>
      simp only [worldAtOutboxBind, hv, traced] <;>
      (split <;> rename_i heq <;> simp at heq <;> simp [← heq.2])

/-- Witness of C14: binding the inbox `"x"` on a fresh channel names the mailslot
`\\.\mailslot\x`; a later `InitializeInbox()` keeps that name and binds on it. -/
theorem Initialize_names_witness :
    inboxName "x" IPCController.default = IPC_MAILSLOT_HEADER ++ "x" ∧
    (InitializeInbox mailslotOS "" sampleReader sampleBusy).2.1.mailslot_in_str =
      IPC_MAILSLOT_HEADER ++ "x" :=
  ⟨((Initialize_names mailslotOS "x" IPCController.default Mailslots.empty []).1
      (by decide)).1,
   (Initialize_names mailslotOS "" sampleReader sampleBusy []).2.2.1.1⟩

/-! ## Theorems: what a pass can change and which calls it makes -/

/-- The number of inbox binds of a log with one more call. -/
theorem inboxBinds_snoc (lg : List (Call × Bool)) (c : Call × Bool) :
    inboxBinds (lg ++ [c]) =
      inboxBinds lg + (match c.1 with | Call.CreateMailslot _ => 1 | _ => 0) := by
  obtain ⟨c, b⟩ := c
  cases c <;> simp [inboxBinds, List.filter_append]

/-- The number of outbox binds of a log with one more call. -/
theorem outboxBinds_snoc (lg : List (Call × Bool)) (c : Call × Bool) :
    outboxBinds (lg ++ [c]) =
      outboxBinds lg + (match c.1 with | Call.CreateFile _ => 1 | _ => 0) := by
  obtain ⟨c, b⟩ := c
  cases c <;> simp [outboxBinds, List.filter_append]

/-- The number of failures of a log with one more call. -/
theorem failures_snoc (lg : List (Call × Bool)) (c : Call × Bool) :
    failures (lg ++ [c]) = failures lg + (if c.2 then 0 else 1) := by
  obtain ⟨c, b⟩ := c
  cases b <;> simp [failures, List.filter_append]

/-- The inner loop of the read pass, on the audited interface: it makes no bind call and at
most one failing call, and none when it ends with a message. -/
theorem IPCReadData.inner_audit (os : Win32 ω) (h : HANDLE) (szNextMsg szMsg : DWORD) :
    ∀ (fuel : Nat) (totalBytes retryCount : DWORD) (msgCache : Msg) (w : ω)
      (log : List (Call × Bool)) (res : Option Msg) (w1 : ω) (log1 : List (Call × Bool)),
      IPCReadData.inner (audited os) h szNextMsg szMsg fuel totalBytes retryCount msgCache
        (w, log) = some (res, w1, log1) →
      inboxBinds log1 = inboxBinds log ∧ outboxBinds log1 = outboxBinds log ∧
      failures log ≤ failures log1 ∧ failures log1 ≤ failures log + 1 ∧
      (res.isSome = true → failures log1 = failures log) := by
  intro fuel
  induction fuel with
  | zero =>
    intro totalBytes retryCount msgCache w log res w1 log1 hrun
    simp [IPCReadData.inner] at hrun
  | succ fuel ih =>
    intro totalBytes retryCount msgCache w log res w1 log1 hrun
    rcases hrf : os.ReadFile h (if szNextMsg > BUFSIZE then szNextMsg else BUFSIZE) szNextMsg w
      with ⟨r, w2⟩
    cases r with
    | blocks => simp [IPCReadData.inner, audited, hrf] at hrun
    | failed =>
      simp only [IPCReadData.inner, audited, hrf] at hrun
      simp only [Option.some.injEq, Prod.mk.injEq] at hrun
      obtain ⟨rfl, rfl, rfl⟩ := hrun
      simp [inboxBinds, outboxBinds, failures, List.filter_append]
    | ok data =>
      simp only [IPCReadData.inner, audited, hrf] at hrun
      split at hrun
      · split at hrun
        · simp only [Option.some.injEq, Prod.mk.injEq] at hrun
          obtain ⟨rfl, rfl, rfl⟩ := hrun
          simp [inboxBinds, outboxBinds, failures, List.filter_append]
        · split at hrun
          · have := ih _ _ _ _ _ _ _ _ hrun
            simpa [inboxBinds, outboxBinds, failures, List.filter_append] using this
          · simp only [Option.some.injEq, Prod.mk.injEq] at hrun
            obtain ⟨rfl, rfl, rfl⟩ := hrun
            simp [inboxBinds, outboxBinds, failures, List.filter_append]
      · split at hrun
        · have := ih _ _ _ _ _ _ _ _ hrun
          simpa [inboxBinds, outboxBinds, failures, List.filter_append] using this
        · simp only [Option.some.injEq, Prod.mk.injEq] at hrun
          obtain ⟨rfl, rfl, rfl⟩ := hrun
          simp [inboxBinds, outboxBinds, failures, List.filter_append]

/-- The outer loop of the read pass, on the audited interface: it changes only what a read
pass may change, makes no bind call, and either reports nothing while no call fails, or
returns false having reported one error, with the platform error as last error, at most one
call having failed. -/
theorem IPCReadData.outer_audit (os : Win32 ω) :
    ∀ (fuel : Nat) (szNextMsg szMsg : DWORD) (s : IPCController) (w : ω)
      (log : List (Call × Bool)) (r : Bool) (s1 : IPCController) (w1 : ω)
      (log1 : List (Call × Bool)),
      IPCReadData.outer (audited os) fuel szNextMsg szMsg s (w, log) = some (r, s1, w1, log1) →
      ReadFrame s s1 ∧ inboxBinds log1 = inboxBinds log ∧ outboxBinds log1 = outboxBinds log ∧
      Reported s.error_count s.last_error (failures log) s1.error_count s1.last_error
        (failures log1) (os.GetLastError w1) := by
  intro fuel
  induction fuel with
  | zero =>
    intro szNextMsg szMsg s w log r s1 w1 log1 hrun
    simp [IPCReadData.outer] at hrun
  | succ fuel ih =>
    intro szNextMsg szMsg s w log r s1 w1 log1 hrun
    simp only [IPCReadData.outer] at hrun
    split at hrun
    · simp only [Option.some.injEq, Prod.mk.injEq] at hrun
      obtain ⟨rfl, rfl, rfl, rfl⟩ := hrun
      simp [ReadFrame, Reported]
    · rcases hin : IPCReadData.inner (audited os) s.mailslot_in szNextMsg szMsg fuel 0 4 ""
        (w, log) with _ | ⟨res, w2, log2⟩
      · simp [hin] at hrun
      · obtain ⟨hb1, hb2, hf1, hf2, hf3⟩ :=
          IPCReadData.inner_audit os _ _ _ _ _ _ _ _ _ _ _ _ hin
        cases res with
        | none =>
          simp only [hin, Option.some.injEq, Prod.mk.injEq] at hrun
          obtain ⟨rfl, rfl, rfl, rfl⟩ := hrun
          refine ⟨by simp [ReadFrame, IPCReportError], hb1, hb2, Or.inr ?_⟩
          exact ⟨rfl, rfl, hf1, hf2⟩
        | some msg =>
          have hf := hf3 rfl
          simp only [hin] at hrun
          rcases hq : os.GetMailslotInfo s.mailslot_in w2 with ⟨q, w3⟩
          cases q with
          | none =>
            simp only [audited, hq, Option.some.injEq, Prod.mk.injEq] at hrun
            obtain ⟨rfl, rfl, rfl, rfl⟩ := hrun
            refine ⟨by simp [ReadFrame, IPCReportError], ?_, ?_, Or.inr ?_⟩
            · simp [inboxBinds, List.filter_append] at hb1 ⊢
              exact hb1
            · simp [outboxBinds, List.filter_append] at hb2 ⊢
              exact hb2
            · refine ⟨rfl, rfl, ?_, ?_⟩ <;>
                simp [failures, List.filter_append] at hf ⊢ <;> omega
          | some p =>
            obtain ⟨n, c⟩ := p
            simp only [audited, hq] at hrun
            have hb1' : inboxBinds (log2 ++ [(Call.GetMailslotInfo s.mailslot_in, true)]) =
                inboxBinds log := by
              simp [inboxBinds, List.filter_append] at hb1 ⊢
              exact hb1
            have hb2' : outboxBinds (log2 ++ [(Call.GetMailslotInfo s.mailslot_in, true)]) =
                outboxBinds log := by
              simp [outboxBinds, List.filter_append] at hb2 ⊢
              exact hb2
            have hf' : failures (log2 ++ [(Call.GetMailslotInfo s.mailslot_in, true)]) =
                failures log := by
              simp [failures, List.filter_append] at hf ⊢
              exact hf
            split at hrun
            · simp only [Option.some.injEq, Prod.mk.injEq] at hrun
              obtain ⟨rfl, rfl, rfl, rfl⟩ := hrun
              refine ⟨by simp [ReadFrame], ?_, ?_, Or.inl ⟨rfl, rfl, ?_⟩⟩
              · simpa using hb1'
              · simpa using hb2'
              · simpa using hf'
            · obtain ⟨g1, g2, g3, g4⟩ := ih _ _ _ _ _ _ _ _ _ hrun
              refine ⟨?_, ?_, ?_, ?_⟩
              · simpa [ReadFrame] using g1
              · rw [g2]
                simpa using hb1'
              · rw [g3]
                simpa using hb2'
              · have g5 : Reported s.error_count s.last_error
                    (failures (log2 ++ [(Call.GetMailslotInfo s.mailslot_in, true)]))
                    s1.error_count s1.last_error (failures log1) (os.GetLastError w1) := by
                  simpa using g4
                rw [hf'] at g5
                exact g5

/-- A read pass on the audited interface: it changes only what a read pass may change, makes
no bind call, and either reports nothing while no call fails, or reports one error, with the
platform error as last error, at most one call having failed. -/
theorem IPCReadData_audit (os : Win32 ω) (fuel : Nat) (s : IPCController) (w : ω)
    (log : List (Call × Bool)) (r : Bool) (s1 : IPCController) (w1 : ω)
    (log1 : List (Call × Bool))
    (hrun : IPCReadData (audited os) fuel s (w, log) = some (r, s1, w1, log1)) :
    ReadFrame s s1 ∧ inboxBinds log1 = inboxBinds log ∧ outboxBinds log1 = outboxBinds log ∧
    Reported s.error_count s.last_error (failures log) s1.error_count s1.last_error
      (failures log1) (os.GetLastError w1) := by
  simp only [IPCReadData] at hrun
  split at hrun
  · simp only [Option.some.injEq, Prod.mk.injEq] at hrun
    obtain ⟨rfl, rfl, rfl, rfl⟩ := hrun
    simp [ReadFrame, Reported]
  · rcases hq : os.GetMailslotInfo s.mailslot_in w with ⟨q, w2⟩
    cases q with
    | none =>
      simp only [audited, hq, Option.some.injEq, Prod.mk.injEq] at hrun
      obtain ⟨rfl, rfl, rfl, rfl⟩ := hrun
      refine ⟨by simp [ReadFrame, IPCReportError], ?_, ?_, Or.inr ⟨rfl, rfl, ?_, ?_⟩⟩ <;>
        simp [inboxBinds, outboxBinds, failures, List.filter_append]
    | some p =>
      obtain ⟨n, c⟩ := p
      simp only [audited, hq] at hrun
      split at hrun
      · simp only [Option.some.injEq, Prod.mk.injEq] at hrun
        obtain ⟨rfl, rfl, rfl, rfl⟩ := hrun
        refine ⟨by simp [ReadFrame], ?_, ?_, Or.inl ⟨rfl, rfl, ?_⟩⟩ <;>
          simp [inboxBinds, outboxBinds, failures, List.filter_append]
      · obtain ⟨g1, g2, g3, g4⟩ := IPCReadData.outer_audit os _ _ _ _ _ _ _ _ _ _ hrun
        refine ⟨g1, ?_, ?_, ?_⟩
        · rw [g2]
          simp [inboxBinds, List.filter_append]
        · rw [g3]
          simp [outboxBinds, List.filter_append]
        · have e : failures (log ++ [(Call.GetMailslotInfo s.mailslot_in,
              (Option.isSome (some (n, c))))]) = failures log := by
            simp [failures, List.filter_append]
          rw [e] at g4
          exact g4

/-- The loop of the drain pass on the audited interface: it changes only what a drain pass
may change, makes no bind call, and either reports nothing while no call fails, or reports
one error, with the platform error as last error, exactly one call having failed. -/
theorem IPCWriteData.loop_audit (os : Win32 ω) (staleVal : Msg) :
    ∀ (q : List Msg) (payload : Msg) (s : IPCController) (w : ω) (log : List (Call × Bool)),
      WriteFrame s (IPCWriteData.loop (audited os) staleVal payload q s (w, log)).2.1 ∧
      inboxBinds (IPCWriteData.loop (audited os) staleVal payload q s (w, log)).2.2.2 =
        inboxBinds log ∧
      outboxBinds (IPCWriteData.loop (audited os) staleVal payload q s (w, log)).2.2.2 =
        outboxBinds log ∧
      ReportedExact s.error_count s.last_error (failures log)
        (IPCWriteData.loop (audited os) staleVal payload q s (w, log)).2.1.error_count
        (IPCWriteData.loop (audited os) staleVal payload q s (w, log)).2.1.last_error
        (failures (IPCWriteData.loop (audited os) staleVal payload q s (w, log)).2.2.2)
        (os.GetLastError (IPCWriteData.loop (audited os) staleVal payload q s (w, log)).2.2.1) := by
  intro q
  induction q with
  | nil =>
    intro payload s w log
    simp [IPCWriteData.loop, WriteFrame, ReportedExact]
  | cons m rest ih =>
    intro payload s w log
    rcases hw : os.WriteFile s.mailslot_out payload w with ⟨b, w2⟩
    cases b with
    | false =>
      have e : IPCWriteData.loop (audited os) staleVal payload (m :: rest) s (w, log) =
          (false, { IPCReportError (audited os) s (w2, log ++
            [(Call.WriteFile s.mailslot_out payload, false)]) with ipc_valid_outbox := false },
            w2, log ++ [(Call.WriteFile s.mailslot_out payload, false)]) := by
        simp [IPCWriteData.loop, audited, hw]
      rw [e]
      refine ⟨by simp [WriteFrame, IPCReportError], ?_, ?_, Or.inr ⟨rfl, rfl, ?_⟩⟩
      · simp [inboxBinds, List.filter_append]
      · simp [outboxBinds, List.filter_append]
      · simp [failures, List.filter_append]
    | true =>
      have e : IPCWriteData.loop (audited os) staleVal payload (m :: rest) s (w, log) =
          IPCWriteData.loop (audited os) staleVal staleVal rest
            { s with outgoing_messages := rest }
            (w2, log ++ [(Call.WriteFile s.mailslot_out payload, true)]) := by
        simp [IPCWriteData.loop, audited, hw]
      rw [e]
      obtain ⟨g1, g2, g3, g4⟩ := ih staleVal { s with outgoing_messages := rest } w2
        (log ++ [(Call.WriteFile s.mailslot_out payload, true)])
      have ef : failures (log ++ [(Call.WriteFile s.mailslot_out payload, true)]) =
          failures log := by simp [failures, List.filter_append]
      refine ⟨?_, ?_, ?_, ?_⟩
      · simpa [WriteFrame] using g1
      · rw [g2]
        simp [inboxBinds, List.filter_append]
      · rw [g3]
        simp [outboxBinds, List.filter_append]
      · rw [ef] at g4
        exact g4

/-- A step that reports as `Reported` says is accounted for with at most one error. -/
theorem Reported_accounted {c : Nat} {e : Int} {f c1 : Nat} {e1 : Int} {f1 : Nat} {code : DWORD}
    (h : Reported c e f c1 e1 f1 code) :
    ∃ k z, k ≤ 1 ∧ z ≤ k ∧ Accounted c f c1 f1 k z := by
  rcases h with ⟨h1, _, h3⟩ | ⟨h1, _, h3, h4⟩
  · exact ⟨0, 0, by omega, by omega, by omega, by rw [h1, Nat.add_zero]⟩
  · exact ⟨1, f + 1 - f1, by omega, by omega, by omega, by rw [h1, Nat.mod_mod]⟩

/-- After a step that reports as `Reported` says the counter is a `size_t` value. -/
theorem Reported_lt {c : Nat} {e : Int} {f c1 : Nat} {e1 : Int} {f1 : Nat} {code : DWORD}
    (h : Reported c e f c1 e1 f1 code) (hc : c < SIZE_MOD) : c1 < SIZE_MOD := by
  rcases h with ⟨h1, _, _⟩ | ⟨h1, _, _, _⟩
  · rw [h1]
    exact hc
  · rw [h1]
    exact Nat.mod_lt _ (by decide)

/-- Accounting composes. -/
theorem Accounted_trans {c f c1 f1 c2 f2 k z k2 z2 : Nat} (h1 : Accounted c f c1 f1 k z)
    (h2 : Accounted c1 f1 c2 f2 k2 z2) : Accounted c f c2 f2 (k + k2) (z + z2) := by
  obtain ⟨a1, b1⟩ := h1
  obtain ⟨a2, b2⟩ := h2
  refine ⟨by omega, ?_⟩
  rw [b2, Nat.add_mod, b1, ← Nat.add_mod, Nat.add_assoc]

/-- A step that reports nothing and makes no failing call is accounted for with no error. -/
theorem Accounted_refl {c f : Nat} : Accounted c f c f 0 0 :=
  ⟨rfl, by rw [Nat.add_zero]⟩

/-- The inbox half of a pump iteration, case by case. -/
theorem IPCHandle.inboxStep_eq (os : Win32 ω) (fuel : Nat) (s : IPCController) (w : ω) :
    (s.ipc_inbox_enabled = false → IPCHandle.inboxStep os fuel s w = some (s, w)) ∧
    (s.ipc_inbox_enabled = true → s.ipc_valid_inbox = true →
      IPCHandle.inboxStep os fuel s w = (IPCReadData os fuel s w).map fun r => r.2) ∧
    (s.ipc_inbox_enabled = true → s.ipc_valid_inbox = false →
      IPCHandle.inboxStep os fuel s w =
        (IPCReadData os fuel (InitializeInbox os "" s w).2.1
          (if (InitializeInbox os "" s w).1 then (InitializeInbox os "" s w).2.2
           else os.Sleep 100 (InitializeInbox os "" s w).2.2)).map fun r => r.2) := by
  refine ⟨?_, ?_, ?_⟩
  · intro he
    simp [IPCHandle.inboxStep, he]
  · intro he hv
    simp only [IPCHandle.inboxStep, he, hv]
    simp only [Bool.not_true, Bool.false_eq_true, if_true, if_false]
    cases IPCReadData os fuel s w <;> rfl
  · intro he hv
    simp only [IPCHandle.inboxStep, he, hv]
    simp only [Bool.not_false, if_true]
    rcases hi : InitializeInbox os "" s w with ⟨b, s2, w2⟩
    cases b
    · simp only [Bool.false_eq_true, if_false]
      cases IPCReadData os fuel s2 (os.Sleep 100 w2) <;> rfl
    · simp only [if_true]
      cases IPCReadData os fuel s2 w2 <;> rfl

/-- The outbox half of a pump iteration, case by case. -/
theorem IPCHandle.outboxStep_eq (os : Win32 ω) (stale : Msg → Msg) (s : IPCController) (w : ω) :
    (s.ipc_outbox_enabled = false → IPCHandle.outboxStep os stale s w = (s, os.Sleep 25 w)) ∧
    (s.ipc_outbox_enabled = true → s.ipc_valid_outbox = true →
      IPCHandle.outboxStep os stale s w =
        ((IPCWriteData os stale s w).2.1, os.Sleep 25 (IPCWriteData os stale s w).2.2)) ∧
    (s.ipc_outbox_enabled = true → s.ipc_valid_outbox = false →
      IPCHandle.outboxStep os stale s w =
        ((IPCWriteData os stale (InitializeOutbox os "" s w).2.1
          (if (InitializeOutbox os "" s w).1 then (InitializeOutbox os "" s w).2.2
           else os.Sleep 100 (InitializeOutbox os "" s w).2.2)).2.1,
         os.Sleep 25 (IPCWriteData os stale (InitializeOutbox os "" s w).2.1
          (if (InitializeOutbox os "" s w).1 then (InitializeOutbox os "" s w).2.2
           else os.Sleep 100 (InitializeOutbox os "" s w).2.2)).2.2)) := by
  refine ⟨?_, ?_, ?_⟩
  · intro he
    simp [IPCHandle.outboxStep, he]
  · intro he hv
    simp [IPCHandle.outboxStep, he, hv]
  · intro he hv
    simp only [IPCHandle.outboxStep, he, hv]
    rcases hi : InitializeOutbox os "" s w with ⟨b, s2, w2⟩
    cases b <;> simp

/-- Summaries compose. -/
theorem StepAudit_trans {s s1 s2 : IPCController} {log log1 log2 : List (Call × Bool)}
    {bi bo kmax zmax bi2 bo2 kmax2 zmax2 : Nat}
    (h1 : StepAudit s log s1 log1 bi bo kmax zmax)
    (h2 : StepAudit s1 log1 s2 log2 bi2 bo2 kmax2 zmax2) :
    StepAudit s log s2 log2 (bi + bi2) (bo + bo2) (kmax + kmax2) (zmax + zmax2) := by
  obtain ⟨k, z, hk, hz, ha⟩ := h1.errors
  obtain ⟨k2, z2, hk2, hz2, ha2⟩ := h2.errors
  exact ⟨by rw [h2.inbox, h1.inbox, Nat.add_assoc], by rw [h2.outbox, h1.outbox, Nat.add_assoc],
    ⟨k + k2, z + z2, by omega, by omega, Accounted_trans ha ha2⟩, fun h => h2.bounded (h1.bounded h)⟩

/-- A summary may be weakened to larger bounds. -/
theorem StepAudit.mono {s s1 : IPCController} {log log1 : List (Call × Bool)}
    {bi bo kmax zmax kmax2 zmax2 : Nat} (h : StepAudit s log s1 log1 bi bo kmax zmax)
    (hk : kmax ≤ kmax2) (hz : zmax ≤ zmax2) : StepAudit s log s1 log1 bi bo kmax2 zmax2 := by
  obtain ⟨k, z, hk1, hz1, ha⟩ := h.errors
  exact ⟨h.inbox, h.outbox, ⟨k, z, by omega, by omega, ha⟩, h.bounded⟩

/-- A `Sleep` or `CloseHandle` call changes no count. -/
theorem StepAudit.quietCall {s s1 : IPCController} {log log1 : List (Call × Bool)}
    {bi bo kmax zmax : Nat} (h : StepAudit s log s1 log1 bi bo kmax zmax) (c : Call)
    (hc : c.isBind = false) :
    StepAudit s log s1 (log1 ++ [(c, true)]) bi bo kmax zmax := by
  obtain ⟨k, z, hk1, hz1, ha1, ha2⟩ := h.errors
  refine ⟨?_, ?_, ⟨k, z, hk1, hz1, ?_, ha2⟩, h.bounded⟩
  · rw [← h.inbox]
    cases c <;> simp_all [inboxBinds, List.filter_append, Call.isBind]
  · rw [← h.outbox]
    cases c <;> simp_all [outboxBinds, List.filter_append, Call.isBind]
  · rw [← ha1]
    simp [failures, List.filter_append]

/-- The step that does nothing. -/
theorem StepAudit_refl (s : IPCController) (log : List (Call × Bool)) :
    StepAudit s log s log 0 0 0 0 :=
  ⟨rfl, rfl, ⟨0, 0, Nat.le_refl _, Nat.le_refl _, Accounted_refl⟩, fun h => h⟩

/-- Summary of `InitializeInbox` on the audited interface: one inbox bind, no outbox bind;
on success nothing is reported, on failure one error for the one failed call, with the
platform error as last error. The outbox flags and the queues are left alone, the inbox is
enabled and `validInbox` is the returned boolean. -/
theorem InitializeInbox_audit (os : Win32 ω) (id : String) (s : IPCController) (w : ω)
    (log : List (Call × Bool)) :
    StepAudit s log (InitializeInbox (audited os) id s (w, log)).2.1
      (InitializeInbox (audited os) id s (w, log)).2.2.2 1 0 1 0 ∧
    OutboxSame s (InitializeInbox (audited os) id s (w, log)).2.1 ∧
    (InitializeInbox (audited os) id s (w, log)).2.1.ipc_inbox_enabled = true ∧
    (InitializeInbox (audited os) id s (w, log)).2.1.ipc_valid_inbox =
      (InitializeInbox (audited os) id s (w, log)).1 ∧
    ((InitializeInbox (audited os) id s (w, log)).1 = true →
      (InitializeInbox (audited os) id s (w, log)).2.1.error_count = s.error_count ∧
      (InitializeInbox (audited os) id s (w, log)).2.1.last_error = s.last_error ∧
      failures (InitializeInbox (audited os) id s (w, log)).2.2.2 = failures log) ∧
    ((InitializeInbox (audited os) id s (w, log)).1 = false →
      (InitializeInbox (audited os) id s (w, log)).2.1.error_count =
        (s.error_count + 1) % SIZE_MOD ∧
      (InitializeInbox (audited os) id s (w, log)).2.1.last_error =
        dwordToInt (os.GetLastError (InitializeInbox (audited os) id s (w, log)).2.2.1) ∧
      failures (InitializeInbox (audited os) id s (w, log)).2.2.2 = failures log + 1) := by
  rw [InitializeInbox_eq]
  cases hv : s.ipc_valid_inbox <;>
    simp only [worldAtInboxBind, hv, audited, if_true, if_false, Bool.false_eq_true] <;>
    (generalize inboxName id s = name
     rcases hb : os.CreateMailslot name _ with ⟨_ | h, w2⟩
     · refine ⟨⟨?_, ?_, ⟨1, 0, Nat.le_refl _, Nat.le_refl _, ?_, ?_⟩,
           fun _ => Nat.mod_lt _ (by decide)⟩, ?_, ?_, ?_, ?_, ?_⟩ <;>
         simp [inboxBinds, outboxBinds, failures, List.filter_append, OutboxSame]
     · refine ⟨⟨?_, ?_, ⟨0, 0, Nat.zero_le _, Nat.le_refl _, ?_, ?_⟩, fun h => h⟩,
           ?_, ?_, ?_, ?_, ?_⟩ <;>
         simp [inboxBinds, outboxBinds, failures, List.filter_append, OutboxSame])

/-- Summary of `InitializeOutbox` on the audited interface, as for `InitializeInbox` with the
two directions exchanged. -/
theorem InitializeOutbox_audit (os : Win32 ω) (id : String) (s : IPCController) (w : ω)
    (log : List (Call × Bool)) :
    StepAudit s log (InitializeOutbox (audited os) id s (w, log)).2.1
      (InitializeOutbox (audited os) id s (w, log)).2.2.2 0 1 1 0 ∧
    InboxSame s (InitializeOutbox (audited os) id s (w, log)).2.1 ∧
    (InitializeOutbox (audited os) id s (w, log)).2.1.ipc_outbox_enabled = true ∧
    (InitializeOutbox (audited os) id s (w, log)).2.1.ipc_valid_outbox =
      (InitializeOutbox (audited os) id s (w, log)).1 ∧
    ((InitializeOutbox (audited os) id s (w, log)).1 = true →
      (InitializeOutbox (audited os) id s (w, log)).2.1.error_count = s.error_count ∧
      (InitializeOutbox (audited os) id s (w, log)).2.1.last_error = s.last_error ∧
      failures (InitializeOutbox (audited os) id s (w, log)).2.2.2 = failures log) ∧
    ((InitializeOutbox (audited os) id s (w, log)).1 = false →
      (InitializeOutbox (audited os) id s (w, log)).2.1.error_count =
        (s.error_count + 1) % SIZE_MOD ∧
      (InitializeOutbox (audited os) id s (w, log)).2.1.last_error =
        dwordToInt (os.GetLastError (InitializeOutbox (audited os) id s (w, log)).2.2.1) ∧
      failures (InitializeOutbox (audited os) id s (w, log)).2.2.2 = failures log + 1) := by
  rw [InitializeOutbox_eq]
  cases hv : s.ipc_valid_outbox <;>
    simp only [worldAtOutboxBind, hv, audited, if_true, if_false, Bool.false_eq_true] <;>
    (generalize outboxName id s = name
     rcases hb : os.CreateFile name _ with ⟨_ | h, w2⟩
     · refine ⟨⟨?_, ?_, ⟨1, 0, Nat.le_refl _, Nat.le_refl _, ?_, ?_⟩,
           fun _ => Nat.mod_lt _ (by decide)⟩, ?_, ?_, ?_, ?_, ?_⟩ <;>
         simp [inboxBinds, outboxBinds, failures, List.filter_append, InboxSame]
     · refine ⟨⟨?_, ?_, ⟨0, 0, Nat.zero_le _, Nat.le_refl _, ?_, ?_⟩, fun h => h⟩,
           ?_, ?_, ?_, ?_, ?_⟩ <;>
         simp [inboxBinds, outboxBinds, failures, List.filter_append, InboxSame])

/-- An exactly reported step is accounted for with at most one error, each for a failed
call. -/
theorem ReportedExact_accounted {c : Nat} {e : Int} {f c1 : Nat} {e1 : Int} {f1 : Nat}
    {code : DWORD} (h : ReportedExact c e f c1 e1 f1 code) :
    ∃ k z, k ≤ 1 ∧ z ≤ 0 ∧ Accounted c f c1 f1 k z := by
  rcases h with ⟨h1, _, h3⟩ | ⟨h1, _, h3⟩
  · exact ⟨0, 0, by omega, by omega, by omega, by rw [h1, Nat.add_zero]⟩
  · exact ⟨1, 0, by omega, by omega, by omega, by rw [h1, Nat.mod_mod]⟩

/-- After an exactly reported step the counter is a `size_t` value. -/
theorem ReportedExact_lt {c : Nat} {e : Int} {f c1 : Nat} {e1 : Int} {f1 : Nat} {code : DWORD}
    (h : ReportedExact c e f c1 e1 f1 code) (hc : c < SIZE_MOD) : c1 < SIZE_MOD := by
  rcases h with ⟨h1, _, _⟩ | ⟨h1, _, _⟩
  · rw [h1]
    exact hc
  · rw [h1]
    exact Nat.mod_lt _ (by decide)

/-- A drain pass on the audited interface: it changes only what a drain pass may change,
makes no bind call, and either reports nothing while no call fails, or reports one error,
with the platform error as last error, exactly one call (a write) having failed. -/
theorem IPCWriteData_audit (os : Win32 ω) (stale : Msg → Msg) (s : IPCController) (w : ω)
    (log : List (Call × Bool)) :
    WriteFrame s (IPCWriteData (audited os) stale s (w, log)).2.1 ∧
    inboxBinds (IPCWriteData (audited os) stale s (w, log)).2.2.2 = inboxBinds log ∧
    outboxBinds (IPCWriteData (audited os) stale s (w, log)).2.2.2 = outboxBinds log ∧
    ReportedExact s.error_count s.last_error (failures log)
      (IPCWriteData (audited os) stale s (w, log)).2.1.error_count
      (IPCWriteData (audited os) stale s (w, log)).2.1.last_error
      (failures (IPCWriteData (audited os) stale s (w, log)).2.2.2)
      (os.GetLastError (IPCWriteData (audited os) stale s (w, log)).2.2.1) := by
  simp only [IPCWriteData]
  split
  · simp [WriteFrame, ReportedExact]
  · split
    · simp [WriteFrame, ReportedExact]
    · exact IPCWriteData.loop_audit os _ _ _ s w log

/-- A `Sleep` call on the audited interface. -/
theorem audited_Sleep (os : Win32 ω) (ms : DWORD) (w : ω) (log : List (Call × Bool)) :
    (audited os).Sleep ms (w, log) = (os.Sleep ms w, log ++ [(Call.Sleep ms, true)]) := rfl

/-- Summary of the inbox half of a pump iteration on the audited interface: one inbox bind
exactly when the inbox is enabled and not valid at its start, no outbox bind, at most two
errors, at most one of them without a failed call; the outbox flags and the enabled flag of
the inbox are left alone, and a disabled inbox is left alone altogether. -/
theorem IPCHandle.inboxStep_audit (os : Win32 ω) (fuel : Nat) (s : IPCController) (w : ω)
    (log : List (Call × Bool)) (s1 : IPCController) (w1 : ω) (log1 : List (Call × Bool))
    (hrun : IPCHandle.inboxStep (audited os) fuel s (w, log) = some (s1, w1, log1)) :
    StepAudit s log s1 log1 (if s.ipc_inbox_enabled && !s.ipc_valid_inbox then 1 else 0) 0 2 1 ∧
    OutboxSame s s1 ∧ s1.ipc_inbox_enabled = s.ipc_inbox_enabled ∧
    (s.ipc_inbox_enabled = false → s1.ipc_valid_inbox = s.ipc_valid_inbox) := by
  obtain ⟨e1, e2, e3⟩ := IPCHandle.inboxStep_eq (audited os) fuel s (w, log)
  cases he : s.ipc_inbox_enabled
  · rw [e1 he] at hrun
    simp only [Option.some.injEq, Prod.mk.injEq] at hrun
    obtain ⟨rfl, rfl, rfl⟩ := hrun
    exact ⟨(StepAudit_refl s log).mono (by omega) (by omega), ⟨rfl, rfl⟩, he, fun _ => rfl⟩
  · cases hv : s.ipc_valid_inbox
    · rw [e3 he hv] at hrun
      obtain ⟨a1, a2, a3, a4, -, -⟩ := InitializeInbox_audit os "" s w log
      rcases hi : InitializeInbox (audited os) "" s (w, log) with ⟨b, s2, w2, log2⟩
      rw [hi] at hrun a1 a2 a3 a4
      simp only at hrun a1 a2 a3 a4
      have key : ∀ (lg : List (Call × Bool)) (wx : ω), StepAudit s log s2 lg 1 0 1 0 →
          IPCReadData (audited os) fuel s2 (wx, lg) = some (false, s1, w1, log1) ∨
          IPCReadData (audited os) fuel s2 (wx, lg) = some (true, s1, w1, log1) →
          StepAudit s log s1 log1 1 0 2 1 ∧ OutboxSame s s1 ∧ s1.ipc_inbox_enabled = true := by
        intro lg wx hlg hr
        have hr2 : ∃ r, IPCReadData (audited os) fuel s2 (wx, lg) = some (r, s1, w1, log1) := by
          rcases hr with h | h
          · exact ⟨false, h⟩
          · exact ⟨true, h⟩
        obtain ⟨r, hr3⟩ := hr2
        obtain ⟨g1, g2, g3, g4⟩ := IPCReadData_audit os fuel s2 wx lg r s1 w1 log1 hr3
        obtain ⟨k, z, hk, hz, ha⟩ := Reported_accounted g4
        have st : StepAudit s2 lg s1 log1 0 0 1 1 :=
          ⟨by rw [g2, Nat.add_zero], by rw [g3, Nat.add_zero], ⟨k, z, hk, by omega, ha⟩, Reported_lt g4⟩
        refine ⟨StepAudit_trans hlg st, ⟨?_, ?_⟩, ?_⟩
        · rw [g1.2.2.2.2.2.1, a2.1]
        · rw [g1.2.2.2.2.2.2.2.2.1, a2.2]
        · rw [g1.2.2.2.2.2.2.2.1, a3]
      have fin : StepAudit s log s1 log1 1 0 2 1 ∧ OutboxSame s s1 ∧
          s1.ipc_inbox_enabled = true := by
        cases b
        · simp only [Bool.false_eq_true, if_false, audited_Sleep] at hrun
          rcases hr : IPCReadData (audited os) fuel s2
            (os.Sleep 100 w2, log2 ++ [(Call.Sleep 100, true)]) with _ | ⟨r, s3, w3, log3⟩
          · simp [hr] at hrun
          · simp only [hr, Option.map_some', Option.some.injEq, Prod.mk.injEq] at hrun
            obtain ⟨rfl, rfl, rfl⟩ := hrun
            refine key _ (os.Sleep 100 w2) (a1.quietCall (Call.Sleep 100) rfl) ?_
            cases r
            · exact Or.inl hr
            · exact Or.inr hr
        · simp only [if_true] at hrun
          rcases hr : IPCReadData (audited os) fuel s2 (w2, log2) with _ | ⟨r, s3, w3, log3⟩
          · simp [hr] at hrun
          · simp only [hr, Option.map_some', Option.some.injEq, Prod.mk.injEq] at hrun
            obtain ⟨rfl, rfl, rfl⟩ := hrun
            refine key _ w2 a1 ?_
            cases r
            · exact Or.inl hr
            · exact Or.inr hr
      exact ⟨by simpa using fin.1, fin.2.1, fin.2.2, fun h => by simp at h⟩
    · rw [e2 he hv] at hrun
      rcases hr : IPCReadData (audited os) fuel s (w, log) with _ | ⟨r, s3, w3, log3⟩
      · simp [hr] at hrun
      · simp only [hr, Option.map_some', Option.some.injEq, Prod.mk.injEq] at hrun
        obtain ⟨rfl, rfl, rfl⟩ := hrun
        obtain ⟨g1, g2, g3, g4⟩ := IPCReadData_audit os fuel s w log r _ _ _ hr
        obtain ⟨k, z, hk, hz, ha⟩ := Reported_accounted g4
        refine ⟨⟨by simp [g2], by simp [g3], ⟨k, z, by omega, by omega, ha⟩, Reported_lt g4⟩,
          ⟨g1.2.2.2.2.2.1, g1.2.2.2.2.2.2.2.2.1⟩, ?_, fun h => by simp at h⟩
        rw [g1.2.2.2.2.2.2.2.1, he]

/-- Summary of a drain pass on the audited interface. -/
theorem IPCWriteData_stepAudit (os : Win32 ω) (stale : Msg → Msg) (s : IPCController) (w : ω)
    (log : List (Call × Bool)) :
    StepAudit s log (IPCWriteData (audited os) stale s (w, log)).2.1
      (IPCWriteData (audited os) stale s (w, log)).2.2.2 0 0 1 0 := by
  obtain ⟨_, g2, g3, g4⟩ := IPCWriteData_audit os stale s w log
  obtain ⟨k, z, hk, hz, ha⟩ := ReportedExact_accounted g4
  exact ⟨by rw [g2, Nat.add_zero], by rw [g3, Nat.add_zero], ⟨k, z, hk, hz, ha⟩, ReportedExact_lt g4⟩

/-- Summary of the outbox half of a pump iteration on the audited interface: one outbox bind
exactly when the outbox is enabled and not valid at its start, no inbox bind, at most two
errors, each for a failed call; the inbox flags and the enabled flag of the outbox are left
alone, and a disabled outbox is left alone altogether. -/
theorem IPCHandle.outboxStep_audit (os : Win32 ω) (stale : Msg → Msg) (s : IPCController)
    (w : ω) (log : List (Call × Bool)) :
    StepAudit s log (IPCHandle.outboxStep (audited os) stale s (w, log)).1
      (IPCHandle.outboxStep (audited os) stale s (w, log)).2.2
      0 (if s.ipc_outbox_enabled && !s.ipc_valid_outbox then 1 else 0) 2 0 ∧
    InboxSame s (IPCHandle.outboxStep (audited os) stale s (w, log)).1 ∧
    (IPCHandle.outboxStep (audited os) stale s (w, log)).1.ipc_outbox_enabled =
      s.ipc_outbox_enabled ∧
    (s.ipc_outbox_enabled = false →
      (IPCHandle.outboxStep (audited os) stale s (w, log)).1.ipc_valid_outbox =
        s.ipc_valid_outbox) := by
  obtain ⟨e1, e2, e3⟩ := IPCHandle.outboxStep_eq (audited os) stale s (w, log)
  cases he : s.ipc_outbox_enabled
  · rw [e1 he, audited_Sleep]
    exact ⟨((StepAudit_refl s log).quietCall (Call.Sleep 25) rfl).mono (by omega) (by omega),
      ⟨rfl, rfl⟩, he, fun _ => rfl⟩
  · cases hv : s.ipc_valid_outbox
    · rw [e3 he hv]
      obtain ⟨a1, a2, a3, a4, -, -⟩ := InitializeOutbox_audit os "" s w log
      rcases hi : InitializeOutbox (audited os) "" s (w, log) with ⟨b, s2, w2, log2⟩
      rw [hi] at a1 a2 a3 a4
      simp only at a1 a2 a3 a4
      have key : ∀ (lg : List (Call × Bool)) (wx : ω), StepAudit s log s2 lg 0 1 1 0 →
          StepAudit s log (IPCWriteData (audited os) stale s2 (wx, lg)).2.1
            ((audited os).Sleep 25 (IPCWriteData (audited os) stale s2 (wx, lg)).2.2).2
            0 1 2 0 ∧
          InboxSame s (IPCWriteData (audited os) stale s2 (wx, lg)).2.1 ∧
          (IPCWriteData (audited os) stale s2 (wx, lg)).2.1.ipc_outbox_enabled = true := by
        intro lg wx hlg
        have g := IPCWriteData_audit os stale s2 wx lg
        have st := IPCWriteData_stepAudit os stale s2 wx lg
        rcases hw : IPCWriteData (audited os) stale s2 (wx, lg) with ⟨r, s3, w3, log3⟩
        rw [hw] at g st
        simp only at g st
        rw [audited_Sleep]
        refine ⟨(StepAudit_trans hlg st).quietCall (Call.Sleep 25) rfl, ⟨?_, ?_⟩, ?_⟩
        · rw [g.1.2.2.2.2.2.1, a2.1]
        · rw [g.1.2.2.2.2.2.2.2.1, a2.2]
        · rw [g.1.2.2.2.2.2.2.2.2.1, a3]
      cases b
      · simp only [Bool.false_eq_true, if_false, audited_Sleep]
        obtain ⟨k1, k2, k3⟩ := key _ (os.Sleep 100 w2) (a1.quietCall (Call.Sleep 100) rfl)
        exact ⟨by simpa using k1, k2, k3, fun h => by simp at h⟩
      · simp only [if_true]
        obtain ⟨k1, k2, k3⟩ := key _ w2 a1
        exact ⟨by simpa using k1, k2, k3, fun h => by simp at h⟩
    · rw [e2 he hv]
      have g := IPCWriteData_audit os stale s w log
      have st := IPCWriteData_stepAudit os stale s w log
      rcases hw : IPCWriteData (audited os) stale s (w, log) with ⟨r, s3, w3, log3⟩
      rw [hw] at g st
      simp only at g st
      rw [audited_Sleep]
      refine ⟨by simpa using (st.quietCall (Call.Sleep 25) rfl).mono (by omega) (by omega),
        ⟨g.1.2.2.2.2.2.1, g.1.2.2.2.2.2.2.2.1⟩, ?_, fun h => by simp at h⟩
      rw [g.1.2.2.2.2.2.2.2.2.1, he]

/-- Summary of one pump iteration on the audited interface: a bind of a direction is made
exactly when that direction is enabled and not valid at the start of the iteration, at most
four errors are reported, at most one of them without a failed call, and the enabled flags
are left alone. -/
theorem IPCHandle.iteration_audit (os : Win32 ω) (stale : Msg → Msg) (fuel : Nat)
    (s : IPCController) (w : ω) (log : List (Call × Bool)) (s1 : IPCController) (w1 : ω)
    (log1 : List (Call × Bool))
    (hrun : IPCHandle.iteration (audited os) stale fuel s (w, log) = some (s1, w1, log1)) :
    StepAudit s log s1 log1 (if s.ipc_inbox_enabled && !s.ipc_valid_inbox then 1 else 0)
      (if s.ipc_outbox_enabled && !s.ipc_valid_outbox then 1 else 0) 4 1 ∧
    s1.ipc_inbox_enabled = s.ipc_inbox_enabled ∧
    s1.ipc_outbox_enabled = s.ipc_outbox_enabled ∧
    (s.ipc_inbox_enabled = false → s1.ipc_valid_inbox = s.ipc_valid_inbox) ∧
    (s.ipc_outbox_enabled = false → s1.ipc_valid_outbox = s.ipc_valid_outbox) := by
  simp only [IPCHandle.iteration] at hrun
  rcases hin : IPCHandle.inboxStep (audited os) fuel s (w, log) with _ | ⟨s2, w2, log2⟩
  · simp [hin] at hrun
  · simp only [hin, Option.some.injEq] at hrun
    obtain ⟨a1, a2, a3, a4⟩ := IPCHandle.inboxStep_audit os fuel s w log s2 w2 log2 hin
    obtain ⟨b1, b2, b3, b4⟩ := IPCHandle.outboxStep_audit os stale s2 w2 log2
    rw [hrun] at b1 b2 b3 b4
    simp only at b1 b2 b3 b4
    rw [a2.1, a2.2] at b1
    refine ⟨by simpa using StepAudit_trans a1 b1, ?_, ?_, ?_, ?_⟩
    · rw [b2.2, a3]
    · rw [b3, a2.2]
    · intro h
      rw [b2.1, a4 h]
    · intro h
      rw [b4 (by rw [a2.2, h]), a2.1]

/-! ## Theorems: which pump iterations bind -/

/-- Error accounting of one operation other than `Reset` on the audited interface: it
reports at most `op.maxErrors` errors, at most one of them without a failed call, and the
counter stays a `size_t` value. -/
theorem stepOp_errors (os : Win32 ω) (stale : Msg → Msg) (op : Op) (s : IPCController) (w : ω)
    (log : List (Call × Bool)) (r : Option Bool) (s1 : IPCController) (w1 : ω)
    (log1 : List (Call × Bool)) (hop : op ≠ Op.Reset)
    (hrun : stepOp (audited os) stale op s (w, log) = some (r, s1, w1, log1)) :
    (∃ k z, k ≤ op.maxErrors ∧ z ≤ 1 ∧
      Accounted s.error_count (failures log) s1.error_count (failures log1) k z) ∧
    (s.error_count < SIZE_MOD → s1.error_count < SIZE_MOD) := by
  have simple : s1.error_count = s.error_count → failures log1 = failures log →
      (∃ k z, k ≤ op.maxErrors ∧ z ≤ 1 ∧
        Accounted s.error_count (failures log) s1.error_count (failures log1) k z) ∧
      (s.error_count < SIZE_MOD → s1.error_count < SIZE_MOD) := by
    intro h1 h2
    rw [h1, h2]
    exact ⟨⟨0, 0, Nat.zero_le _, Nat.zero_le _, Accounted_refl⟩, fun h => h⟩
  have ofAudit : ∀ {bi bo kmax zmax : Nat}, StepAudit s log s1 log1 bi bo kmax zmax →
      kmax ≤ op.maxErrors → zmax ≤ 1 →
      (∃ k z, k ≤ op.maxErrors ∧ z ≤ 1 ∧
        Accounted s.error_count (failures log) s1.error_count (failures log1) k z) ∧
      (s.error_count < SIZE_MOD → s1.error_count < SIZE_MOD) := by
    intro bi bo kmax zmax h hk hz
    obtain ⟨k, z, k1, z1, ha⟩ := h.errors
    exact ⟨⟨k, z, by omega, by omega, ha⟩, h.bounded⟩
  cases op with
  | Reset => exact absurd rfl hop
  | InitializeInbox id =>
    obtain ⟨a1, -⟩ := InitializeInbox_audit os id s w log
    simp only [stepOp, Option.some.injEq, Prod.mk.injEq] at hrun
    obtain ⟨-, h2⟩ := hrun
    rw [h2] at a1
    exact ofAudit a1 (Nat.le_refl _) (Nat.zero_le _)
  | InitializeOutbox id =>
    obtain ⟨a1, -⟩ := InitializeOutbox_audit os id s w log
    simp only [stepOp, Option.some.injEq, Prod.mk.injEq] at hrun
    obtain ⟨-, h2⟩ := hrun
    rw [h2] at a1
    exact ofAudit a1 (Nat.le_refl _) (Nat.zero_le _)
  | Initialize a b =>
    obtain ⟨a1, -⟩ := InitializeInbox_audit os a s w log
    simp only [stepOp, Initialize, Option.some.injEq, Prod.mk.injEq] at hrun
    obtain ⟨-, h2⟩ := hrun
    rcases hi : InitializeInbox (audited os) a s (w, log) with ⟨r1, s2, w2, log2⟩
    rw [hi] at a1 h2
    simp only at a1 h2
    cases r1
    · simp only [Prod.mk.injEq] at h2
      obtain ⟨rfl, rfl, rfl⟩ := h2
      exact ofAudit a1 (by simp [Op.maxErrors]) (Nat.zero_le _)
    · obtain ⟨b1, -⟩ := InitializeOutbox_audit os b s2 w2 log2
      simp only at h2
      rw [h2] at b1
      exact ofAudit (StepAudit_trans a1 b1) (Nat.le_refl _) (Nat.zero_le _)
  | DisableInbox =>
    simp only [stepOp, Option.some.injEq, Prod.mk.injEq] at hrun
    obtain ⟨-, h2⟩ := hrun
    have hs : s1 = (DisableInbox (audited os) s (w, log)).1 := by rw [h2]
    have hl : log1 = (DisableInbox (audited os) s (w, log)).2.2 := by rw [h2]
    apply simple
    · rw [hs]
      cases hvi : s.ipc_valid_inbox <;> simp [DisableInbox, hvi]
    · rw [hl]
      cases hvi : s.ipc_valid_inbox <;>
        simp [DisableInbox, hvi, audited, failures, List.filter_append]
  | DisableOutbox =>
    simp only [stepOp, Option.some.injEq, Prod.mk.injEq] at hrun
    obtain ⟨-, h2⟩ := hrun
    have hs : s1 = (DisableOutbox (audited os) s (w, log)).1 := by rw [h2]
    have hl : log1 = (DisableOutbox (audited os) s (w, log)).2.2 := by rw [h2]
    apply simple
    · rw [hs]
      cases hvo : s.ipc_valid_outbox <;> simp [DisableOutbox, hvo]
    · rw [hl]
      cases hvo : s.ipc_valid_outbox <;>
        simp [DisableOutbox, hvo, audited, failures, List.filter_append]
  | ClearSend =>
    simp only [stepOp, ClearSend, Option.some.injEq, Prod.mk.injEq] at hrun
    obtain ⟨-, rfl, rfl, rfl⟩ := hrun
    exact simple rfl rfl
  | ClearReceive =>
    simp only [stepOp, ClearReceive, Option.some.injEq, Prod.mk.injEq] at hrun
    obtain ⟨-, rfl, rfl, rfl⟩ := hrun
    exact simple rfl rfl
  | Send d =>
    simp only [stepOp, Option.some.injEq, Prod.mk.injEq] at hrun
    obtain ⟨-, rfl, rfl, rfl⟩ := hrun
    refine simple ?_ rfl
    cases hvd : s.ipc_valid <;> simp [Send, hvd]
  | Receive d =>
    simp only [stepOp, Option.some.injEq, Prod.mk.injEq] at hrun
    obtain ⟨-, rfl, rfl, rfl⟩ := hrun
    refine simple ?_ rfl
    cases hvd : s.ipc_valid <;> cases hq : s.incoming_messages <;> simp [Receive, hvd, hq]
  | Peek d =>
    simp only [stepOp, Option.some.injEq, Prod.mk.injEq] at hrun
    obtain ⟨-, rfl, rfl, rfl⟩ := hrun
    refine simple ?_ rfl
    cases hvd : s.ipc_valid <;> cases hq : s.incoming_messages <;> simp [Peek, hvd, hq]
  | pump fuel =>
    simp only [stepOp] at hrun
    rcases hit : IPCHandle.iteration (audited os) stale fuel s (w, log) with _ | ⟨s2, w2, log2⟩
    · simp [hit] at hrun
    · simp only [hit, Option.some.injEq, Prod.mk.injEq] at hrun
      obtain ⟨-, rfl, rfl, rfl⟩ := hrun
      obtain ⟨a1, -⟩ := IPCHandle.iteration_audit os stale fuel s w log _ _ _ hit
      exact ofAudit a1 (Nat.le_refl _) (Nat.le_refl _)

/-- C13: on every transport, (1) an operation other than `Reset` (a public operation or a
pump iteration) that returns has done `error_count++` `k` times, where `k` is at most 4 (0
for `Send`, `Receive`, `Peek`, `Disable*`, `Clear*`), is at least the number of transport
calls that failed in it and at most one more; the counter stays a `size_t` value and, unless
it wraps, has grown by exactly `k`, so it never decreases; (2) a failed bind makes
`Initialize*` add one to the counter and store `GetLastError()` as last error, a successful
one leaves both alone; (3) a read pass either reports nothing, no call having failed, or
adds one to the counter and stores `GetLastError()` as last error, at most one call (the
length query or a read) having failed, none when the zero-byte retries are exhausted; (4) a
drain pass either reports nothing, no call having failed, or adds one and stores the last
error, exactly one write having failed; (5) `Reset` sets the counter and the last error to
0. -/
theorem error_counter_policy (os : Win32 ω) (stale : Msg → Msg) (s : IPCController) (w : ω)
    (log : List (Call × Bool)) :
    (∀ (op : Op) (r : Option Bool) (s1 : IPCController) (w1 : ω) (log1 : List (Call × Bool)),
      op ≠ Op.Reset →
      stepOp (audited os) stale op s (w, log) = some (r, s1, w1, log1) →
      ∃ k z, k ≤ op.maxErrors ∧ op.maxErrors ≤ 4 ∧ z ≤ 1 ∧
        failures log1 + z = failures log + k ∧
        s1.error_count % SIZE_MOD = (s.error_count + k) % SIZE_MOD ∧
        (s.error_count < SIZE_MOD → s1.error_count < SIZE_MOD) ∧
        (s.error_count + k < SIZE_MOD → s1.error_count < SIZE_MOD →
          s1.error_count = s.error_count + k ∧ s.error_count ≤ s1.error_count)) ∧
    (∀ (id : String),
      ((InitializeInbox (audited os) id s (w, log)).1 = true →
        (InitializeInbox (audited os) id s (w, log)).2.1.error_count = s.error_count ∧
        (InitializeInbox (audited os) id s (w, log)).2.1.last_error = s.last_error ∧
        failures (InitializeInbox (audited os) id s (w, log)).2.2.2 = failures log) ∧
      ((InitializeInbox (audited os) id s (w, log)).1 = false →
        (InitializeInbox (audited os) id s (w, log)).2.1.error_count =
          (s.error_count + 1) % SIZE_MOD ∧
        (InitializeInbox (audited os) id s (w, log)).2.1.last_error =
          dwordToInt (os.GetLastError (InitializeInbox (audited os) id s (w, log)).2.2.1) ∧
        failures (InitializeInbox (audited os) id s (w, log)).2.2.2 = failures log + 1) ∧
      ((InitializeOutbox (audited os) id s (w, log)).1 = true →
        (InitializeOutbox (audited os) id s (w, log)).2.1.error_count = s.error_count ∧
        (InitializeOutbox (audited os) id s (w, log)).2.1.last_error = s.last_error ∧
        failures (InitializeOutbox (audited os) id s (w, log)).2.2.2 = failures log) ∧
      ((InitializeOutbox (audited os) id s (w, log)).1 = false →
        (InitializeOutbox (audited os) id s (w, log)).2.1.error_count =
          (s.error_count + 1) % SIZE_MOD ∧
        (InitializeOutbox (audited os) id s (w, log)).2.1.last_error =
          dwordToInt (os.GetLastError (InitializeOutbox (audited os) id s (w, log)).2.2.1) ∧
        failures (InitializeOutbox (audited os) id s (w, log)).2.2.2 = failures log + 1)) ∧
    (∀ (fuel : Nat) (r : Bool) (s1 : IPCController) (w1 : ω) (log1 : List (Call × Bool)),
      IPCReadData (audited os) fuel s (w, log) = some (r, s1, w1, log1) →
      (s1.error_count = s.error_count ∧ s1.last_error = s.last_error ∧
        failures log1 = failures log) ∨
      (s1.error_count = (s.error_count + 1) % SIZE_MOD ∧
        s1.last_error = dwordToInt (os.GetLastError w1) ∧
        failures log ≤ failures log1 ∧ failures log1 ≤ failures log + 1)) ∧
    ((IPCWriteData (audited os) stale s (w, log)).2.1.error_count = s.error_count ∧
        (IPCWriteData (audited os) stale s (w, log)).2.1.last_error = s.last_error ∧
        failures (IPCWriteData (audited os) stale s (w, log)).2.2.2 = failures log ∨
      (IPCWriteData (audited os) stale s (w, log)).2.1.error_count =
          (s.error_count + 1) % SIZE_MOD ∧
        (IPCWriteData (audited os) stale s (w, log)).2.1.last_error =
          dwordToInt (os.GetLastError (IPCWriteData (audited os) stale s (w, log)).2.2.1) ∧
        failures (IPCWriteData (audited os) stale s (w, log)).2.2.2 = failures log + 1) ∧
    ((Reset os s w).1.error_count = 0 ∧ (Reset os s w).1.last_error = 0) := by
  refine ⟨?_, ?_, ?_, ?_, ?_⟩
  · intro op r s1 w1 log1 hop hrun
    obtain ⟨⟨k, z, hk, hz, ha1, ha2⟩, hb⟩ := stepOp_errors os stale op s w log r s1 w1 log1 hop hrun
    refine ⟨k, z, hk, ?_, hz, ha1, ha2, hb, ?_⟩
    · cases op <;> simp [Op.maxErrors]
    · intro h1 h2
      rw [Nat.mod_eq_of_lt h2, Nat.mod_eq_of_lt h1] at ha2
      exact ⟨ha2, by omega⟩
  · intro id
    obtain ⟨-, -, -, -, a5, a6⟩ := InitializeInbox_audit os id s w log
    obtain ⟨-, -, -, -, b5, b6⟩ := InitializeOutbox_audit os id s w log
    exact ⟨a5, a6, b5, b6⟩
  · intro fuel r s1 w1 log1 hrun
    exact (IPCReadData_audit os fuel s w log r s1 w1 log1 hrun).2.2.2
  · exact (IPCWriteData_audit os stale s w log).2.2.2
  · exact ⟨(Reset_spec os s w).2.2.2.2.2.2.1, (Reset_spec os s w).2.2.2.2.2.1⟩

/-- The run of `error_counter_policy_witness`. -/
theorem sampleFailedWriteLog_eq :
    ∃ r w1, stepOp (audited mailslotOS) id (Op.pump 3) (Send "m" sampleWriter).2
      (sampleOrphaned, []) = some (r, sampleInvalidated, w1, sampleFailedWriteLog) :=
  ⟨_, _, rfl⟩

/-- Witness of C13: the pump iteration of channel B whose write fails (A has closed its
inbox) takes the error counter from 0 to 1, one call having failed. -/
theorem error_counter_policy_witness :
    (Send "m" sampleWriter).2.error_count = 0 ∧ sampleInvalidated.error_count = 1 ∧
    failures sampleFailedWriteLog = 1 ∧
    ∃ k z, k ≤ 4 ∧ z ≤ 1 ∧ failures sampleFailedWriteLog + z = failures [] + k ∧
      sampleInvalidated.error_count % SIZE_MOD =
        ((Send "m" sampleWriter).2.error_count + k) % SIZE_MOD := by
  obtain ⟨r, w1, h⟩ := sampleFailedWriteLog_eq
  obtain ⟨k, z, hk, -, hz, h1, h2, -⟩ :=
    (error_counter_policy mailslotOS id (Send "m" sampleWriter).2 sampleOrphaned []).1
      (Op.pump 3) r sampleInvalidated w1 sampleFailedWriteLog (by decide) h
  exact ⟨rfl, rfl, rfl, k, z, hk, hz, h1, h2⟩

/-! ## Theorems: the lifecycle controller -/

/-- The status `SetServiceStatus` stores is the last one it has reported. -/
theorem SetServiceStatus_reported (s : Service) (dwCurrentState dwWin32ExitCode dwWaitHint : DWORD) :
    (SetServiceStatus s dwCurrentState dwWin32ExitCode dwWaitHint).reported =
      s.reported ++ [(SetServiceStatus s dwCurrentState dwWin32ExitCode dwWaitHint).m_status] :=
  rfl

/-- The state, exit code and wait hint `SetServiceStatus` stores are its arguments. -/
theorem SetServiceStatus_status (s : Service) (dwCurrentState dwWin32ExitCode dwWaitHint : DWORD) :
    (SetServiceStatus s dwCurrentState dwWin32ExitCode dwWaitHint).m_status.dwCurrentState
      = dwCurrentState ∧
    (SetServiceStatus s dwCurrentState dwWin32ExitCode dwWaitHint).m_status.dwWin32ExitCode
      = dwWin32ExitCode ∧
    (SetServiceStatus s dwCurrentState dwWin32ExitCode dwWaitHint).m_status.dwWaitHint
      = dwWaitHint :=
  ⟨rfl, rfl, rfl⟩

/-- The checkpoint `SetServiceStatus` stores with the state Running or Stopped is 0. -/
theorem SetServiceStatus_checkpoint (s : Service) (dwWin32ExitCode dwWaitHint : DWORD) :
    (SetServiceStatus s SERVICE_RUNNING dwWin32ExitCode dwWaitHint).m_status.dwCheckPoint = 0 ∧
    (SetServiceStatus s SERVICE_STOPPED dwWin32ExitCode dwWaitHint).m_status.dwCheckPoint = 0 :=
  ⟨rfl, rfl⟩

/-- What `SetServiceStatus` leaves alone. -/
theorem SetServiceStatus_frame (s : Service) (dwCurrentState dwWin32ExitCode dwWaitHint : DWORD) :
    (SetServiceStatus s dwCurrentState dwWin32ExitCode dwWaitHint).m_fStopping = s.m_fStopping ∧
    (SetServiceStatus s dwCurrentState dwWin32ExitCode dwWaitHint).m_fPaused = s.m_fPaused ∧
    (SetServiceStatus s dwCurrentState dwWin32ExitCode dwWaitHint).m_fSignal = s.m_fSignal ∧
    (SetServiceStatus s dwCurrentState dwWin32ExitCode dwWaitHint).stoppedEvent = s.stoppedEvent ∧
    (SetServiceStatus s dwCurrentState dwWin32ExitCode dwWaitHint).eventLog = s.eventLog ∧
    (SetServiceStatus s dwCurrentState dwWin32ExitCode dwWaitHint).service_log = s.service_log :=
  ⟨rfl, rfl, rfl, rfl, rfl, rfl⟩

/-- What `WriteEventLogEntry` leaves alone: everything but the event log. -/
theorem WriteEventLogEntry_frame (s : Service) (pszMessage : String) (wType : Nat) :
    (WriteEventLogEntry s pszMessage wType).m_status = s.m_status ∧
    (WriteEventLogEntry s pszMessage wType).reported = s.reported ∧
    (WriteEventLogEntry s pszMessage wType).dwCheckPoint = s.dwCheckPoint ∧
    (WriteEventLogEntry s pszMessage wType).m_fStopping = s.m_fStopping ∧
    (WriteEventLogEntry s pszMessage wType).m_fPaused = s.m_fPaused ∧
    (WriteEventLogEntry s pszMessage wType).m_fSignal = s.m_fSignal ∧
    (WriteEventLogEntry s pszMessage wType).stoppedEvent = s.stoppedEvent ∧
    (WriteEventLogEntry s pszMessage wType).service_log = s.service_log := by
  unfold WriteEventLogEntry
  split <;> exact ⟨rfl, rfl, rfl, rfl, rfl, rfl, rfl, rfl⟩

/-- The event log after `WriteEventLogEntry`: one more entry when logging is enabled. -/
theorem WriteEventLogEntry_eventLog (s : Service) (pszMessage : String) (wType : Nat) :
    (WriteEventLogEntry s pszMessage wType).eventLog =
      if s.service_log then s.eventLog ++ [(pszMessage, wType)] else s.eventLog := by
  unfold WriteEventLogEntry
  cases s.service_log <;> rfl

/-- What `WriteErrorLogEntry` leaves alone: everything but the event log. -/
theorem WriteErrorLogEntry_frame (s : Service) (message : String) (dwError : DWORD) :
    (WriteErrorLogEntry s message dwError).m_status = s.m_status ∧
    (WriteErrorLogEntry s message dwError).reported = s.reported ∧
    (WriteErrorLogEntry s message dwError).dwCheckPoint = s.dwCheckPoint ∧
    (WriteErrorLogEntry s message dwError).m_fStopping = s.m_fStopping ∧
    (WriteErrorLogEntry s message dwError).m_fPaused = s.m_fPaused ∧
    (WriteErrorLogEntry s message dwError).m_fSignal = s.m_fSignal ∧
    (WriteErrorLogEntry s message dwError).stoppedEvent = s.stoppedEvent ∧
    (WriteErrorLogEntry s message dwError).service_log = s.service_log :=
  WriteEventLogEntry_frame s _ _

/-- C17: `Stop` entered in any state reports StopPending and then calls `OnStop` (the hook
runs on the object whose last reported status is StopPending). Whenever `OnStop` ends,
`Stop` returns normally, and its last step is to report the status it leaves: Stopped with
checkpoint 0 if `OnStop` returned, the state at entry if `OnStop` raised anything. -/
theorem Stop_spec (OnStop : Hook) (s s1 : Service) (o : Outcome)
    (h : OnStop (SetServiceStatus s SERVICE_STOP_PENDING NO_ERROR 0) = some (o, s1)) :
    (SetServiceStatus s SERVICE_STOP_PENDING NO_ERROR 0).reported =
      s.reported ++ [(SetServiceStatus s SERVICE_STOP_PENDING NO_ERROR 0).m_status] ∧
    (SetServiceStatus s SERVICE_STOP_PENDING NO_ERROR 0).m_status.dwCurrentState
      = SERVICE_STOP_PENDING ∧
    ∃ s2, Stop OnStop s = some (Outcome.returned, s2) ∧
      s2.reported = s1.reported ++ [s2.m_status] ∧
      (o = Outcome.returned →
        s2.m_status.dwCurrentState = SERVICE_STOPPED ∧ s2.m_status.dwCheckPoint = 0) ∧
      (o ≠ Outcome.returned → s2.m_status.dwCurrentState = s.m_status.dwCurrentState) := by
  refine ⟨rfl, rfl, ?_⟩
  unfold Stop
  simp only [h]
  cases o with
  | returned => exact ⟨_, rfl, rfl, fun _ => ⟨rfl, rfl⟩, fun hne => absurd rfl hne⟩
  | raisedCode e =>
    refine ⟨_, rfl, ?_, fun hc => (by cases hc), fun _ => rfl⟩
    rw [SetServiceStatus_reported, (WriteErrorLogEntry_frame s1 _ _).2.1]
  | raisedOther =>
    refine ⟨_, rfl, ?_, fun hc => (by cases hc), fun _ => rfl⟩
    rw [SetServiceStatus_reported, (WriteEventLogEntry_frame s1 _ _).2.1]

/-- Witness of C17: a running service whose `OnStop` raises the code 5 is reported
StopPending and then Running again. -/
theorem Stop_spec_witness :
    ∃ s2, Stop sampleRaise sampleRunning = some (Outcome.returned, s2) ∧
      s2.reported = sampleRunning.reported ++
        [(SetServiceStatus sampleRunning SERVICE_STOP_PENDING NO_ERROR 0).m_status, s2.m_status] ∧
      s2.m_status.dwCurrentState = SERVICE_RUNNING := by
  obtain ⟨h1, -, s2, h2, h3, -, h4⟩ :=
    Stop_spec sampleRaise sampleRunning
      (SetServiceStatus sampleRunning SERVICE_STOP_PENDING NO_ERROR 0) (Outcome.raisedCode 5) rfl
  refine ⟨s2, h2, ?_, (h4 (by simp)).trans rfl⟩
  rw [h3, h1]
  simp

/-- C18, counterexample: `OnStart` fails with an exception that is not a `DWORD`. `Start`
returns with the state Stopped, but the exit code of the reported status is `NO_ERROR`,
the code of a start that succeeded: no error is surfaced in the status. -/
theorem Start_exit_code_counterexample :
    ∃ s1 s2, sampleRaiseOther (SetServiceStatus (Service.create "svc" 3) SERVICE_START_PENDING
        NO_ERROR 4000) = some (Outcome.raisedOther, s1) ∧
      Start sampleRaiseOther (Service.create "svc" 3) = some (Outcome.returned, s2) ∧
      s2.reported.getLast? = some s2.m_status ∧
      s2.m_status.dwCurrentState = SERVICE_STOPPED ∧
      s2.m_status.dwWin32ExitCode = NO_ERROR :=
  ⟨_, _, rfl, rfl, by decide, rfl, rfl⟩

/-- C18, amended: `Start` reports StartPending with wait hint 4000 and then calls `OnStart`.
Whenever `OnStart` ends, `Start` returns normally and its last step is to report the status
it leaves: Running with exit code `NO_ERROR` if `OnStart` returned; Stopped with exit code
`e` if `OnStart` raised the error code `e`; Stopped with exit code `NO_ERROR` if `OnStart`
raised anything else. -/
theorem Start_spec (OnStart : Hook) (s s1 : Service) (o : Outcome)
    (h : OnStart (SetServiceStatus s SERVICE_START_PENDING NO_ERROR 4000) = some (o, s1)) :
    (SetServiceStatus s SERVICE_START_PENDING NO_ERROR 4000).reported =
      s.reported ++ [(SetServiceStatus s SERVICE_START_PENDING NO_ERROR 4000).m_status] ∧
    (SetServiceStatus s SERVICE_START_PENDING NO_ERROR 4000).m_status.dwCurrentState
      = SERVICE_START_PENDING ∧
    (SetServiceStatus s SERVICE_START_PENDING NO_ERROR 4000).m_status.dwWaitHint = 4000 ∧
    ∃ s2, Start OnStart s = some (Outcome.returned, s2) ∧
      s2.reported = s1.reported ++ [s2.m_status] ∧
      (o = Outcome.returned →
        s2.m_status.dwCurrentState = SERVICE_RUNNING ∧ s2.m_status.dwWin32ExitCode = NO_ERROR) ∧
      (∀ e, o = Outcome.raisedCode e →
        s2.m_status.dwCurrentState = SERVICE_STOPPED ∧ s2.m_status.dwWin32ExitCode = e) ∧
      (o = Outcome.raisedOther →
        s2.m_status.dwCurrentState = SERVICE_STOPPED ∧ s2.m_status.dwWin32ExitCode = NO_ERROR) := by
  refine ⟨rfl, rfl, rfl, ?_⟩
  unfold Start
  simp only [h]
  cases o with
  | returned =>
    exact ⟨_, rfl, rfl, fun _ => ⟨rfl, rfl⟩, fun e hc => (by cases hc), fun hc => (by cases hc)⟩
  | raisedCode e =>
    refine ⟨_, rfl, ?_, fun hc => (by cases hc), fun e1 hc => ?_, fun hc => (by cases hc)⟩
    · rw [SetServiceStatus_reported, (WriteErrorLogEntry_frame s1 _ _).2.1]
    · cases hc
      exact ⟨rfl, rfl⟩
  | raisedOther =>
    refine ⟨_, rfl, ?_, fun hc => (by cases hc), fun e hc => (by cases hc), fun _ => ⟨rfl, rfl⟩⟩
    rw [SetServiceStatus_reported, (WriteEventLogEntry_frame s1 _ _).2.1]

/-- Witness of C18: a constructed service whose `OnStart` raises the code 5 ends Stopped
with exit code 5. -/
theorem Start_spec_witness :
    ∃ s2, Start sampleRaise (Service.create "svc" 3) = some (Outcome.returned, s2) ∧
      s2.m_status.dwCurrentState = SERVICE_STOPPED ∧ s2.m_status.dwWin32ExitCode = 5 := by
  obtain ⟨-, -, -, s2, h2, -, -, h4, -⟩ :=
    Start_spec sampleRaise (Service.create "svc" 3)
      (SetServiceStatus (Service.create "svc" 3) SERVICE_START_PENDING NO_ERROR 4000)
      (Outcome.raisedCode 5) rfl
  exact ⟨s2, h2, h4 5 rfl⟩

/-- C19, counterexample: a running service is paused and the worker never acknowledges, so
`OnPause` raises `ERROR_TIMEOUT`. The status `Pause` reports after the rollback is Running
with exit code `NO_ERROR`, not `ERROR_TIMEOUT`. -/
theorem rollback_exit_code_counterexample :
    ∃ s1 s2, OnPause sampleHang 10 (SetServiceStatus sampleRunning SERVICE_PAUSE_PENDING
        NO_ERROR 0) = some (Outcome.raisedCode ERROR_TIMEOUT, s1) ∧
      Pause (OnPause sampleHang 10) sampleRunning = some (Outcome.returned, s2) ∧
      s2.reported.getLast? = some s2.m_status ∧
      s2.m_status.dwCurrentState = SERVICE_RUNNING ∧
      s2.m_status.dwWin32ExitCode = NO_ERROR ∧
      s2.m_status.dwWin32ExitCode ≠ ERROR_TIMEOUT :=
  ⟨_, _, rfl, rfl, by decide, rfl, rfl, by decide⟩

/-- C19, amended: when the callback of `Stop`, `Pause` or `Continue` raises the error code
`e`, the method returns normally and the status it reports last has the rolled-back state
(the state at entry of `Stop`, Running for `Pause`, Paused for `Continue`) and the exit
code `NO_ERROR`, whatever `e` is; `e` appears only in the text of the event-log entry, which
is written when logging is enabled. -/
theorem rollback_exit_code (hook : Hook) (s s1 : Service) (e : DWORD) :
    (hook (SetServiceStatus s SERVICE_STOP_PENDING NO_ERROR 0) = some (Outcome.raisedCode e, s1) →
      ∃ s2, Stop hook s = some (Outcome.returned, s2) ∧
        s2.reported = s1.reported ++ [s2.m_status] ∧
        s2.m_status.dwCurrentState = s.m_status.dwCurrentState ∧
        s2.m_status.dwWin32ExitCode = NO_ERROR ∧
        s2.eventLog = if s1.service_log then
          s1.eventLog ++ [("Service Stop failed w/err 0x" ++ toString e, EVENTLOG_ERROR_TYPE)]
          else s1.eventLog) ∧
    (hook (SetServiceStatus s SERVICE_PAUSE_PENDING NO_ERROR 0) = some (Outcome.raisedCode e, s1) →
      ∃ s2, Pause hook s = some (Outcome.returned, s2) ∧
        s2.reported = s1.reported ++ [s2.m_status] ∧
        s2.m_status.dwCurrentState = SERVICE_RUNNING ∧
        s2.m_status.dwWin32ExitCode = NO_ERROR ∧
        s2.eventLog = if s1.service_log then
          s1.eventLog ++ [("Service Pause failed w/err 0x" ++ toString e, EVENTLOG_ERROR_TYPE)]
          else s1.eventLog) ∧
    (hook (SetServiceStatus s SERVICE_CONTINUE_PENDING NO_ERROR 0)
        = some (Outcome.raisedCode e, s1) →
      ∃ s2, Continue hook s = some (Outcome.returned, s2) ∧
        s2.reported = s1.reported ++ [s2.m_status] ∧
        s2.m_status.dwCurrentState = SERVICE_PAUSED ∧
        s2.m_status.dwWin32ExitCode = NO_ERROR ∧
        s2.eventLog = if s1.service_log then
          s1.eventLog ++ [("Service Continue failed w/err 0x" ++ toString e, EVENTLOG_ERROR_TYPE)]
          else s1.eventLog) := by
  refine ⟨fun h => ?_, fun h => ?_, fun h => ?_⟩
  · refine ⟨SetServiceStatus (WriteErrorLogEntry s1 "Service Stop" e) s.m_status.dwCurrentState
      NO_ERROR 0, ?_, ?_, rfl, rfl, ?_⟩
    · unfold Stop
      simp only [h]
    · rw [SetServiceStatus_reported, (WriteErrorLogEntry_frame s1 _ _).2.1]
    · exact WriteEventLogEntry_eventLog s1 _ _
  · refine ⟨SetServiceStatus (WriteErrorLogEntry s1 "Service Pause" e) SERVICE_RUNNING
      NO_ERROR 0, ?_, ?_, rfl, rfl, ?_⟩
    · unfold Pause
      simp only [h]
    · rw [SetServiceStatus_reported, (WriteErrorLogEntry_frame s1 _ _).2.1]
    · exact WriteEventLogEntry_eventLog s1 _ _
  · refine ⟨SetServiceStatus (WriteErrorLogEntry s1 "Service Continue" e) SERVICE_PAUSED
      NO_ERROR 0, ?_, ?_, rfl, rfl, ?_⟩
    · unfold Continue
      simp only [h]
    · rw [SetServiceStatus_reported, (WriteErrorLogEntry_frame s1 _ _).2.1]
    · exact WriteEventLogEntry_eventLog s1 _ _

/-- Witness of C19: the callback raises the code 5 on a running service; `Stop`, `Pause` and
`Continue` each report the exit code `NO_ERROR` after it. -/
theorem rollback_exit_code_witness :
    (∃ s2, Stop sampleRaise sampleRunning = some (Outcome.returned, s2) ∧
      s2.m_status.dwWin32ExitCode = NO_ERROR) ∧
    (∃ s2, Pause sampleRaise sampleRunning = some (Outcome.returned, s2) ∧
      s2.m_status.dwWin32ExitCode = NO_ERROR) ∧
    (∃ s2, Continue sampleRaise sampleRunning = some (Outcome.returned, s2) ∧
      s2.m_status.dwWin32ExitCode = NO_ERROR) := by
  refine ⟨?_, ?_, ?_⟩
  · obtain ⟨s2, h1, -, -, h2, -⟩ :=
      (rollback_exit_code sampleRaise sampleRunning
        (SetServiceStatus sampleRunning SERVICE_STOP_PENDING NO_ERROR 0) 5).1 rfl
    exact ⟨s2, h1, h2⟩
  · obtain ⟨s2, h1, -, -, h2, -⟩ :=
      (rollback_exit_code sampleRaise sampleRunning
        (SetServiceStatus sampleRunning SERVICE_PAUSE_PENDING NO_ERROR 0) 5).2.1 rfl
    exact ⟨s2, h1, h2⟩
  · obtain ⟨s2, h1, -, -, h2, -⟩ :=
      (rollback_exit_code sampleRaise sampleRunning
        (SetServiceStatus sampleRunning SERVICE_CONTINUE_PENDING NO_ERROR 0) 5).2.2 rfl
    exact ⟨s2, h1, h2⟩

/-- C16, counterexample: a running service is shut down and `OnShutdown` raises (the error
code 5, or something that is not a `DWORD`). `Shutdown` returns, nothing has been reported,
and the state is still Running, not Stopped. -/
theorem Shutdown_not_stopped_counterexample :
    (∃ s2, Shutdown sampleRaise sampleRunning = some (Outcome.returned, s2) ∧
      s2.reported = sampleRunning.reported ∧
      s2.m_status.dwCurrentState = SERVICE_RUNNING ∧
      s2.m_status.dwCurrentState ≠ SERVICE_STOPPED) ∧
    (∃ s2, Shutdown sampleRaiseOther sampleRunning = some (Outcome.returned, s2) ∧
      s2.reported = sampleRunning.reported ∧
      s2.m_status.dwCurrentState = SERVICE_RUNNING ∧
      s2.m_status.dwCurrentState ≠ SERVICE_STOPPED) :=
  ⟨⟨_, rfl, rfl, rfl, by decide⟩, ⟨_, rfl, rfl, rfl, by decide⟩⟩

/-- C16, amended: whenever `OnShutdown` ends, `Shutdown` returns normally. If `OnShutdown`
returned, the last step of `Shutdown` is to report Stopped with checkpoint 0, whatever the
state was. If `OnShutdown` raised anything, `Shutdown` reports nothing: status and reported
statuses are those `OnShutdown` left. -/
theorem Shutdown_spec (OnShutdown : Hook) (s s1 : Service) (o : Outcome)
    (h : OnShutdown s = some (o, s1)) :
    ∃ s2, Shutdown OnShutdown s = some (Outcome.returned, s2) ∧
      (o = Outcome.returned →
        s2.reported = s1.reported ++ [s2.m_status] ∧
        s2.m_status.dwCurrentState = SERVICE_STOPPED ∧ s2.m_status.dwCheckPoint = 0) ∧
      (o ≠ Outcome.returned → s2.m_status = s1.m_status ∧ s2.reported = s1.reported) := by
  unfold Shutdown
  simp only [h]
  cases o with
  | returned => exact ⟨_, rfl, fun _ => ⟨rfl, rfl, rfl⟩, fun hne => absurd rfl hne⟩
  | raisedCode e =>
    exact ⟨_, rfl, fun hc => (by cases hc),
      fun _ => ⟨(WriteErrorLogEntry_frame s1 _ _).1, (WriteErrorLogEntry_frame s1 _ _).2.1⟩⟩
  | raisedOther =>
    exact ⟨_, rfl, fun hc => (by cases hc),
      fun _ => ⟨(WriteEventLogEntry_frame s1 _ _).1, (WriteEventLogEntry_frame s1 _ _).2.1⟩⟩

/-- Witness of C16: a running service whose `OnShutdown` returns ends Stopped. -/
theorem Shutdown_spec_witness :
    ∃ s2, Shutdown sampleReturn sampleRunning = some (Outcome.returned, s2) ∧
      s2.m_status.dwCurrentState = SERVICE_STOPPED := by
  obtain ⟨s2, h1, h2, -⟩ := Shutdown_spec sampleReturn sampleRunning sampleRunning
    Outcome.returned rfl
  exact ⟨s2, h1, (h2 rfl).2.1⟩

/-- Whenever `OnStop` ends, `Stop` returns normally. -/
theorem Stop_returns (OnStop : Hook) (s s1 : Service) (o : Outcome)
    (h : OnStop (SetServiceStatus s SERVICE_STOP_PENDING NO_ERROR 0) = some (o, s1)) :
    ∃ s2, Stop OnStop s = some (Outcome.returned, s2) := by
  unfold Stop
  simp only [h]
  cases o <;> exact ⟨_, rfl⟩

/-- The wrapper's `OnShutdown` raises only if `callback_shutdown` does: when the callback
returns and `OnStop` ends in any way, `Shutdown` of the wrapper ends Stopped. -/
theorem Shutdown_wrapper (callback_shutdown stop : Hook) (s s1 s2 : Service) (o : Outcome)
    (h1 : callback_shutdown s = some (Outcome.returned, s1))
    (h2 : stop (SetServiceStatus s1 SERVICE_STOP_PENDING NO_ERROR 0) = some (o, s2)) :
    ∃ s3, Shutdown (OnShutdown callback_shutdown stop) s = some (Outcome.returned, s3) ∧
      s3.m_status.dwCurrentState = SERVICE_STOPPED := by
  obtain ⟨s3, h3⟩ := Stop_returns stop s1 s2 o h2
  refine ⟨SetServiceStatus s3 SERVICE_STOPPED NO_ERROR 0, ?_, rfl⟩
  unfold Shutdown OnShutdown
  simp only [h1, h3]

/-- The polling loop of `OnPause` and `OnContinue` when the signal is never seen set: if some
reading of the clock from test `k` on is more than four whole seconds after `timeout`, and
the fuel reaches that reading, the loop raises `ERROR_TIMEOUT` after restoring `m_fPaused`. -/
theorem handshakeWait_timeout (env : ControlEnv) (timeout : Int) (restore : Bool)
    (hw : ∀ k, env.workerSignals k = false) :
    ∀ (fuel k n : Nat) (s : Service), s.m_fSignal = false → k ≤ n → n < k + fuel →
      (env.clock (n + 1) - timeout).tdiv env.CLOCKS_PER_SEC > 4 →
      handshakeWait env timeout restore fuel k s =
        some (Outcome.raisedCode ERROR_TIMEOUT, { s with m_fPaused := restore }) := by
  intro fuel
  induction fuel with
  | zero => intro k n s _ h1 h2 _; omega
  | succ fuel ih =>
    intro k n s hs h1 h2 ht
    unfold handshakeWait
    have hc : (s.m_fSignal || env.workerSignals k) = false := by rw [hs, hw k]; rfl
    rw [if_neg (by rw [hc]; exact Bool.false_ne_true)]
    by_cases hk : (env.clock (k + 1) - timeout).tdiv env.CLOCKS_PER_SEC > 4
    · rw [if_pos hk]
    · rw [if_neg hk]
      have hne : k ≠ n := fun e => hk (e ▸ ht)
      exact ih (k + 1) n s hs (by omega) (by omega) ht

/-- C15: the worker never sets the handshake signal (it is unset at entry and stays so),
and some reading of the clock inside the polling loop is more than four whole seconds after
the first. Then `OnPause` raises `ERROR_TIMEOUT` with `m_fPaused` false again, and `Pause`
returns with `m_fPaused` false and Running as the last reported state; `OnContinue` raises
`ERROR_TIMEOUT` with `m_fPaused` true again, and `Continue` returns with `m_fPaused` true and
Paused as the last reported state. -/
theorem handshake_timeout (env : ControlEnv) (fuel n : Nat) (s : Service)
    (hs : s.m_fSignal = false) (hw : ∀ k, env.workerSignals k = false)
    (ht : (env.clock (n + 1) - env.clock 0).tdiv env.CLOCKS_PER_SEC > 4) (hf : n < fuel) :
    (∃ s1 s2,
      OnPause env fuel (SetServiceStatus s SERVICE_PAUSE_PENDING NO_ERROR 0)
        = some (Outcome.raisedCode ERROR_TIMEOUT, s1) ∧ s1.m_fPaused = false ∧
      Pause (OnPause env fuel) s = some (Outcome.returned, s2) ∧ s2.m_fPaused = false ∧
      s2.reported.getLast? = some s2.m_status ∧
      s2.m_status.dwCurrentState = SERVICE_RUNNING) ∧
    (∃ s1 s2,
      OnContinue env fuel (SetServiceStatus s SERVICE_CONTINUE_PENDING NO_ERROR 0)
        = some (Outcome.raisedCode ERROR_TIMEOUT, s1) ∧ s1.m_fPaused = true ∧
      Continue (OnContinue env fuel) s = some (Outcome.returned, s2) ∧ s2.m_fPaused = true ∧
      s2.reported.getLast? = some s2.m_status ∧
      s2.m_status.dwCurrentState = SERVICE_PAUSED) := by
  have key : ∀ (restore b : Bool) (st : DWORD),
      handshakeWait env (env.clock 0) restore fuel 0
        { SetServiceStatus s st NO_ERROR 0 with m_fPaused := b } =
        some (Outcome.raisedCode ERROR_TIMEOUT,
          { SetServiceStatus s st NO_ERROR 0 with m_fPaused := restore }) := by
    intro restore b st
    exact handshakeWait_timeout env (env.clock 0) restore hw fuel 0 n _ hs (Nat.zero_le n)
      (by omega) ht
  refine ⟨⟨_, SetServiceStatus (WriteErrorLogEntry
      { SetServiceStatus s SERVICE_PAUSE_PENDING NO_ERROR 0 with m_fPaused := false }
      "Service Pause" ERROR_TIMEOUT) SERVICE_RUNNING NO_ERROR 0, key false true _, rfl, ?_, ?_, ?_,
      rfl⟩,
    ⟨_, SetServiceStatus (WriteErrorLogEntry
      { SetServiceStatus s SERVICE_CONTINUE_PENDING NO_ERROR 0 with m_fPaused := true }
      "Service Continue" ERROR_TIMEOUT) SERVICE_PAUSED NO_ERROR 0, key true false _, rfl, ?_, ?_,
      ?_, rfl⟩⟩
  · unfold Pause
    have e := key false true SERVICE_PAUSE_PENDING
    unfold OnPause
    simp only [e]
  · exact ((SetServiceStatus_frame _ _ _ _).2.1).trans (WriteErrorLogEntry_frame _ _ _).2.2.2.2.1
  · rw [SetServiceStatus_reported]
    simp
  · unfold Continue
    have e := key true false SERVICE_CONTINUE_PENDING
    unfold OnContinue
    simp only [e]
  · exact ((SetServiceStatus_frame _ _ _ _).2.1).trans (WriteErrorLogEntry_frame _ _ _).2.2.2.2.1
  · rw [SetServiceStatus_reported]
    simp

/-- Witness of C15: the worker of a running service hangs and the clock advances by one
second per reading; `Pause` ends with the desired-pause flag false and the state Running,
`Continue` with the flag true and the state Paused. -/
theorem handshake_timeout_witness :
    (∃ s2, Pause (OnPause sampleHang 10) sampleRunning = some (Outcome.returned, s2) ∧
      s2.m_fPaused = false ∧ s2.m_status.dwCurrentState = SERVICE_RUNNING) ∧
    (∃ s2, Continue (OnContinue sampleHang 10) sampleRunning = some (Outcome.returned, s2) ∧
      s2.m_fPaused = true ∧ s2.m_status.dwCurrentState = SERVICE_PAUSED) := by
  obtain ⟨⟨-, s2, -, -, h1, h2, -, h3⟩, ⟨-, s3, -, -, h4, h5, -, h6⟩⟩ :=
    handshake_timeout sampleHang 10 4 sampleRunning rfl (fun _ => rfl) (by decide) (by decide)
  exact ⟨⟨s2, h1, h2, h3⟩, ⟨s3, h4, h5, h6⟩⟩

/-! ## Theorems: the worker thread beside the control thread -/

/-- The condition `Precedes` for a trace with one more event. -/
theorem Precedes_snoc (d e x : Event) (tr : List Event) :
    Precedes d e (tr ++ [x]) ↔ Precedes d e tr ∧ (x = e → d ∈ tr) := by
  constructor
  · intro H
    refine ⟨fun b a h => H b (a ++ [x]) (by rw [h]; simp), fun hx => H tr [] (by rw [hx])⟩
  · rintro ⟨H1, H2⟩ b a h
    rcases List.eq_nil_or_concat a with rfl | ⟨a1, y, rfl⟩
    · have h1 := List.append_inj' h rfl
      exact h1.1 ▸ H2 (by simpa using h1.2)
    · have h1 := List.append_inj' (show tr ++ [x] = (b ++ e :: a1) ++ [y] by rw [h]; simp) rfl
      exact H1 b a1 h1.1

/-- The condition `NeverAfter` for a trace with one more event. -/
theorem NeverAfter_snoc (d e x : Event) (tr : List Event) :
    NeverAfter d e (tr ++ [x]) ↔ NeverAfter d e tr ∧ (x = e → d ∉ tr) := by
  constructor
  · intro H
    refine ⟨fun b a h he => H b (a ++ [x]) (by rw [h]; simp) (by simp [he]), fun hx hd => ?_⟩
    obtain ⟨b, a, rfl⟩ := List.append_of_mem hd
    exact H b (a ++ [x]) (by simp) (by simp [hx])
  · rintro ⟨H1, H2⟩ b a h
    rcases List.eq_nil_or_concat a with rfl | ⟨a1, y, rfl⟩
    · simp
    · have h1 := List.append_inj' (show tr ++ [x] = (b ++ d :: a1) ++ [y] by rw [h]; simp) rfl
      have hy : x = y := by simpa using h1.2
      have hd : d ∈ tr := by rw [h1.1]; simp
      intro he
      rw [List.concat_eq_append] at he
      rcases List.mem_append.1 he with he | he
      · exact H1 b a1 h1.1 he
      · exact H2 (by rw [hy]; exact (List.mem_singleton.1 he).symm) hd

/-- Both conditions hold of the empty trace. -/
theorem Precedes_nil (d e : Event) : Precedes d e [] ∧ NeverAfter d e [] := by
  constructor <;> intro b a h <;> simp at h

/-- A step of the worker thread keeps `WorkerInv`. -/
theorem ServiceWorkerThread_inv (s : Service) (pc : WorkerPC) (tr : List Event)
    (h : WorkerInv pc s.stoppedEvent tr) :
    WorkerInv (ServiceWorkerThread s pc).2.1 (ServiceWorkerThread s pc).1.stoppedEvent
      (match (ServiceWorkerThread s pc).2.2 with
        | none => tr
        | some e => tr ++ [e]) := by
  obtain ⟨h1, h2, h3, h4, h5, h6, h7, h8, h9, h10, h11, h12, h13, h14, h15, h16, h17, h18, h19⟩ := h
  cases pc <;> simp only [ServiceWorkerThread] <;> (try split) <;> constructor <;>
    simp_all [Precedes_snoc, NeverAfter_snoc, List.count_append]

/-- Appending the return of `Stop` keeps `WorkerInv` when the event is signalled. -/
theorem WorkerInv.stopSucceeded (pc : WorkerPC) (tr : List Event)
    (h : WorkerInv pc true tr) : WorkerInv pc true (tr ++ [Event.StopReturned]) := by
  obtain ⟨h1, h2, h3, h4, h5, h6, h7, h8, h9, h10, h11, h12, h13, h14, h15, h16, h17, h18, h19⟩ := h
  have hp := h7 rfl
  subst hp
  constructor <;> simp_all [Precedes_snoc, NeverAfter_snoc, List.count_append]

/-- Every step of the machine keeps `WorkerInv`. -/
theorem Machine.step_inv (m m1 : Machine) (a : Action)
    (h : WorkerInv m.pc m.svc.stoppedEvent m.trace) (hstep : m.step a = some m1) :
    WorkerInv m1.pc m1.svc.stoppedEvent m1.trace := by
  cases a with
  | worker =>
    have key := ServiceWorkerThread_inv m.svc m.pc m.trace h
    unfold Machine.step at hstep
    rcases hw : ServiceWorkerThread m.svc m.pc with ⟨s, pc, e⟩
    rw [hw] at key hstep
    cases e with
    | none =>
      simp only [Option.some.injEq] at hstep
      subst hstep
      exact key
    | some e =>
      simp only [Option.some.injEq] at hstep
      subst hstep
      exact key
  | Stop =>
    unfold Machine.step at hstep
    cases hc : m.control <;> rw [hc] at hstep <;> simp only [Option.some.injEq] at hstep <;>
      try (cases hstep; done)
    subst hstep
    have e : (WriteEventLogEntry (SetServiceStatus m.svc SERVICE_STOP_PENDING NO_ERROR 0)
        "Example Service Stopping..." EVENTLOG_INFORMATION_TYPE).stoppedEvent
        = m.svc.stoppedEvent := (WriteEventLogEntry_frame _ _ _).2.2.2.2.2.2.1
    show WorkerInv m.pc (WriteEventLogEntry (SetServiceStatus m.svc SERVICE_STOP_PENDING NO_ERROR 0)
        "Example Service Stopping..." EVENTLOG_INFORMATION_TYPE).stoppedEvent m.trace
    rw [e]
    exact h
  | waitSignalled =>
    unfold Machine.step at hstep
    cases hc : m.control <;> rw [hc] at hstep <;> simp only at hstep <;>
      try (cases hstep)
    by_cases hev : m.svc.stoppedEvent = true
    · rw [if_pos hev] at hstep
      simp only [Option.some.injEq] at hstep
      subst hstep
      rw [hev] at h
      show WorkerInv m.pc m.svc.stoppedEvent (m.trace ++ [Event.StopReturned])
      rw [hev]
      exact WorkerInv.stopSucceeded _ _ h
    · rw [if_neg hev] at hstep
      exact absurd hstep (by simp)
  | Pause =>
    unfold Machine.step at hstep
    cases hc : m.control <;> rw [hc] at hstep <;> simp only [Option.some.injEq] at hstep <;>
      try (cases hstep; done)
    subst hstep
    exact h
  | Continue =>
    unfold Machine.step at hstep
    cases hc : m.control <;> rw [hc] at hstep <;> simp only [Option.some.injEq] at hstep <;>
      try (cases hstep; done)
    subst hstep
    exact h
  | signalSeen =>
    unfold Machine.step at hstep
    by_cases hs : m.svc.m_fSignal = true
    · rw [if_pos hs] at hstep
      cases hc : m.control <;> rw [hc] at hstep <;> simp only [Option.some.injEq] at hstep <;>
        try (cases hstep; done)
      · subst hstep
        exact h
      · subst hstep
        exact h
    · rw [if_neg hs] at hstep
      exact absurd hstep (by simp)
  | timedOut =>
    unfold Machine.step at hstep
    cases hc : m.control <;> rw [hc] at hstep <;> simp only [Option.some.injEq] at hstep <;>
      try (cases hstep; done)
    · subst hstep
      show WorkerInv m.pc (WriteErrorLogEntry { m.svc with m_fPaused := false } "Service Pause"
        ERROR_TIMEOUT).stoppedEvent m.trace
      rw [(WriteErrorLogEntry_frame _ _ _).2.2.2.2.2.2.1]
      exact h
    · subst hstep
      show WorkerInv m.pc (WriteErrorLogEntry { m.svc with m_fPaused := true } "Service Continue"
        ERROR_TIMEOUT).stoppedEvent m.trace
      rw [(WriteErrorLogEntry_frame _ _ _).2.2.2.2.2.2.1]
      exact h

/-- Every schedule keeps `WorkerInv`. -/
theorem Machine.run_inv (acts : List Action) :
    ∀ (m m1 : Machine), WorkerInv m.pc m.svc.stoppedEvent m.trace →
      Machine.run acts m = some m1 → WorkerInv m1.pc m1.svc.stoppedEvent m1.trace := by
  induction acts with
  | nil =>
    intro m m1 h hrun
    simp only [Machine.run, Option.some.injEq] at hrun
    exact hrun ▸ h
  | cons a rest ih =>
    intro m m1 h hrun
    unfold Machine.run at hrun
    cases hs : m.step a with
    | none => rw [hs] at hrun; exact absurd hrun (by simp)
    | some m2 =>
      rw [hs] at hrun
      exact ih m2 m1 (Machine.step_inv m m2 a h hs) hrun

/-- The worker thread at its entry, the event not signalled, nothing recorded yet. -/
theorem WorkerInv.entry : WorkerInv WorkerPC.entry false [] := by
  constructor <;> simp [(Precedes_nil _ _).1, (Precedes_nil _ _).2]

/-- The machine's `Stop` step followed by a wait that returns, the event being signalled,
leaves the object as `Stop` does with the wrapper's `OnStop`. -/
theorem Machine.Stop_waitSignalled (m : Machine) (w : WaitResult)
    (hc : m.control = ControlPC.idle) (hev : m.svc.stoppedEvent = true) :
    ((m.step Action.Stop).bind fun m1 => m1.step Action.waitSignalled).map
        (fun m2 => m2.svc) =
      (Stop (OnStop w) m.svc).map (fun r => r.2) := by
  have e : (WriteEventLogEntry (SetServiceStatus m.svc SERVICE_STOP_PENDING NO_ERROR 0)
      "Example Service Stopping..." EVENTLOG_INFORMATION_TYPE).stoppedEvent = true :=
    ((WriteEventLogEntry_frame _ _ _).2.2.2.2.2.2.1).trans hev
  simp [Machine.step, hc, Stop, OnStop, e]

/-- C20: in every execution that begins with the worker thread at the entry of
`ServiceWorkerThread`, the event not signalled and nothing recorded, whatever the control
thread does meanwhile and in whatever order the steps of the two threads are taken:
`callback_start` is called exactly once (once as soon as the worker has taken its first
step, none before) and every call of another callback comes after it; `callback_stopped`
is called exactly once (once when the worker is at `SetEvent` or has finished, none
before), and only after a loop test that read the stop flag as true; no `update`, `paused`
or `continue` callback comes after it; the event `OnStop` waits on is signalled only after
it; every return of `Stop` comes after the event is signalled, the worker has then left
`ServiceWorkerThread`, and no call of `update` comes after a return of `Stop`. -/
theorem worker_loop_order (acts : List Action) (m0 m : Machine)
    (hpc : m0.pc = WorkerPC.entry) (hev : m0.svc.stoppedEvent = false) (htr : m0.trace = [])
    (hrun : Machine.run acts m0 = some m) :
    m.trace.count Event.callback_start = (if m.pc = WorkerPC.entry then 0 else 1) ∧
    (m.pc = WorkerPC.finished →
      m.trace.count Event.callback_start = 1 ∧ m.trace.count Event.callback_stopped = 1) ∧
    Precedes Event.callback_start Event.callback_update m.trace ∧
    Precedes Event.callback_start Event.callback_paused m.trace ∧
    Precedes Event.callback_start Event.callback_continue m.trace ∧
    Precedes Event.callback_start Event.callback_stopped m.trace ∧
    m.trace.count Event.callback_stopped =
      (if m.pc = WorkerPC.setEvent ∨ m.pc = WorkerPC.finished then 1 else 0) ∧
    Precedes Event.stopObserved Event.callback_stopped m.trace ∧
    NeverAfter Event.callback_stopped Event.callback_update m.trace ∧
    NeverAfter Event.callback_stopped Event.callback_paused m.trace ∧
    NeverAfter Event.callback_stopped Event.callback_continue m.trace ∧
    Precedes Event.callback_stopped Event.SetEvent m.trace ∧
    Precedes Event.SetEvent Event.StopReturned m.trace ∧
    (Event.StopReturned ∈ m.trace → m.pc = WorkerPC.finished) ∧
    NeverAfter Event.StopReturned Event.callback_update m.trace := by
  have h0 : WorkerInv m0.pc m0.svc.stoppedEvent m0.trace := by
    rw [hpc, hev, htr]
    exact WorkerInv.entry
  have h := Machine.run_inv acts m0 m h0 hrun
  refine ⟨h.startCount, fun hf => ?_, h.startUpdate, h.startPaused, h.startContinue,
    h.startStopped, h.stoppedCount, h.observedStopped, h.stoppedUpdate, h.stoppedPaused,
    h.stoppedContinue, h.stoppedSet, h.setReturned, h.joined, h.returnedUpdate⟩
  have h1 := h.startCount
  have h2 := h.stoppedCount
  rw [hf] at h1 h2
  exact ⟨by simpa using h1, by simpa using h2⟩

/-- The run of `worker_loop_order_witness`. -/
theorem sampleJoined_run :
    ∃ m, Machine.run sampleJoined sampleQueued = some m ∧ m.pc = WorkerPC.finished ∧
      m.trace = [Event.callback_start, Event.callback_update, Event.stopObserved,
        Event.callback_stopped, Event.SetEvent, Event.StopReturned] ∧
      m.svc.m_status.dwCurrentState = SERVICE_STOPPED :=
  ⟨_, rfl, rfl, rfl, rfl⟩

/-- Witness of C20: the worker of a running service runs one round of its loop, `Stop` is
entered and joined by the worker; each of `start` and `stopped` has been called once, and no
`update` follows the return of `Stop`. -/
theorem worker_loop_order_witness :
    ∃ m, Machine.run sampleJoined sampleQueued = some m ∧
      m.trace = [Event.callback_start, Event.callback_update, Event.stopObserved,
        Event.callback_stopped, Event.SetEvent, Event.StopReturned] ∧
      m.trace.count Event.callback_start = 1 ∧ m.trace.count Event.callback_stopped = 1 ∧
      NeverAfter Event.StopReturned Event.callback_update m.trace := by
  obtain ⟨m, hrun, hpc, htr, -⟩ := sampleJoined_run
  obtain ⟨-, h1, -, -, -, -, -, -, -, -, -, -, -, -, h3⟩ :=
    worker_loop_order sampleJoined sampleQueued m rfl rfl rfl hrun
  exact ⟨m, hrun, htr, (h1 hpc).1, (h1 hpc).2, h3⟩

/-! ## Theorems: the checkpoint of a status report -/

/-- The pending checkpoints of a list of reports with one more report in front. -/
theorem pendingCheckpoints_cons (status : SERVICE_STATUS) (rest : List SERVICE_STATUS) :
    pendingCheckpoints (status :: rest) =
      if status.settled then pendingCheckpoints rest
      else status.dwCheckPoint :: pendingCheckpoints rest := by
  unfold pendingCheckpoints
  cases h : status.settled <;> simp [List.filter_cons, h]

/-- The statuses a sequence of `SetServiceStatus` calls reports, from an object whose
checkpoint counter is a `DWORD` value: one per call, with the state asked for; checkpoint 0
with Running and Stopped; the other checkpoints count up from the counter, modulo 2^32. -/
theorem reportAll_reported :
    ∀ (calls : List (DWORD × DWORD × DWORD)) (s : Service), s.dwCheckPoint < 2 ^ 32 →
      ∃ new : List SERVICE_STATUS,
        (reportAll calls s).reported = s.reported ++ new ∧
        new.map (fun status => status.dwCurrentState) = calls.map (fun c => c.1) ∧
        (∀ status ∈ new, status.settled = true → status.dwCheckPoint = 0) ∧
        pendingCheckpoints new =
          (List.range (pendingCheckpoints new).length).map
            (fun i => (s.dwCheckPoint + i) % 2 ^ 32) := by
  intro calls
  induction calls with
  | nil =>
    intro s _
    exact ⟨[], by simp [reportAll], rfl, by simp, by simp [pendingCheckpoints]⟩
  | cons c rest ih =>
    intro s hs
    obtain ⟨st, e, h⟩ := c
    have hlt : (SetServiceStatus s st e h).dwCheckPoint < 2 ^ 32 := by
      simp only [SetServiceStatus]
      split
      · exact hs
      · exact Nat.mod_lt _ (by norm_num)
    obtain ⟨new, h1, h2, h3, h4⟩ := ih (SetServiceStatus s st e h) hlt
    refine ⟨(SetServiceStatus s st e h).m_status :: new, ?_, ?_, ?_, ?_⟩
    · simp only [reportAll]
      rw [h1, SetServiceStatus_reported]
      simp
    · simp only [List.map_cons, h2]
      rfl
    · intro status hmem hsettled
      rcases List.mem_cons.1 hmem with rfl | hmem
      · simp only [SERVICE_STATUS.settled, SetServiceStatus] at hsettled ⊢
        simp only [hsettled, if_true]
      · exact h3 status hmem hsettled
    · by_cases hf : (st == SERVICE_RUNNING || st == SERVICE_STOPPED) = true
      · have e0 : (SetServiceStatus s st e h).m_status.settled = true := hf
        have e1 : pendingCheckpoints ((SetServiceStatus s st e h).m_status :: new) =
            pendingCheckpoints new := by
          rw [pendingCheckpoints_cons, e0]
          rfl
        have e2 : (SetServiceStatus s st e h).dwCheckPoint = s.dwCheckPoint := by
          simp [SetServiceStatus, hf]
        rw [e1, h4, e2]
        simp
      · have hf2 : (st == SERVICE_RUNNING || st == SERVICE_STOPPED) = false := by
          simpa using hf
        have e0 : (SetServiceStatus s st e h).m_status.settled = false := hf2
        have e1 : pendingCheckpoints ((SetServiceStatus s st e h).m_status :: new) =
            s.dwCheckPoint :: pendingCheckpoints new := by
          rw [pendingCheckpoints_cons, e0]
          simp [SetServiceStatus, hf2]
        have e2 : (SetServiceStatus s st e h).dwCheckPoint = (s.dwCheckPoint + 1) % 2 ^ 32 := by
          simp [SetServiceStatus, hf2]
        rw [e1, List.length_cons, List.range_succ_eq_map, List.map_cons, List.map_map]
        have e3 : (s.dwCheckPoint + 0) % 2 ^ 32 = s.dwCheckPoint := Nat.mod_eq_of_lt hs
        rw [e3]
        congr 1
        rw [h4, e2]
        simp only [List.length_map, List.length_range]
        apply List.map_congr_left
        intro i _
        show ((s.dwCheckPoint + 1) % 2 ^ 32 + i) % 2 ^ 32 = (s.dwCheckPoint + (i + 1)) % 2 ^ 32
        rw [Nat.mod_add_mod, Nat.add_assoc, Nat.add_comm 1 i]

/-- C21: a freshly constructed controller has the state StartPending and checkpoint 0.
After any sequence of status reports from construction: every report has the state asked
for; a report of Running or Stopped has checkpoint 0; the checkpoints of the other reports
are, in order, 1, 2, 3, ... modulo 2^32, so the first is 1 and each is one greater, modulo
2^32, than that of the previous report of a state other than Running and Stopped. -/
theorem checkpoint_sequence (pszServiceName : String) (dwControlsAccepted : DWORD)
    (calls : List (DWORD × DWORD × DWORD)) :
    (Service.create pszServiceName dwControlsAccepted).m_status.dwCurrentState
      = SERVICE_START_PENDING ∧
    (Service.create pszServiceName dwControlsAccepted).m_status.dwCheckPoint = 0 ∧
    (reportAll calls (Service.create pszServiceName dwControlsAccepted)).reported.map
      (fun status => status.dwCurrentState) = calls.map (fun c => c.1) ∧
    (∀ status ∈ (reportAll calls (Service.create pszServiceName dwControlsAccepted)).reported,
      status.dwCurrentState = SERVICE_RUNNING ∨ status.dwCurrentState = SERVICE_STOPPED →
        status.dwCheckPoint = 0) ∧
    (∀ i c, (pendingCheckpoints
        (reportAll calls (Service.create pszServiceName dwControlsAccepted)).reported).get? i
          = some c → c = (i + 1) % 2 ^ 32) ∧
    (∀ i c d, (pendingCheckpoints
        (reportAll calls (Service.create pszServiceName dwControlsAccepted)).reported).get? i
          = some c →
      (pendingCheckpoints
        (reportAll calls (Service.create pszServiceName dwControlsAccepted)).reported).get? (i + 1)
          = some d → d = (c + 1) % 2 ^ 32) := by
  obtain ⟨new, h1, h2, h3, h4⟩ :=
    reportAll_reported calls (Service.create pszServiceName dwControlsAccepted)
      (show (1 : Nat) < 2 ^ 32 by norm_num)
  have h0 : (reportAll calls (Service.create pszServiceName dwControlsAccepted)).reported = new := by
    rw [h1]
    rfl
  have key : ∀ i c, (pendingCheckpoints new).get? i = some c → c = (i + 1) % 2 ^ 32 := by
    intro i c hc
    rw [h4] at hc
    simp only [List.get?_eq_getElem?, List.getElem?_map, List.getElem?_range,
      Option.map_eq_some'] at hc
    obtain ⟨j, hj, rfl⟩ := hc
    have hj2 : j = i := by
      by_cases hlt : i < (pendingCheckpoints new).length
      · rw [List.getElem?_range hlt] at hj
        exact (Option.some.inj hj).symm
      · rw [List.getElem?_eq_none (by simpa using hlt)] at hj
        cases hj
    subst hj2
    show (1 + j) % 2 ^ 32 = (j + 1) % 2 ^ 32
    rw [Nat.add_comm]
  rw [h0]
  refine ⟨rfl, rfl, h2, ?_, key, ?_⟩
  · intro status hmem hst
    apply h3 status hmem
    simp only [SERVICE_STATUS.settled]
    rcases hst with hst | hst <;> simp [hst]
  · intro i c d hc hd
    rw [key i c hc, key (i + 1) d hd]
    norm_num

/-- Witness of C21: a service that is started, paused and stopped reports the checkpoints
1, 0, 2, 3, 4, 0. -/
theorem checkpoint_sequence_witness :
    (reportAll sampleReports (Service.create "svc" 3)).reported.map
      (fun status => status.dwCheckPoint) = [1, 0, 2, 3, 4, 0] ∧
    (pendingCheckpoints (reportAll sampleReports (Service.create "svc" 3)).reported).get? 3
      = some ((3 + 1) % 2 ^ 32) :=
  ⟨rfl, by
    have h := (checkpoint_sequence "svc" 3 sampleReports).2.2.2.2.1 3 4 rfl
    rw [← h]
    rfl⟩

/-! ## Theorems: the validity flags -/

/-- The loop of a drain pass on the audited interface, entered with the queue `q`: either
every write succeeds, one per queued message, and the queue ends empty with counter and flag
untouched; or the writes before some write `j + 1` succeed and that one fails, no write
follows, the counter has gone up by one, `validOutbox` is false, and the queue is `q` without
its first `j` messages. -/
theorem IPCWriteData.loop_outcomes (os : Win32 ω) (staleVal : Msg) :
    ∀ (q : List Msg) (payload : Msg) (s : IPCController) (w : ω) (log : List (Call × Bool)),
      s.outgoing_messages = q →
      ((IPCWriteData.loop (audited os) staleVal payload q s (w, log)).1 = true ∧
        writeOutcomes (IPCWriteData.loop (audited os) staleVal payload q s (w, log)).2.2.2 =
          writeOutcomes log ++ List.replicate q.length true ∧
        (IPCWriteData.loop (audited os) staleVal payload q s (w, log)).2.1.outgoing_messages
          = [] ∧
        (IPCWriteData.loop (audited os) staleVal payload q s (w, log)).2.1.error_count =
          s.error_count ∧
        (IPCWriteData.loop (audited os) staleVal payload q s (w, log)).2.1.ipc_valid_outbox =
          s.ipc_valid_outbox) ∨
      (∃ j, j < q.length ∧
        (IPCWriteData.loop (audited os) staleVal payload q s (w, log)).1 = false ∧
        writeOutcomes (IPCWriteData.loop (audited os) staleVal payload q s (w, log)).2.2.2 =
          writeOutcomes log ++ List.replicate j true ++ [false] ∧
        (IPCWriteData.loop (audited os) staleVal payload q s (w, log)).2.1.outgoing_messages
          = q.drop j ∧
        (IPCWriteData.loop (audited os) staleVal payload q s (w, log)).2.1.error_count =
          (s.error_count + 1) % SIZE_MOD ∧
        (IPCWriteData.loop (audited os) staleVal payload q s (w, log)).2.1.ipc_valid_outbox =
          false) := by
  intro q
  induction q with
  | nil =>
    intro payload s w log hq
    left
    simp [IPCWriteData.loop, hq]
  | cons m rest ih =>
    intro payload s w log hq
    rcases hw : os.WriteFile s.mailslot_out payload w with ⟨b, w2⟩
    cases b with
    | false =>
      have e : IPCWriteData.loop (audited os) staleVal payload (m :: rest) s (w, log) =
          (false, { IPCReportError (audited os) s (w2, log ++
            [(Call.WriteFile s.mailslot_out payload, false)]) with ipc_valid_outbox := false },
            w2, log ++ [(Call.WriteFile s.mailslot_out payload, false)]) := by
        simp [IPCWriteData.loop, audited, hw]
      rw [e]
      right
      refine ⟨0, by simp, rfl, ?_, ?_, rfl, rfl⟩
      · simp [writeOutcomes, List.filter_append]
      · simp [IPCReportError, hq]
    | true =>
      have e : IPCWriteData.loop (audited os) staleVal payload (m :: rest) s (w, log) =
          IPCWriteData.loop (audited os) staleVal staleVal rest
            { s with outgoing_messages := rest }
            (w2, log ++ [(Call.WriteFile s.mailslot_out payload, true)]) := by
        simp [IPCWriteData.loop, audited, hw]
      rw [e]
      have eo : writeOutcomes (log ++ [(Call.WriteFile s.mailslot_out payload, true)]) =
          writeOutcomes log ++ [true] := by
        simp [writeOutcomes, List.filter_append]
      rcases ih staleVal { s with outgoing_messages := rest } w2
        (log ++ [(Call.WriteFile s.mailslot_out payload, true)]) rfl with
        ⟨g1, g2, g3, g4, g5⟩ | ⟨j, hj, g1, g2, g3, g4, g5⟩
      · left
        refine ⟨g1, ?_, g3, g4, g5⟩
        rw [g2, eo]
        simp [List.replicate_succ]
      · right
        refine ⟨j + 1, by simpa using hj, g1, ?_, ?_, g4, g5⟩
        · rw [g2, eo]
          simp [List.replicate_succ]
        · rw [g3]
          rfl

/-- A drain pass on the audited interface whose write number `k` is the first to fail: no
write follows it, the pass returns false, the error counter has gone up by one,
`validOutbox` is false, and the outgoing queue is what it was without its first `k - 1`
messages. -/
theorem IPCWriteData_failed_write (os : Win32 ω) (stale : Msg → Msg) (s : IPCController)
    (w : ω) (k : Nat)
    (hfail : (writeOutcomes (IPCWriteData (audited os) stale s (w, [])).2.2.2).take k =
      List.replicate (k - 1) true ++ [false]) :
    writeOutcomes (IPCWriteData (audited os) stale s (w, [])).2.2.2 =
      List.replicate (k - 1) true ++ [false] ∧
    (IPCWriteData (audited os) stale s (w, [])).1 = false ∧
    (IPCWriteData (audited os) stale s (w, [])).2.1.error_count
      = (s.error_count + 1) % SIZE_MOD ∧
    (IPCWriteData (audited os) stale s (w, [])).2.1.ipc_valid_outbox = false ∧
    (IPCWriteData (audited os) stale s (w, [])).2.1.outgoing_messages
      = s.outgoing_messages.drop (k - 1) := by
  have hform : IPCWriteData (audited os) stale s (w, []) = (false, s, w, []) ∨
      ∃ front rest, s.outgoing_messages = front :: rest ∧
        IPCWriteData (audited os) stale s (w, []) =
          IPCWriteData.loop (audited os) (stale front) front (front :: rest) s (w, []) := by
    unfold IPCWriteData
    split
    · exact Or.inl rfl
    · split
      · exact Or.inl rfl
      · rename_i front rest hq
        exact Or.inr ⟨front, rest, hq, rfl⟩
  rcases hform with e | ⟨front, rest, hq, e⟩
  · rw [e] at hfail
    simp [writeOutcomes] at hfail
  · rw [e] at hfail ⊢
    rcases IPCWriteData.loop_outcomes os (stale front) (front :: rest) front s w [] hq with
      ⟨-, g2, -⟩ | ⟨j, hj, g1, g2, g3, g4, g5⟩
    · have e0 : writeOutcomes ([] : List (Call × Bool)) = [] := rfl
      rw [g2, e0, List.nil_append] at hfail
      have hmem : false ∈ List.take k (List.replicate (front :: rest).length true) := by
        rw [hfail]
        simp
      have hmem2 := List.mem_of_mem_take hmem
      simp at hmem2
    · have e0 : writeOutcomes ([] : List (Call × Bool)) = [] := rfl
      rw [e0, List.nil_append] at g2
      rw [g2] at hfail
      have hjk : j = k - 1 := by
        have hlen := congrArg List.length hfail
        simp only [List.length_take, List.length_append, List.length_replicate,
          List.length_singleton] at hlen
        by_contra hne2
        rcases Nat.lt_or_gt_of_ne hne2 with hlt | hgt
        · omega
        · have h1 := congrArg (fun l => l.get? (k - 1)) hfail
          simp only [List.get?_eq_getElem?] at h1
          rw [List.getElem?_take_of_lt (by omega),
            List.getElem?_append_left (by simp; omega),
            List.getElem?_append_right (by simp)] at h1
          simp at h1
          rw [List.getElem?_replicate] at h1
          split at h1 <;> simp at h1
      subst hjk
      exact ⟨g2, g1, g4, g5, g3.trans (by rw [hq])⟩

/-- C23: the messages `"a"`, `"b"`, `"c"` are queued on a valid outbox and the transport
takes two writes and fails the third. The pass makes three writes, returns false, reports
one error, clears `validOutbox` and leaves the queue `["c"]`; but the payloads of its writes
are `"a"` and then twice what a read of the destroyed first element yields, so `"b"` has
left the queue without having been written. -/
theorem IPCWriteData_unsent_dropped (stale : Msg → Msg) :
    (IPCWriteData (traced flakyOS) stale sampleThree (2, [])).1 = false ∧
    (IPCWriteData (traced flakyOS) stale sampleThree (2, [])).2.1.outgoing_messages = ["c"] ∧
    (IPCWriteData (traced flakyOS) stale sampleThree (2, [])).2.1.error_count
      = sampleThree.error_count + 1 ∧
    (IPCWriteData (traced flakyOS) stale sampleThree (2, [])).2.1.ipc_valid_outbox = false ∧
    writesOf (IPCWriteData (traced flakyOS) stale sampleThree (2, [])).2.2.2
      = ["a", stale "a", stale "a"] ∧
    writeOutcomes (IPCWriteData (audited flakyOS) stale sampleThree (2, [])).2.2.2
      = [true, true, false] :=
  ⟨rfl, rfl, rfl, rfl, rfl, rfl⟩

/-- The characterisation of a failed write at the sample: the third write is the first to
fail, and the queue is left without its first two messages. -/
theorem IPCWriteData_failed_write_sample :
    (IPCWriteData (audited flakyOS) id sampleThree (2, [])).2.1.outgoing_messages
      = ["a", "b", "c"].drop (3 - 1) :=
  (IPCWriteData_failed_write flakyOS id sampleThree 2 3 rfl).2.2.2.2

/-! ## Theorems: failures inside a read pass -/

/-- The exits of a read pass on a failure, over any transport. When the first length query
fails, the pass reports one error, returns false and leaves `validInbox` set. When the
length query after a message fails, the pass reports one error, returns false and clears
`validInbox`, the message staying in the incoming queue. When the read loop gives up (a
failed read, or the zero-byte retries used up), the pass reports one error, returns false
and leaves `validInbox` and the incoming queue as they were. -/
theorem IPCReadData_failure_exits (os : Win32 ω) (fuel : Nat) (s : IPCController) (w : ω) :
    (∀ w1, s.ipc_valid_inbox = true → os.GetMailslotInfo s.mailslot_in w = (none, w1) →
      IPCReadData os fuel s w = some (false, IPCReportError os s w1, w1) ∧
      (IPCReportError os s w1).ipc_valid_inbox = true ∧
      (IPCReportError os s w1).error_count = (s.error_count + 1) % SIZE_MOD) ∧
    (∀ szNextMsg szMsg msg w1 w2, szMsg ≠ 0 →
      IPCReadData.inner os s.mailslot_in szNextMsg szMsg fuel 0 4 "" w = some (some msg, w1) →
      os.GetMailslotInfo s.mailslot_in w1 = (none, w2) →
      ∃ s1, IPCReadData.outer os (fuel + 1) szNextMsg szMsg s w = some (false, s1, w2) ∧
        s1.ipc_valid_inbox = false ∧ s1.error_count = (s.error_count + 1) % SIZE_MOD ∧
        s1.incoming_messages = s.incoming_messages ++ [msg]) ∧
    (∀ szNextMsg szMsg w1, szMsg ≠ 0 →
      IPCReadData.inner os s.mailslot_in szNextMsg szMsg fuel 0 4 "" w = some (none, w1) →
      ∃ s1, IPCReadData.outer os (fuel + 1) szNextMsg szMsg s w = some (false, s1, w1) ∧
        s1.ipc_valid_inbox = s.ipc_valid_inbox ∧
        s1.error_count = (s.error_count + 1) % SIZE_MOD ∧
        s1.incoming_messages = s.incoming_messages) := by
  refine ⟨?_, ?_, ?_⟩
  · intro w1 hv hq
    refine ⟨?_, hv, rfl⟩
    simp [IPCReadData, hv, hq]
  · intro szNextMsg szMsg msg w1 w2 hz hin hq
    refine ⟨{ IPCReportError os { s with incoming_messages := s.incoming_messages ++ [msg] } w2
      with ipc_valid_inbox := false }, ?_, rfl, rfl, rfl⟩
    simp [IPCReadData.outer, hz, hin, hq]
  · intro szNextMsg szMsg w1 hz hin
    refine ⟨IPCReportError os s w1, ?_, rfl, rfl, rfl⟩
    simp [IPCReadData.outer, hz, hin]

/-- C24: a channel with a valid inbox runs a read pass on a transport whose length query
fails. The pass returns false and the error counter goes from 0 to 1, but `validInbox` is
still true; and the pump iteration from that state makes the failing query again and no
`CreateMailslot` call: the inbox is not re-opened. -/
theorem IPCReadData_first_query_keeps_valid :
    sampleReader.ipc_valid_inbox = true ∧ sampleReader.error_count = 0 ∧
    (∃ s1, IPCReadData flakyOS 5 sampleReader 0 = some (false, s1, 0) ∧
      s1.ipc_valid_inbox = true ∧ s1.error_count = 1 ∧
      ∃ s2, IPCHandle.iteration (traced flakyOS) id 5 s1 (0, []) =
          some (s2, 0, [Call.GetMailslotInfo (some 0), Call.Sleep 25]) ∧
        s2.ipc_valid_inbox = true ∧ s2.error_count = 2) :=
  ⟨rfl, rfl, _, rfl, rfl, rfl, _, rfl, rfl, rfl⟩

/-! ## Theorems: the retry budget of the read loop -/

/-- Counting the zero-byte and the failed reads of a record with one more exchange in
front. -/
theorem zeroReads_cons (x : Exchange) (log : List Exchange) :
    zeroReads (x :: log) = (if x.isZeroRead then 1 else 0) + zeroReads log ∧
    failedReads (x :: log) = (if x.isFailedRead then 1 else 0) + failedReads log := by
  unfold zeroReads failedReads
  cases h1 : x.isZeroRead <;> cases h2 : x.isFailedRead <;> simp [List.filter_cons, h1, h2] <;>
    omega

/-- The read loop for one message on the recorded interface, entered with `retryCount`
retries left: it makes reads only; at most `retryCount` of them return zero bytes and at
most one fails; it gives up exactly when the zero-byte reads reach `retryCount` or a read
fails, and that read is then its last. -/
theorem IPCReadData.inner_retries (os : Win32 ω) (h : HANDLE) (szNextMsg szMsg : DWORD) :
    ∀ (fuel : Nat) (totalBytes retryCount : Nat) (msgCache : Msg) (w : ω)
      (log : List Exchange) (r : Option Msg) (w1 : ω) (log1 : List Exchange),
      1 ≤ retryCount →
      IPCReadData.inner (recorded os) h szNextMsg szMsg fuel totalBytes retryCount msgCache
        (w, log) = some (r, w1, log1) →
      ∃ new, log1 = log ++ new ∧ zeroReads new ≤ retryCount ∧ failedReads new ≤ 1 ∧
        (r = none ↔ zeroReads new = retryCount ∨ failedReads new = 1) ∧
        (r = none → ∃ x, new.getLast? = some x ∧
          (x.isZeroRead = true ∨ x.isFailedRead = true)) := by
  have z0 : zeroReads [] = 0 ∧ failedReads [] = 0 := ⟨rfl, rfl⟩
  intro fuel
  induction fuel with
  | zero =>
    intro totalBytes retryCount msgCache w log r w1 log1 _ hrun
    simp [IPCReadData.inner] at hrun
  | succ fuel ih =>
    intro totalBytes retryCount msgCache w log r w1 log1 hretry hrun
    simp only [IPCReadData.inner, recorded] at hrun
    rcases hread : os.ReadFile h (if szNextMsg > BUFSIZE then szNextMsg else BUFSIZE) szNextMsg w
      with ⟨reply, w2⟩
    simp only [hread] at hrun
    cases reply with
    | blocks => simp at hrun
    | failed =>
      simp only [Option.some.injEq, Prod.mk.injEq] at hrun
      obtain ⟨rfl, rfl, rfl⟩ := hrun
      have ez : (Exchange.read (if szNextMsg > BUFSIZE then szNextMsg else BUFSIZE) szNextMsg
          ReadResult.failed).isZeroRead = false := rfl
      have ef : (Exchange.read (if szNextMsg > BUFSIZE then szNextMsg else BUFSIZE) szNextMsg
          ReadResult.failed).isFailedRead = true := rfl
      refine ⟨[Exchange.read (if szNextMsg > BUFSIZE then szNextMsg else BUFSIZE) szNextMsg ReadResult.failed], rfl, ?_, ?_, ?_, ?_⟩
      · rw [(zeroReads_cons _ _).1, ez, z0.1]
        simp
      · rw [(zeroReads_cons _ _).2, ef, z0.2]
        simp
      · rw [(zeroReads_cons _ _).2, ef, z0.2]
        simp
      · intro _
        exact ⟨_, rfl, Or.inr rfl⟩
    | ok data =>
      simp only at hrun
      have ef : (Exchange.read (if szNextMsg > BUFSIZE then szNextMsg else BUFSIZE) szNextMsg
          (ReadResult.ok data)).isFailedRead = false := rfl
      by_cases hz : data.length = 0
      · have ez : (Exchange.read (if szNextMsg > BUFSIZE then szNextMsg else BUFSIZE) szNextMsg
            (ReadResult.ok data)).isZeroRead = true := by
          simp [Exchange.isZeroRead, hz]
        simp only [hz, if_true] at hrun
        by_cases hlast : retryCount - 1 = 0
        · simp only [hlast, if_true, Option.some.injEq, Prod.mk.injEq] at hrun
          obtain ⟨rfl, rfl, rfl⟩ := hrun
          have hr1 : retryCount = 1 := Nat.le_antisymm (Nat.le_of_sub_eq_zero hlast) hretry
          refine ⟨[Exchange.read (if szNextMsg > BUFSIZE then szNextMsg else BUFSIZE) szNextMsg (ReadResult.ok data)], rfl, ?_, ?_, ?_, ?_⟩
          · rw [(zeroReads_cons _ _).1, ez, z0.1]
            simpa using hretry
          · rw [(zeroReads_cons _ _).2, ef, z0.2]
            simp
          · rw [(zeroReads_cons _ _).1, (zeroReads_cons _ _).2, ez, ef, z0.1, z0.2, hr1]
            simp
          · intro _
            exact ⟨_, rfl, Or.inl ez⟩
        · simp only [hlast, if_false] at hrun
          by_cases hlt : totalBytes < szMsg
          · simp only [hlt, if_true] at hrun
            have hr2 : 1 ≤ retryCount - 1 := Nat.pos_of_ne_zero hlast
            have hr3 : retryCount - 1 + 1 = retryCount := Nat.sub_add_cancel hretry
            obtain ⟨new, g1, g2, g3, g4, g5⟩ :=
              ih totalBytes (retryCount - 1) msgCache _ _ r w1 log1 hr2 hrun
            refine ⟨Exchange.read (if szNextMsg > BUFSIZE then szNextMsg else BUFSIZE) szNextMsg (ReadResult.ok data) :: new, ?_, ?_, ?_, ?_, ?_⟩
            · rw [g1]
              simp
            · rw [(zeroReads_cons _ _).1, ez]
              simp only [if_true]
              omega
            · rw [(zeroReads_cons _ _).2, ef]
              simpa using g3
            · rw [g4, (zeroReads_cons _ _).1, (zeroReads_cons _ _).2, ez, ef]
              simp only [if_true, Bool.false_eq_true, if_false, Nat.zero_add]
              constructor
              · rintro (h1 | h1)
                · left
                  omega
                · right
                  exact h1
              · rintro (h1 | h1)
                · left
                  omega
                · right
                  exact h1
            · intro hr
              obtain ⟨x, hx, hx2⟩ := g5 hr
              refine ⟨x, ?_, hx2⟩
              cases new with
              | nil => simp at hx
              | cons y ys => simpa using hx
          · simp only [hlt, if_false, Option.some.injEq, Prod.mk.injEq] at hrun
            obtain ⟨rfl, rfl, rfl⟩ := hrun
            refine ⟨[Exchange.read (if szNextMsg > BUFSIZE then szNextMsg else BUFSIZE) szNextMsg (ReadResult.ok data)], rfl, ?_, ?_, ?_, ?_⟩
            · rw [(zeroReads_cons _ _).1, ez, z0.1]
              simpa using hretry
            · rw [(zeroReads_cons _ _).2, ef, z0.2]
              simp
            · have hr2 : retryCount ≠ 1 := fun e => hlast (by rw [e])
              rw [(zeroReads_cons _ _).1, (zeroReads_cons _ _).2, ez, ef, z0.1, z0.2]
              simp
              exact fun e => hr2 e.symm
            · intro hc
              cases hc
      · have ez : (Exchange.read (if szNextMsg > BUFSIZE then szNextMsg else BUFSIZE) szNextMsg
            (ReadResult.ok data)).isZeroRead = false := by
          simp [Exchange.isZeroRead, hz]
        simp only [hz, if_false] at hrun
        by_cases hlt : (totalBytes + data.length) % 2 ^ 32 < szMsg
        · simp only [hlt, if_true] at hrun
          obtain ⟨new, g1, g2, g3, g4, g5⟩ :=
            ih _ retryCount _ _ _ r w1 log1 hretry hrun
          refine ⟨Exchange.read (if szNextMsg > BUFSIZE then szNextMsg else BUFSIZE) szNextMsg (ReadResult.ok data) :: new, ?_, ?_, ?_, ?_, ?_⟩
          · rw [g1]
            simp
          · rw [(zeroReads_cons _ _).1, ez]
            simpa using g2
          · rw [(zeroReads_cons _ _).2, ef]
            simpa using g3
          · rw [g4, (zeroReads_cons _ _).1, (zeroReads_cons _ _).2, ez, ef]
            simp
          · intro hr
            obtain ⟨x, hx, hx2⟩ := g5 hr
            refine ⟨x, ?_, hx2⟩
            cases new with
            | nil => simp at hx
            | cons y ys => simpa using hx
        · simp only [hlt, if_false, Option.some.injEq, Prod.mk.injEq] at hrun
          obtain ⟨rfl, rfl, rfl⟩ := hrun
          refine ⟨[Exchange.read (if szNextMsg > BUFSIZE then szNextMsg else BUFSIZE) szNextMsg (ReadResult.ok data)], rfl, ?_, ?_, ?_, ?_⟩
          · rw [(zeroReads_cons _ _).1, ez, z0.1]
            simp
          · rw [(zeroReads_cons _ _).2, ef, z0.2]
            simp
          · rw [(zeroReads_cons _ _).1, (zeroReads_cons _ _).2, ez, ef, z0.1, z0.2]
            simp
            exact fun e => absurd (e ▸ hretry) (by decide)
          · intro hc
            cases hc

/-- The read loop for one message ends on every transport whose reads never block and
return at most the bytes asked for, when the byte total cannot wrap: the fuel needed is at
most the bytes still missing plus the retries left. -/
theorem IPCReadData.inner_terminates (os : Win32 ω) (h : HANDLE) (szNextMsg szMsg : Nat)
    (hread : ∀ w,
      (os.ReadFile h (if szNextMsg > BUFSIZE then szNextMsg else BUFSIZE) szNextMsg w).1
        ≠ ReadResult.blocks ∧
      ∀ data,
        (os.ReadFile h (if szNextMsg > BUFSIZE then szNextMsg else BUFSIZE) szNextMsg w).1
          = ReadResult.ok data → data.length ≤ szNextMsg)
    (hsize : szNextMsg + szMsg ≤ 2 ^ 32) :
    ∀ (fuel totalBytes retryCount : Nat) (msgCache : Msg) (w : ω),
      totalBytes < szMsg → 1 ≤ retryCount → (szMsg - totalBytes) + (retryCount - 1) ≤ fuel →
      ∃ r, IPCReadData.inner os h szNextMsg szMsg fuel totalBytes retryCount msgCache w
        = some r := by
  intro fuel
  induction fuel with
  | zero =>
    intro totalBytes retryCount msgCache w ht hr hf
    omega
  | succ fuel ih =>
    intro totalBytes retryCount msgCache w ht hr hf
    simp only [IPCReadData.inner]
    obtain ⟨hnb, hle⟩ := hread w
    rcases hrd : os.ReadFile h (if szNextMsg > BUFSIZE then szNextMsg else BUFSIZE) szNextMsg w
      with ⟨reply, w2⟩
    rw [hrd] at hnb hle
    cases reply with
    | blocks => exact absurd rfl hnb
    | failed => exact ⟨_, rfl⟩
    | ok data =>
      have hlen : data.length ≤ szNextMsg := hle data rfl
      simp only
      by_cases hz : data.length = 0
      · simp only [hz, if_true]
        by_cases hlast : retryCount - 1 = 0
        · simp only [hlast, if_true]
          exact ⟨_, rfl⟩
        · simp only [hlast, if_false, ht, if_true]
          exact ih totalBytes (retryCount - 1) msgCache _ ht (Nat.pos_of_ne_zero hlast)
            (by omega)
      · simp only [hz, if_false]
        have hmod : (totalBytes + data.length) % 2 ^ 32 = totalBytes + data.length :=
          Nat.mod_eq_of_lt (by omega)
        rw [hmod]
        by_cases hlt : totalBytes + data.length < szMsg
        · simp only [hlt, if_true]
          exact ih _ retryCount _ w2 hlt hr (by omega)
        · simp only [hlt, if_false]
          exact ⟨_, rfl⟩

/-- C25: the read loop for one pending message, with the replies of the transport recorded.
At most 4 reads return zero bytes; when no read fails, the loop gives up exactly when the
zero-byte reads number 4, wherever among the reads they stand, and the 4th is then its last
read. When the loop gives up, the pass returns false with the error counter one higher and
the incoming queue and `validInbox` as they were. The loop ends, within `szMsg + 3` reads, on
every transport whose reads never block and return at most the bytes asked for, the byte
total not wrapping. -/
theorem zero_byte_retry_budget (os : Win32 ω) (fuel : Nat) (szNextMsg szMsg : Nat) :
    (∀ h w r w1 log,
      IPCReadData.inner (recorded os) h szNextMsg szMsg fuel 0 4 "" (w, []) = some (r, w1, log) →
      zeroReads log ≤ 4 ∧
      (failedReads log = 0 → (r = none ↔ zeroReads log = 4)) ∧
      (failedReads log = 0 → r = none → ∃ x, log.getLast? = some x ∧ x.isZeroRead = true)) ∧
    (∀ s w w1, szMsg ≠ 0 →
      IPCReadData.inner os s.mailslot_in szNextMsg szMsg fuel 0 4 "" w = some (none, w1) →
      ∃ s1, IPCReadData.outer os (fuel + 1) szNextMsg szMsg s w = some (false, s1, w1) ∧
        s1.ipc_valid_inbox = s.ipc_valid_inbox ∧
        s1.error_count = (s.error_count + 1) % SIZE_MOD ∧
        s1.incoming_messages = s.incoming_messages) ∧
    (∀ h w, szMsg ≠ 0 → szNextMsg + szMsg ≤ 2 ^ 32 → szMsg + 3 ≤ fuel →
      (∀ w2,
        (os.ReadFile h (if szNextMsg > BUFSIZE then szNextMsg else BUFSIZE) szNextMsg w2).1
          ≠ ReadResult.blocks ∧
        ∀ data,
          (os.ReadFile h (if szNextMsg > BUFSIZE then szNextMsg else BUFSIZE) szNextMsg w2).1
            = ReadResult.ok data → data.length ≤ szNextMsg) →
      ∃ r, IPCReadData.inner os h szNextMsg szMsg fuel 0 4 "" w = some r) := by
  refine ⟨?_, ?_, ?_⟩
  · intro h w r w1 log hrun
    obtain ⟨new, g1, g2, g3, g4, g5⟩ :=
      IPCReadData.inner_retries os h szNextMsg szMsg fuel 0 4 "" w [] r w1 log (by decide) hrun
    rw [List.nil_append] at g1
    subst g1
    refine ⟨g2, fun hf => ?_, fun hf hr => ?_⟩
    · rw [g4, hf]
      simp
    · obtain ⟨x, hx, hx2⟩ := g5 hr
      refine ⟨x, hx, ?_⟩
      rcases hx2 with hx2 | hx2
      · exact hx2
      · exfalso
        have hmem : x ∈ log := List.mem_of_getLast?_eq_some hx
        have : x ∈ log.filter Exchange.isFailedRead := List.mem_filter.2 ⟨hmem, hx2⟩
        unfold failedReads at hf
        rw [List.length_eq_zero] at hf
        rw [hf] at this
        cases this
  · intro s w w1 hz hin
    exact (IPCReadData_failure_exits os fuel s w).2.2 szNextMsg szMsg w1 hz hin
  · intro h w hz hsize hfuel hread
    exact IPCReadData.inner_terminates os h szNextMsg szMsg hread hsize fuel 0 4 "" w
      (Nat.pos_of_ne_zero hz) (by decide) (by omega)

/-- The run of `zero_byte_retry_budget_witness`: the transport returns zero bytes, then
`"a"`, then zero bytes for ever, 3 messages being announced. -/
theorem sampleRetries_run :
    IPCReadData.inner (recorded scriptOS) (some 0) 8 3 10 0 4 "" (["", "a"], []) =
      some (none, [], [Exchange.read 4096 8 (ReadResult.ok ""),
        Exchange.read 4096 8 (ReadResult.ok "a"), Exchange.read 4096 8 (ReadResult.ok ""),
        Exchange.read 4096 8 (ReadResult.ok ""), Exchange.read 4096 8 (ReadResult.ok "")]) :=
  rfl

/-- Witness of C25: one zero-byte read, a read of one byte and three more zero-byte reads:
the loop gives up at the fifth read, the 4th to return zero bytes. -/
theorem zero_byte_retry_budget_witness :
    zeroReads [Exchange.read 4096 8 (ReadResult.ok ""),
      Exchange.read 4096 8 (ReadResult.ok "a"), Exchange.read 4096 8 (ReadResult.ok ""),
      Exchange.read 4096 8 (ReadResult.ok ""), Exchange.read 4096 8 (ReadResult.ok "")] = 4 ∧
    ∃ r, IPCReadData.inner scriptOS (some 0) 8 3 10 0 4 "" ["", "a"] = some r := by
  have h := zero_byte_retry_budget scriptOS 10 8 3
  refine ⟨((h.1 _ _ _ _ _ sampleRetries_run).2.1 rfl).1 rfl, ?_⟩
  refine h.2.2 (some 0) ["", "a"] (by decide) (by norm_num) (by decide) ?_
  intro w2
  refine ⟨by simp [scriptOS], ?_⟩
  intro data hd
  simp only [scriptOS, ReadResult.ok.injEq] at hd
  rw [← hd]
  exact List.length_take_le _ _

/-! ## Theorems: the bound of the handshake wait -/

/-- The clock test of `OnPause` and `OnContinue`, the quotient being truncated: more than 4
whole seconds means at least 5 seconds of ticks. -/
theorem handshakeWait_clock_test (t cps : Int) (hc : 0 < cps) :
    t.tdiv cps > 4 ↔ 5 * cps ≤ t := by
  by_cases ht : 0 ≤ t
  · rw [Int.tdiv_eq_ediv ht (le_of_lt hc)]
    constructor
    · intro h
      have h5 : (5 : Int) ≤ t / cps := h
      exact (Int.le_ediv_iff_mul_le hc).1 h5
    · intro h
      exact (Int.le_ediv_iff_mul_le hc).2 h
  · have hneg : t.tdiv cps ≤ 0 := by
      have h1 : 0 ≤ (-t).tdiv cps := Int.tdiv_nonneg (by omega) (le_of_lt hc)
      rw [Int.neg_tdiv] at h1
      omega
    constructor
    · intro h
      omega
    · intro h
      omega

/-- The polling loop raises exactly at the first poll at which the clock test succeeds, the
signal having been unset at every test up to it: with fuel beyond that poll the loop ends by
raising `ERROR_TIMEOUT`, with less fuel it is still polling. -/
theorem handshakeWait_first_poll (env : ControlEnv) (timeout : Int) (restore : Bool)
    (hc : 0 < env.CLOCKS_PER_SEC) (n : Nat) (s : Service) (hs : s.m_fSignal = false)
    (hcond : 5 * env.CLOCKS_PER_SEC ≤ env.clock (n + 1) - timeout) :
    ∀ (fuel k : Nat), k ≤ n →
      (∀ j, k ≤ j → j ≤ n → env.workerSignals j = false) →
      (∀ j, k ≤ j → j < n → env.clock (j + 1) - timeout < 5 * env.CLOCKS_PER_SEC) →
      (n < k + fuel → handshakeWait env timeout restore fuel k s =
        some (Outcome.raisedCode ERROR_TIMEOUT, { s with m_fPaused := restore })) ∧
      (k + fuel ≤ n → handshakeWait env timeout restore fuel k s = none) := by
  intro fuel
  induction fuel with
  | zero =>
    intro k hk _ _
    exact ⟨fun h => by omega, fun _ => rfl⟩
  | succ fuel ih =>
    intro k hk hw hbefore
    have hsig : (s.m_fSignal || env.workerSignals k) = false := by
      rw [hs, hw k (Nat.le_refl k) hk]
      rfl
    unfold handshakeWait
    rw [if_neg (by rw [hsig]; exact Bool.false_ne_true)]
    by_cases hkn : k = n
    · subst hkn
      rw [if_pos ((handshakeWait_clock_test _ _ hc).2 hcond)]
      exact ⟨fun _ => rfl, fun h => by omega⟩
    · have hlt : k < n := Nat.lt_of_le_of_ne hk hkn
      have hno : ¬ (env.clock (k + 1) - timeout).tdiv env.CLOCKS_PER_SEC > 4 := by
        rw [handshakeWait_clock_test _ _ hc]
        have := hbefore k (Nat.le_refl k) hlt
        omega
      rw [if_neg hno]
      obtain ⟨g1, g2⟩ := ih (k + 1) hlt (fun j h1 h2 => hw j (by omega) h2)
        (fun j h1 h2 => hbefore j (by omega) h2)
      exact ⟨fun h => g1 (by omega), fun h => g2 (by omega)⟩

/-- The polling loop raises only `ERROR_TIMEOUT`, and only at a poll at which the signal is
still unset and at least 5 seconds of ticks have passed. -/
theorem handshakeWait_raises_late (env : ControlEnv) (timeout : Int) (restore : Bool)
    (hc : 0 < env.CLOCKS_PER_SEC) :
    ∀ (fuel k : Nat) (s : Service) (o : Outcome) (s1 : Service),
      handshakeWait env timeout restore fuel k s = some (o, s1) → o ≠ Outcome.returned →
      o = Outcome.raisedCode ERROR_TIMEOUT ∧
      ∃ n, k ≤ n ∧ n < k + fuel ∧ s.m_fSignal = false ∧
        (∀ j, k ≤ j → j ≤ n → env.workerSignals j = false) ∧
        5 * env.CLOCKS_PER_SEC ≤ env.clock (n + 1) - timeout := by
  intro fuel
  induction fuel with
  | zero =>
    intro k s o s1 hrun _
    simp [handshakeWait] at hrun
  | succ fuel ih =>
    intro k s o s1 hrun ho
    unfold handshakeWait at hrun
    by_cases hsig : (s.m_fSignal || env.workerSignals k) = true
    · rw [if_pos hsig] at hrun
      simp only [Option.some.injEq, Prod.mk.injEq] at hrun
      exact absurd hrun.1.symm ho
    · rw [if_neg hsig] at hrun
      have hsig2 : s.m_fSignal = false ∧ env.workerSignals k = false := by
        simpa using hsig
      by_cases hcl : (env.clock (k + 1) - timeout).tdiv env.CLOCKS_PER_SEC > 4
      · rw [if_pos hcl] at hrun
        simp only [Option.some.injEq, Prod.mk.injEq] at hrun
        refine ⟨hrun.1.symm, k, Nat.le_refl k, by omega, hsig2.1, ?_,
          (handshakeWait_clock_test _ _ hc).1 hcl⟩
        intro j h1 h2
        have : j = k := by omega
        rw [this]
        exact hsig2.2
      · rw [if_neg hcl] at hrun
        obtain ⟨g1, n, g2, g3, g4, g5, g6⟩ := ih (k + 1) s o s1 hrun ho
        refine ⟨g1, n, by omega, by omega, g4, ?_, g6⟩
        intro j h1 h2
        by_cases hj : j = k
        · rw [hj]
          exact hsig2.2
        · exact g5 j (by omega) h2

/-- C26, counterexample: at the first poll of `OnPause` (and of `OnContinue`) the signal is
unset and 4500 ticks have passed, more than 4 * `CLOCKS_PER_SEC` = 4000; no timeout is
raised, and the wait returns normally when the worker signals before the next test. -/
theorem handshake_bound_counterexample :
    sampleRunning.m_fSignal = false ∧ sampleLate.workerSignals 0 = false ∧
    sampleLate.clock 1 - sampleLate.clock 0 > 4 * sampleLate.CLOCKS_PER_SEC ∧
    (∃ s1, OnPause sampleLate 5 sampleRunning = some (Outcome.returned, s1)) ∧
    (∃ s1, OnContinue sampleLate 5 sampleRunning = some (Outcome.returned, s1)) :=
  ⟨rfl, rfl, by decide, ⟨_, rfl⟩, ⟨_, rfl⟩⟩

/-- C26, amended: with a positive `CLOCKS_PER_SEC` and the signal unset at entry, `OnPause`
and `OnContinue` raise `ERROR_TIMEOUT` at the first poll at which the signal is still unset
and at least 5 * `CLOCKS_PER_SEC` ticks have passed since the wait began (they end there
when the fuel reaches that poll and are still polling when it does not); and whenever they
raise, it is `ERROR_TIMEOUT` at such a poll, never at one with fewer ticks. -/
theorem handshake_bound (env : ControlEnv) (fuel : Nat) (s : Service)
    (hc : 0 < env.CLOCKS_PER_SEC) :
    (∀ n, s.m_fSignal = false → (∀ j, j ≤ n → env.workerSignals j = false) →
      (∀ j, j < n → env.clock (j + 1) - env.clock 0 < 5 * env.CLOCKS_PER_SEC) →
      5 * env.CLOCKS_PER_SEC ≤ env.clock (n + 1) - env.clock 0 →
      (n < fuel →
        OnPause env fuel s
          = some (Outcome.raisedCode ERROR_TIMEOUT, { s with m_fPaused := false }) ∧
        OnContinue env fuel s
          = some (Outcome.raisedCode ERROR_TIMEOUT, { s with m_fPaused := true })) ∧
      (fuel ≤ n → OnPause env fuel s = none ∧ OnContinue env fuel s = none)) ∧
    (∀ o s1, OnPause env fuel s = some (o, s1) ∨ OnContinue env fuel s = some (o, s1) →
      o ≠ Outcome.returned →
      o = Outcome.raisedCode ERROR_TIMEOUT ∧
      ∃ n, n < fuel ∧ (∀ j, j ≤ n → env.workerSignals j = false) ∧
        5 * env.CLOCKS_PER_SEC ≤ env.clock (n + 1) - env.clock 0) := by
  refine ⟨?_, ?_⟩
  · intro n hs hw hbefore hcond
    obtain ⟨p1, p2⟩ := handshakeWait_first_poll env (env.clock 0) false hc n
      { s with m_fPaused := true } hs hcond fuel 0 (Nat.zero_le n)
      (fun j _ h2 => hw j h2) (fun j _ h2 => hbefore j h2)
    obtain ⟨c1, c2⟩ := handshakeWait_first_poll env (env.clock 0) true hc n
      { s with m_fPaused := false } hs hcond fuel 0 (Nat.zero_le n)
      (fun j _ h2 => hw j h2) (fun j _ h2 => hbefore j h2)
    refine ⟨fun h => ⟨?_, ?_⟩, fun h => ⟨?_, ?_⟩⟩
    · exact p1 (by omega)
    · exact c1 (by omega)
    · exact p2 (by omega)
    · exact c2 (by omega)
  · intro o s1 hrun ho
    rcases hrun with hrun | hrun
    · obtain ⟨g1, n, -, g3, -, g5, g6⟩ :=
        handshakeWait_raises_late env (env.clock 0) false hc fuel 0 _ o s1 hrun ho
      exact ⟨g1, n, by omega, fun j h => g5 j (Nat.zero_le j) h, g6⟩
    · obtain ⟨g1, n, -, g3, -, g5, g6⟩ :=
        handshakeWait_raises_late env (env.clock 0) true hc fuel 0 _ o s1 hrun ho
      exact ⟨g1, n, by omega, fun j h => g5 j (Nat.zero_le j) h, g6⟩

/-- Witness of C26: the worker hangs and the clock, at 1000 ticks per second, advances by one
second per reading. With fuel for 10 polls `OnPause` raises `ERROR_TIMEOUT`; with fuel for 4
polls, the last of them 4 seconds after the wait began, it is still polling: the timeout is
raised at the fifth poll, 5 seconds after the wait began. -/
theorem handshake_bound_witness :
    OnPause sampleHang 10 sampleRunning =
      some (Outcome.raisedCode ERROR_TIMEOUT, { sampleRunning with m_fPaused := false }) ∧
    OnPause sampleHang 4 sampleRunning = none := by
  have hlate : ∀ j, j < 4 →
      sampleHang.clock (j + 1) - sampleHang.clock 0 < 5 * sampleHang.CLOCKS_PER_SEC := by
    intro j hj
    show 1000 * ((j + 1 : Nat) : Int) - 1000 * ((0 : Nat) : Int) < 5 * 1000
    omega
  exact ⟨(((handshake_bound sampleHang 10 sampleRunning (by decide)).1 4 rfl (fun _ _ => rfl)
      hlate (by decide)).1 (by decide)).1,
    (((handshake_bound sampleHang 4 sampleRunning (by decide)).1 4 rfl (fun _ _ => rfl)
      hlate (by decide)).2 (by decide)).1⟩

/-! ## Theorems: the pause handshake of the worker -/

/-- C27: a pause is requested while the worker is in its loop. The worker sets the signal
before it calls `paused`: in the state reached the signal is set, the worker stands before
the call of `callback_paused` and no `paused` callback has been recorded; the control thread
then sees the signal, and `Pause` reports Paused, still before the callback. On the
following continue the order is the other one: `continue` has been called and the worker
stands before the statement that sets the signal, which is still unset. -/
theorem CheckForPause_signals_early :
    (∃ m1 m2, Machine.run samplePauseAck sampleQueued = some m1 ∧
      m1.pc = WorkerPC.paused ∧ m1.svc.m_fSignal = true ∧
      m1.trace = [Event.callback_start, Event.callback_update] ∧
      m1.step Action.signalSeen = some m2 ∧
      m2.svc.m_status.dwCurrentState = SERVICE_PAUSED ∧
      m2.trace = [Event.callback_start, Event.callback_update]) ∧
    (∃ m3, Machine.run sampleContinueAck sampleQueued = some m3 ∧
      m3.pc = WorkerPC.setSignal2 ∧ m3.svc.m_fSignal = false ∧
      m3.trace = [Event.callback_start, Event.callback_update, Event.callback_paused,
        Event.callback_continue]) :=
  ⟨⟨_, _, rfl, rfl, rfl, rfl, rfl, rfl, rfl⟩, ⟨_, rfl, rfl, rfl, rfl⟩⟩

/-- How the polling loop of `OnPause` and `OnContinue` ends: it returns with the signal
cleared and nothing else changed, or raises `ERROR_TIMEOUT` with `m_fPaused` restored and
nothing else changed. -/
theorem handshakeWait_result (env : ControlEnv) (timeout : Int) (restore : Bool) :
    ∀ (fuel k : Nat) (s : Service) (o : Outcome) (s1 : Service),
      handshakeWait env timeout restore fuel k s = some (o, s1) →
      (o = Outcome.returned ∧ s1 = { s with m_fSignal := false }) ∨
      (o = Outcome.raisedCode ERROR_TIMEOUT ∧ s1 = { s with m_fPaused := restore }) := by
  intro fuel
  induction fuel with
  | zero =>
    intro k s o s1 hrun
    simp [handshakeWait] at hrun
  | succ fuel ih =>
    intro k s o s1 hrun
    unfold handshakeWait at hrun
    by_cases hsig : (s.m_fSignal || env.workerSignals k) = true
    · rw [if_pos hsig] at hrun
      simp only [Option.some.injEq, Prod.mk.injEq] at hrun
      exact Or.inl ⟨hrun.1.symm, hrun.2.symm⟩
    · rw [if_neg hsig] at hrun
      by_cases hcl : (env.clock (k + 1) - timeout).tdiv env.CLOCKS_PER_SEC > 4
      · rw [if_pos hcl] at hrun
        simp only [Option.some.injEq, Prod.mk.injEq] at hrun
        exact Or.inr ⟨hrun.1.symm, hrun.2.symm⟩
      · rw [if_neg hcl] at hrun
        exact ih (k + 1) s o s1 hrun

/-- C28, counterexample: the control thread writes the signal flag. In the machine, the
step that ends `OnPause` finds the signal set by the worker and clears it; and `OnPause`
entered with the signal set returns with the signal cleared. -/
theorem signal_written_by_control_counterexample :
    (∃ m1 m2, Machine.run samplePauseAck sampleQueued = some m1 ∧
      m1.control = ControlPC.inPause ∧ m1.svc.m_fSignal = true ∧
      m1.step Action.signalSeen = some m2 ∧ m2.svc.m_fSignal = false) ∧
    (∃ s1, OnPause sampleHang 3 { sampleRunning with m_fSignal := true }
        = some (Outcome.returned, s1) ∧ s1.m_fSignal = false) ∧
    (∃ s1, OnContinue sampleHang 3 { sampleRunning with m_fSignal := true }
        = some (Outcome.returned, s1) ∧ s1.m_fSignal = false) :=
  ⟨⟨_, _, rfl, rfl, rfl, rfl, rfl⟩, ⟨_, rfl, rfl⟩, ⟨_, rfl, rfl⟩⟩

/-- C28, amended: `OnPause` and `OnContinue` write the desired-pause flag and, when the
handshake arrives, the signal flag as well, which they clear; when they time out they leave
the signal flag as they found it; they change nothing else. Every statement of the worker
thread, those of `CheckForPause` included, leaves the desired-pause flag and the stop flag
as it found them, and changes the signal flag, if at all, to true. -/
theorem flag_writers (env : ControlEnv) (fuel : Nat) (s : Service) :
    (∀ o s1, OnPause env fuel s = some (o, s1) →
      (o = Outcome.returned ∧ s1 = { s with m_fPaused := true, m_fSignal := false }) ∨
      (o = Outcome.raisedCode ERROR_TIMEOUT ∧ s1 = { s with m_fPaused := false })) ∧
    (∀ o s1, OnContinue env fuel s = some (o, s1) →
      (o = Outcome.returned ∧ s1 = { s with m_fPaused := false, m_fSignal := false }) ∨
      (o = Outcome.raisedCode ERROR_TIMEOUT ∧ s1 = { s with m_fPaused := true })) ∧
    (∀ pc, (ServiceWorkerThread s pc).1.m_fPaused = s.m_fPaused ∧
      (ServiceWorkerThread s pc).1.m_fStopping = s.m_fStopping ∧
      ((ServiceWorkerThread s pc).1.m_fSignal = s.m_fSignal ∨
        (ServiceWorkerThread s pc).1.m_fSignal = true)) := by
  refine ⟨?_, ?_, ?_⟩
  · intro o s1 hrun
    rcases handshakeWait_result env (env.clock 0) false fuel 0 _ o s1 hrun with
      ⟨h1, h2⟩ | ⟨h1, h2⟩
    · exact Or.inl ⟨h1, h2⟩
    · exact Or.inr ⟨h1, h2⟩
  · intro o s1 hrun
    rcases handshakeWait_result env (env.clock 0) true fuel 0 _ o s1 hrun with
      ⟨h1, h2⟩ | ⟨h1, h2⟩
    · exact Or.inl ⟨h1, h2⟩
    · exact Or.inr ⟨h1, h2⟩
  · intro pc
    cases pc <;> simp only [ServiceWorkerThread] <;> (try split) <;> simp

/-- Witness of C28: `OnPause` on a running service whose worker hangs raises the timeout
and leaves everything but the desired-pause flag, which it restores, as it was. -/
theorem flag_writers_witness :
    OnPause sampleHang 10 sampleRunning =
      some (Outcome.raisedCode ERROR_TIMEOUT, sampleRunning) := by
  rcases (flag_writers sampleHang 10 sampleRunning).1 (Outcome.raisedCode ERROR_TIMEOUT)
    { sampleRunning with m_fPaused := false } rfl with ⟨h1, -⟩ | ⟨-, h2⟩
  · cases h1
  · rfl

/-! ## Theorems: the buffer of a read -/

/-- The condition `readsFit` of a record made of two parts. -/
theorem readsFit_append :
    ∀ (l1 l2 : List Exchange) (declared : Option DWORD),
      readsFit declared (l1 ++ l2) =
        (readsFit declared l1 && readsFit (declaredAfter declared l1) l2) := by
  intro l1
  induction l1 with
  | nil =>
    intro l2 declared
    simp [readsFit, declaredAfter]
  | cons x rest ih =>
    intro l2 declared
    cases x with
    | query reply =>
      cases reply with
      | none => simp [readsFit, declaredAfter, ih]
      | some p =>
        obtain ⟨n, c⟩ := p
        simp [readsFit, declaredAfter, ih]
    | read cap n reply =>
      simp [readsFit, declaredAfter, ih, Bool.and_assoc]

/-- The size in force after a record made of two parts. -/
theorem declaredAfter_append :
    ∀ (l1 l2 : List Exchange) (declared : Option DWORD),
      declaredAfter declared (l1 ++ l2) = declaredAfter (declaredAfter declared l1) l2 := by
  intro l1
  induction l1 with
  | nil =>
    intro l2 declared
    simp [declaredAfter]
  | cons x rest ih =>
    intro l2 declared
    cases x with
    | query reply =>
      cases reply with
      | none => simp [declaredAfter, ih]
      | some p =>
        obtain ⟨n, c⟩ := p
        simp [declaredAfter, ih]
    | read cap n reply => simp [declaredAfter, ih]

/-- In a record that satisfies `readsFit`, no read asks for more bytes than its buffer
holds, and the buffer is the scratch buffer or one of exactly the size asked for. -/
theorem readsFit_mem :
    ∀ (log : List Exchange) (declared : Option DWORD), readsFit declared log = true →
      ∀ cap n reply, Exchange.read cap n reply ∈ log →
        n ≤ cap ∧ cap = (if n > BUFSIZE then n else BUFSIZE) := by
  intro log
  induction log with
  | nil =>
    intro declared _ cap n reply hmem
    cases hmem
  | cons x rest ih =>
    intro declared hfit cap n reply hmem
    rcases List.mem_cons.1 hmem with hx | hx
    · subst hx
      simp only [readsFit, Bool.and_eq_true, beq_iff_eq] at hfit
      refine ⟨?_, hfit.1.2⟩
      have hcap := hfit.1.2
      by_cases hb : n > BUFSIZE
      · rw [if_pos hb] at hcap
        exact Nat.le_of_eq hcap.symm
      · rw [if_neg hb] at hcap
        rw [hcap]
        exact Nat.le_of_not_gt hb
    · cases x with
      | query q =>
        cases q with
        | none => exact ih declared (by simpa [readsFit] using hfit) cap n reply hx
        | some p =>
          obtain ⟨n1, c1⟩ := p
          exact ih (some n1) (by simpa [readsFit] using hfit) cap n reply hx
      | read cap1 n1 reply1 =>
        simp only [readsFit, Bool.and_eq_true] at hfit
        exact ih declared hfit.2 cap n reply hx

/-- The read loop for one message on the recorded interface makes reads only, each asking
for `szNextMsg` bytes into the buffer chosen for that size. -/
theorem IPCReadData.inner_reads (os : Win32 ω) (h : HANDLE) (szNextMsg szMsg : DWORD) :
    ∀ (fuel : Nat) (totalBytes retryCount : Nat) (msgCache : Msg) (w : ω)
      (log : List Exchange) (r : Option Msg) (w1 : ω) (log1 : List Exchange),
      IPCReadData.inner (recorded os) h szNextMsg szMsg fuel totalBytes retryCount msgCache
        (w, log) = some (r, w1, log1) →
      ∃ new, log1 = log ++ new ∧ readsFit (some szNextMsg) new = true ∧
        declaredAfter (some szNextMsg) new = some szNextMsg := by
  intro fuel
  induction fuel with
  | zero =>
    intro totalBytes retryCount msgCache w log r w1 log1 hrun
    simp [IPCReadData.inner] at hrun
  | succ fuel ih =>
    intro totalBytes retryCount msgCache w log r w1 log1 hrun
    simp only [IPCReadData.inner, recorded] at hrun
    rcases hread : os.ReadFile h (if szNextMsg > BUFSIZE then szNextMsg else BUFSIZE) szNextMsg w
      with ⟨reply, w2⟩
    simp only [hread] at hrun
    have one : ∀ reply : ReadResult,
        readsFit (some szNextMsg) [Exchange.read
          (if szNextMsg > BUFSIZE then szNextMsg else BUFSIZE) szNextMsg reply] = true ∧
        declaredAfter (some szNextMsg) [Exchange.read
          (if szNextMsg > BUFSIZE then szNextMsg else BUFSIZE) szNextMsg reply]
          = some szNextMsg := by
      intro reply
      simp [readsFit, declaredAfter]
    have more : ∀ (reply : ReadResult) (new : List Exchange),
        readsFit (some szNextMsg) new = true →
        declaredAfter (some szNextMsg) new = some szNextMsg →
        readsFit (some szNextMsg) (Exchange.read
          (if szNextMsg > BUFSIZE then szNextMsg else BUFSIZE) szNextMsg reply :: new) = true ∧
        declaredAfter (some szNextMsg) (Exchange.read
          (if szNextMsg > BUFSIZE then szNextMsg else BUFSIZE) szNextMsg reply :: new)
          = some szNextMsg := by
      intro reply new h1 h2
      simp [readsFit, declaredAfter, h1, h2]
    cases reply with
    | blocks => simp at hrun
    | failed =>
      simp only [Option.some.injEq, Prod.mk.injEq] at hrun
      obtain ⟨rfl, rfl, rfl⟩ := hrun
      exact ⟨_, rfl, one _⟩
    | ok data =>
      simp only at hrun
      split at hrun
      · split at hrun
        · simp only [Option.some.injEq, Prod.mk.injEq] at hrun
          obtain ⟨rfl, rfl, rfl⟩ := hrun
          exact ⟨_, rfl, one _⟩
        · split at hrun
          · obtain ⟨new, g1, g2, g3⟩ := ih _ _ _ _ _ r w1 log1 hrun
            refine ⟨Exchange.read (if szNextMsg > BUFSIZE then szNextMsg else BUFSIZE)
              szNextMsg (ReadResult.ok data) :: new, ?_, more _ new g2 g3⟩
            rw [g1]
            simp
          · simp only [Option.some.injEq, Prod.mk.injEq] at hrun
            obtain ⟨rfl, rfl, rfl⟩ := hrun
            exact ⟨_, rfl, one _⟩
      · split at hrun
        · obtain ⟨new, g1, g2, g3⟩ := ih _ _ _ _ _ r w1 log1 hrun
          refine ⟨Exchange.read (if szNextMsg > BUFSIZE then szNextMsg else BUFSIZE)
            szNextMsg (ReadResult.ok data) :: new, ?_, more _ new g2 g3⟩
          rw [g1]
          simp
        · simp only [Option.some.injEq, Prod.mk.injEq] at hrun
          obtain ⟨rfl, rfl, rfl⟩ := hrun
          exact ⟨_, rfl, one _⟩

/-- The outer loop of a read pass on the recorded interface, entered with the next-message
size `szNextMsg` in force: every read it makes fits. -/
theorem IPCReadData.outer_reads (os : Win32 ω) :
    ∀ (fuel : Nat) (szNextMsg szMsg : DWORD) (s : IPCController) (w : ω)
      (log : List Exchange) (r : Bool) (s1 : IPCController) (w1 : ω) (log1 : List Exchange),
      IPCReadData.outer (recorded os) fuel szNextMsg szMsg s (w, log) = some (r, s1, w1, log1) →
      ∃ new, log1 = log ++ new ∧ readsFit (some szNextMsg) new = true := by
  intro fuel
  induction fuel with
  | zero =>
    intro szNextMsg szMsg s w log r s1 w1 log1 hrun
    simp [IPCReadData.outer] at hrun
  | succ fuel ih =>
    intro szNextMsg szMsg s w log r s1 w1 log1 hrun
    simp only [IPCReadData.outer] at hrun
    split at hrun
    · simp only [Option.some.injEq, Prod.mk.injEq] at hrun
      obtain ⟨rfl, rfl, rfl, rfl⟩ := hrun
      exact ⟨[], by simp, rfl⟩
    · rcases hin : IPCReadData.inner (recorded os) s.mailslot_in szNextMsg szMsg fuel 0 4 ""
        (w, log) with _ | ⟨res, w2, log2⟩
      · simp [hin] at hrun
      · obtain ⟨new, g1, g2, g3⟩ :=
          IPCReadData.inner_reads os _ _ _ _ _ _ _ _ _ _ _ _ hin
        cases res with
        | none =>
          simp only [hin, Option.some.injEq, Prod.mk.injEq] at hrun
          obtain ⟨rfl, rfl, rfl, rfl⟩ := hrun
          exact ⟨new, g1, g2⟩
        | some msg =>
          simp only [hin] at hrun
          rcases hq : os.GetMailslotInfo s.mailslot_in w2 with ⟨q, w3⟩
          cases q with
          | none =>
            simp only [recorded, hq, Option.some.injEq, Prod.mk.injEq] at hrun
            obtain ⟨rfl, rfl, rfl, rfl⟩ := hrun
            refine ⟨new ++ [Exchange.query none], by rw [g1]; simp, ?_⟩
            rw [readsFit_append, g2]
            rfl
          | some p =>
            obtain ⟨n, c⟩ := p
            simp only [recorded, hq] at hrun
            split at hrun
            · simp only [Option.some.injEq, Prod.mk.injEq] at hrun
              obtain ⟨rfl, rfl, rfl, rfl⟩ := hrun
              refine ⟨new ++ [Exchange.query (some (n, c))], by rw [g1]; simp, ?_⟩
              rw [readsFit_append, g2]
              rfl
            · obtain ⟨new2, k1, k2⟩ := ih _ _ _ _ _ _ _ _ _ hrun
              refine ⟨new ++ [Exchange.query (some (n, c))] ++ new2, by rw [k1, g1]; simp, ?_⟩
              rw [readsFit_append, readsFit_append, g2, declaredAfter_append, g3]
              simp [readsFit, declaredAfter, k2]

/-- A read pass on the recorded interface: every read it makes fits. -/
theorem IPCReadData_reads (os : Win32 ω) (fuel : Nat) (s : IPCController) (w : ω) (r : Bool)
    (s1 : IPCController) (w1 : ω) (log : List Exchange)
    (hrun : IPCReadData (recorded os) fuel s (w, []) = some (r, s1, w1, log)) :
    readsFit none log = true := by
  simp only [IPCReadData] at hrun
  split at hrun
  · simp only [Option.some.injEq, Prod.mk.injEq] at hrun
    obtain ⟨rfl, rfl, rfl, rfl⟩ := hrun
    rfl
  · rcases hq : os.GetMailslotInfo s.mailslot_in w with ⟨q, w2⟩
    cases q with
    | none =>
      simp only [recorded, hq, Option.some.injEq, Prod.mk.injEq] at hrun
      obtain ⟨rfl, rfl, rfl, rfl⟩ := hrun
      rfl
    | some p =>
      obtain ⟨n, c⟩ := p
      simp only [recorded, hq] at hrun
      split at hrun
      · simp only [Option.some.injEq, Prod.mk.injEq] at hrun
        obtain ⟨rfl, rfl, rfl, rfl⟩ := hrun
        rfl
      · obtain ⟨new, k1, k2⟩ := IPCReadData.outer_reads os _ _ _ _ _ _ _ _ _ _ hrun
        rw [k1]
        simp [readsFit, k2]

/-- The heap operations of buffers taken and given back one after the other. -/
theorem heapBlocks_append (l1 l2 : List DWORD) :
    heapBlocks (l1 ++ l2) = heapBlocks l1 ++ heapBlocks l2 := by
  induction l1 with
  | nil => rfl
  | cons n rest ih => simp [heapBlocks, ih]

/-- Forgetting the heap operations, `IPCReadData.innerHeap` is `IPCReadData.inner`; and the
heap operations it adds are one `delete[]` when it gives up with a heap buffer, none
otherwise. -/
theorem IPCReadData.innerHeap_spec (os : Win32 ω) (h : HANDLE) (szNextMsg szMsg : DWORD) :
    ∀ (fuel : Nat) (totalBytes retryCount : Nat) (msgCache : Msg) (w : ω)
      (heap : List HeapEvent),
      (IPCReadData.innerHeap os h szNextMsg szMsg fuel totalBytes retryCount msgCache w
        heap).map (fun r => (r.1, r.2.1)) =
        IPCReadData.inner os h szNextMsg szMsg fuel totalBytes retryCount msgCache w ∧
      ∀ r w1 heap1,
        IPCReadData.innerHeap os h szNextMsg szMsg fuel totalBytes retryCount msgCache w heap
          = some (r, w1, heap1) →
        heap1 = if r = none ∧ szNextMsg > BUFSIZE then heap ++ [HeapEvent.release]
          else heap := by
  intro fuel
  induction fuel with
  | zero =>
    intro totalBytes retryCount msgCache w heap
    simp [IPCReadData.innerHeap, IPCReadData.inner]
  | succ fuel ih =>
    intro totalBytes retryCount msgCache w heap
    simp only [IPCReadData.innerHeap, IPCReadData.inner]
    rcases hread : os.ReadFile h (if szNextMsg > BUFSIZE then szNextMsg else BUFSIZE) szNextMsg w
      with ⟨reply, w2⟩
    cases reply with
    | blocks => simp
    | failed =>
      refine ⟨rfl, ?_⟩
      intro r w1 heap1 hrun
      simp only [Option.some.injEq, Prod.mk.injEq] at hrun
      obtain ⟨rfl, rfl, rfl⟩ := hrun
      simp
    | ok data =>
      simp only
      by_cases hz : data.length = 0
      · simp only [hz, if_true]
        by_cases hlast : retryCount - 1 = 0
        · simp only [hlast, if_true]
          refine ⟨rfl, ?_⟩
          intro r w1 heap1 hrun
          simp only [Option.some.injEq, Prod.mk.injEq] at hrun
          obtain ⟨rfl, rfl, rfl⟩ := hrun
          simp
        · simp only [hlast, if_false]
          by_cases hlt : totalBytes < szMsg
          · simp only [hlt, if_true]
            exact ih _ _ _ _ _
          · simp only [hlt, if_false]
            refine ⟨rfl, ?_⟩
            intro r w1 heap1 hrun
            simp only [Option.some.injEq, Prod.mk.injEq] at hrun
            obtain ⟨rfl, rfl, rfl⟩ := hrun
            simp
      · simp only [hz, if_false]
        by_cases hlt : (totalBytes + data.length) % 2 ^ 32 < szMsg
        · simp only [hlt, if_true]
          exact ih _ _ _ _ _
        · simp only [hlt, if_false]
          refine ⟨rfl, ?_⟩
          intro r w1 heap1 hrun
          simp only [Option.some.injEq, Prod.mk.injEq] at hrun
          obtain ⟨rfl, rfl, rfl⟩ := hrun
          simp

/-- Forgetting the heap operations, `IPCReadData.outerHeap` is `IPCReadData.outer`; and the
heap operations it adds are those of buffers, each longer than `BUFSIZE`, taken and given
back one after the other. -/
theorem IPCReadData.outerHeap_spec (os : Win32 ω) :
    ∀ (fuel : Nat) (szNextMsg szMsg : DWORD) (s : IPCController) (w : ω)
      (heap : List HeapEvent),
      (IPCReadData.outerHeap os fuel szNextMsg szMsg s w heap).map
        (fun r => (r.1, r.2.1, r.2.2.1)) = IPCReadData.outer os fuel szNextMsg szMsg s w ∧
      ∀ r s1 w1 heap1,
        IPCReadData.outerHeap os fuel szNextMsg szMsg s w heap = some (r, s1, w1, heap1) →
        ∃ sizes, heap1 = heap ++ heapBlocks sizes ∧ ∀ n ∈ sizes, BUFSIZE < n := by
  intro fuel
  induction fuel with
  | zero =>
    intro szNextMsg szMsg s w heap
    simp [IPCReadData.outerHeap, IPCReadData.outer]
  | succ fuel ih =>
    intro szNextMsg szMsg s w heap
    simp only [IPCReadData.outerHeap, IPCReadData.outer]
    by_cases hz : szMsg = 0
    · simp only [hz, if_true]
      refine ⟨rfl, ?_⟩
      intro r s1 w1 heap1 hrun
      simp only [Option.some.injEq, Prod.mk.injEq] at hrun
      obtain ⟨rfl, rfl, rfl, rfl⟩ := hrun
      exact ⟨[], by simp [heapBlocks], by simp⟩
    · simp only [hz, if_false]
      obtain ⟨e1, e2⟩ := IPCReadData.innerHeap_spec os s.mailslot_in szNextMsg szMsg fuel 0 4 ""
        w (if szNextMsg > BUFSIZE then heap ++ [HeapEvent.alloc szNextMsg] else heap)
      rw [← e1]
      rcases hin : IPCReadData.innerHeap os s.mailslot_in szNextMsg szMsg fuel 0 4 "" w
        (if szNextMsg > BUFSIZE then heap ++ [HeapEvent.alloc szNextMsg] else heap) with
        _ | ⟨res, w2, heap2⟩
      · simp
      · have hheap := e2 res w2 heap2 hin
        simp only [Option.map_some']
        cases res with
        | none =>
          refine ⟨rfl, ?_⟩
          intro r s1 w1 heap1 hrun
          simp only [Option.some.injEq, Prod.mk.injEq] at hrun
          obtain ⟨rfl, rfl, rfl, rfl⟩ := hrun
          by_cases hb : szNextMsg > BUFSIZE
          · refine ⟨[szNextMsg], ?_, by simpa using hb⟩
            rw [hheap]
            simp [hb, heapBlocks]
          · refine ⟨[], ?_, by simp⟩
            rw [hheap]
            simp [hb, heapBlocks]
        | some msg =>
          have hheap2 : (if szNextMsg > BUFSIZE then heap2 ++ [HeapEvent.release] else heap2) =
              heap ++ heapBlocks (if szNextMsg > BUFSIZE then [szNextMsg] else []) := by
            rw [hheap]
            by_cases hb : szNextMsg > BUFSIZE <;> simp [hb, heapBlocks]
          have hbig : ∀ n ∈ (if szNextMsg > BUFSIZE then [szNextMsg] else []), BUFSIZE < n := by
            intro n hn
            by_cases hb : szNextMsg > BUFSIZE
            · rw [if_pos hb] at hn
              rw [List.mem_singleton.1 hn]
              exact hb
            · rw [if_neg hb] at hn
              cases hn
          simp only
          rcases hq : os.GetMailslotInfo s.mailslot_in w2 with ⟨q, w3⟩
          cases q with
          | none =>
            refine ⟨rfl, ?_⟩
            intro r s1 w1 heap1 hrun
            simp only [Option.some.injEq, Prod.mk.injEq] at hrun
            obtain ⟨rfl, rfl, rfl, rfl⟩ := hrun
            exact ⟨_, hheap2, hbig⟩
          | some p =>
            obtain ⟨n, c⟩ := p
            simp only
            by_cases hno : n = MAILSLOT_NO_MESSAGE
            · simp only [hno, if_true]
              refine ⟨rfl, ?_⟩
              intro r s1 w1 heap1 hrun
              simp only [Option.some.injEq, Prod.mk.injEq] at hrun
              obtain ⟨rfl, rfl, rfl, rfl⟩ := hrun
              exact ⟨_, hheap2, hbig⟩
            · simp only [hno, if_false]
              obtain ⟨k1, k2⟩ := ih n c
                { s with incoming_messages := s.incoming_messages ++ [msg] } w3
                (if szNextMsg > BUFSIZE then heap2 ++ [HeapEvent.release] else heap2)
              refine ⟨k1, ?_⟩
              intro r s1 w1 heap1 hrun
              obtain ⟨sizes, m1, m2⟩ := k2 r s1 w1 heap1 hrun
              refine ⟨(if szNextMsg > BUFSIZE then [szNextMsg] else []) ++ sizes, ?_, ?_⟩
              · rw [m1, hheap2, heapBlocks_append, List.append_assoc]
              · intro x hx
                rcases List.mem_append.1 hx with hx | hx
                · exact hbig x hx
                · exact m2 x hx

/-- Forgetting the heap operations, `IPCReadDataHeap` is `IPCReadData`; and in a pass that
returns, its heap operations are those of buffers, each longer than `BUFSIZE`, taken and
given back one after the other: every buffer taken is released once, none is released
twice, none is left. -/
theorem IPCReadDataHeap_spec (os : Win32 ω) (fuel : Nat) (s : IPCController) (w : ω) :
    (IPCReadDataHeap os fuel s w).map (fun r => (r.1, r.2.1, r.2.2.1)) = IPCReadData os fuel s w ∧
    ∀ r s1 w1 heap, IPCReadDataHeap os fuel s w = some (r, s1, w1, heap) →
      ∃ sizes, heap = heapBlocks sizes ∧ ∀ n ∈ sizes, BUFSIZE < n := by
  cases hv : s.ipc_valid_inbox with
  | false =>
    simp only [IPCReadDataHeap, IPCReadData, hv, Bool.not_false, if_true]
    refine ⟨rfl, ?_⟩
    intro r s1 w1 heap hrun
    simp only [Option.some.injEq, Prod.mk.injEq] at hrun
    exact ⟨[], hrun.2.2.2.symm, by simp⟩
  | true =>
    simp only [IPCReadDataHeap, IPCReadData, hv, Bool.not_true, Bool.false_eq_true, if_false]
    rcases hq : os.GetMailslotInfo s.mailslot_in w with ⟨q, w2⟩
    cases q with
    | none =>
      refine ⟨rfl, ?_⟩
      intro r s1 w1 heap hrun
      simp only [Option.some.injEq, Prod.mk.injEq] at hrun
      exact ⟨[], hrun.2.2.2.symm, by simp⟩
    | some p =>
      obtain ⟨n, c⟩ := p
      simp only
      by_cases hno : n = MAILSLOT_NO_MESSAGE
      · simp only [hno, if_true]
        refine ⟨rfl, ?_⟩
        intro r s1 w1 heap hrun
        simp only [Option.some.injEq, Prod.mk.injEq] at hrun
        exact ⟨[], hrun.2.2.2.symm, by simp⟩
      · simp only [hno, if_false]
        obtain ⟨k1, k2⟩ := IPCReadData.outerHeap_spec os fuel n c s w2 []
        refine ⟨k1, ?_⟩
        intro r s1 w1 heap hrun
        obtain ⟨sizes, m1, m2⟩ := k2 r s1 w1 heap hrun
        exact ⟨sizes, by simpa using m1, m2⟩

/-- C30: in a read pass, with the replies of the transport recorded, every read asks for the
next-message size stored by the latest length query that succeeded, into a buffer that is
the scratch buffer of `BUFSIZE` bytes when that size is at most `BUFSIZE` and a buffer of
exactly that size otherwise, so that no read asks for more bytes than its buffer holds. The
pass with its heap operations recorded is the pass itself, and in a pass that returns, by
whichever exit, the heap operations are those of buffers longer than `BUFSIZE` taken and
given back one after the other: each buffer is released exactly once. -/
theorem read_buffer_fits (os : Win32 ω) (fuel : Nat) (s : IPCController) (w : ω) :
    (∀ r s1 w1 log, IPCReadData (recorded os) fuel s (w, []) = some (r, s1, w1, log) →
      readsFit none log = true ∧
      ∀ cap n reply, Exchange.read cap n reply ∈ log →
        n ≤ cap ∧ cap = (if n > BUFSIZE then n else BUFSIZE)) ∧
    (IPCReadDataHeap os fuel s w).map (fun r => (r.1, r.2.1, r.2.2.1))
      = IPCReadData os fuel s w ∧
    (∀ r s1 w1 heap, IPCReadDataHeap os fuel s w = some (r, s1, w1, heap) →
      ∃ sizes, heap = heapBlocks sizes ∧ ∀ n ∈ sizes, BUFSIZE < n) := by
  refine ⟨?_, (IPCReadDataHeap_spec os fuel s w).1, (IPCReadDataHeap_spec os fuel s w).2⟩
  intro r s1 w1 log hrun
  have hfit := IPCReadData_reads os fuel s w r s1 w1 log hrun
  exact ⟨hfit, readsFit_mem log none hfit⟩

/-- The run of `read_buffer_fits_witness`: one message announced as 5000 bytes long. -/
theorem sampleBulk_run :
    IPCReadData (recorded bulkOS) 3 sampleReader (0, []) =
      some (true, { sampleReader with incoming_messages := ["x"] }, 1,
        [Exchange.query (some (5000, 1)), Exchange.read 5000 5000 (ReadResult.ok "x"),
          Exchange.query (some (MAILSLOT_NO_MESSAGE, 0))]) ∧
    IPCReadDataHeap bulkOS 3 sampleReader 0 =
      some (true, { sampleReader with incoming_messages := ["x"] }, 1,
        [HeapEvent.alloc 5000, HeapEvent.release]) :=
  ⟨rfl, rfl⟩

/-- Witness of C30: a message announced as 5000 bytes long is read with one read of 5000
bytes into a buffer of 5000 bytes, which is taken from the heap and released once. -/
theorem read_buffer_fits_witness :
    (5000 ≤ 5000 ∧ 5000 = (if 5000 > BUFSIZE then 5000 else BUFSIZE)) ∧
    ∃ sizes, [HeapEvent.alloc 5000, HeapEvent.release] = heapBlocks sizes ∧
      ∀ n ∈ sizes, BUFSIZE < n := by
  have h := read_buffer_fits bulkOS 3 sampleReader 0
  exact ⟨(h.1 _ _ _ _ sampleBulk_run.1).2 5000 5000 (ReadResult.ok "x") (by simp),
    h.2.2 _ _ _ _ sampleBulk_run.2⟩

/-! ## Theorems: the pump thread beside the caller's thread -/

/-- The statements of the pump thread from the test of `ipc_inbox_enabled` on, run with no
move of another thread in between, do what the inbox half of a pump iteration does. -/
theorem Channel.inboxStep_statements (os : Win32 ω) (stale : Msg → Msg) (fuel : Nat)
    (s : IPCController) (w : ω) (s1 : IPCController) (w1 : ω)
    (h : IPCHandle.inboxStep os fuel s w = some (s1, w1)) :
    ∃ n, (Channel.run os stale (List.replicate n (Move.pump fuel))
      ⟨s, w, PumpPC.inboxEnabledTest⟩).map (fun r => r.2) =
        some ⟨s1, w1, PumpPC.outboxEnabledTest⟩ := by
  obtain ⟨e1, e2, e3⟩ := IPCHandle.inboxStep_eq os fuel s w
  cases he : s.ipc_inbox_enabled
  · rw [e1 he] at h
    simp only [Option.some.injEq, Prod.mk.injEq] at h
    obtain ⟨rfl, rfl⟩ := h
    exact ⟨1, by simp [List.replicate, Channel.run, Channel.step, Channel.pumpStep, he]⟩
  · cases hv : s.ipc_valid_inbox
    · rw [e3 he hv, InitializeInbox_eq] at h
      have hn : inboxName "" s = s.mailslot_in_str := rfl
      simp only [hn, worldAtInboxBind, hv, Bool.false_eq_true, if_false] at h
      rcases hc : os.CreateMailslot s.mailslot_in_str w with ⟨_ | hd, w2⟩
      · simp only [hc, Bool.false_eq_true, if_false] at h
        obtain ⟨⟨b, s3, w3⟩, hr, heq⟩ := Option.map_eq_some'.1 h
        simp only [Prod.mk.injEq] at heq
        obtain ⟨rfl, rfl⟩ := heq
        refine ⟨8, ?_⟩
        simp [INVALID_HANDLE_VALUE] at hr
        simp [List.replicate, Channel.run, Channel.step, Channel.pumpStep, he, hv, hc,
          INVALID_HANDLE_VALUE, IPCReportError, hr]
      · simp only [hc, if_true] at h
        obtain ⟨⟨b, s3, w3⟩, hr, heq⟩ := Option.map_eq_some'.1 h
        simp only [Prod.mk.injEq] at heq
        obtain ⟨rfl, rfl⟩ := heq
        refine ⟨9, ?_⟩
        simp [List.replicate, Channel.run, Channel.step, Channel.pumpStep, he, hv, hc,
          INVALID_HANDLE_VALUE, hr]
    · rw [e2 he hv] at h
      obtain ⟨⟨b, s3, w3⟩, hr, heq⟩ := Option.map_eq_some'.1 h
      simp only [Prod.mk.injEq] at heq
      obtain ⟨rfl, rfl⟩ := heq
      exact ⟨3, by simp [List.replicate, Channel.run, Channel.step, Channel.pumpStep, he, hv, hr]⟩

/-- The statements of the pump thread from the test of `ipc_outbox_enabled` on, run with no
move of another thread in between, do what the outbox half of a pump iteration does. -/
theorem Channel.outboxStep_statements (os : Win32 ω) (stale : Msg → Msg) (fuel : Nat)
    (s : IPCController) (w : ω) :
    ∃ n, (Channel.run os stale (List.replicate n (Move.pump fuel))
      ⟨s, w, PumpPC.outboxEnabledTest⟩).map (fun r => r.2) =
        some ⟨(IPCHandle.outboxStep os stale s w).1, (IPCHandle.outboxStep os stale s w).2,
          PumpPC.loopTest⟩ := by
  obtain ⟨e1, e2, e3⟩ := IPCHandle.outboxStep_eq os stale s w
  cases he : s.ipc_outbox_enabled
  · rw [e1 he]
    exact ⟨2, by simp [List.replicate, Channel.run, Channel.step, Channel.pumpStep, he]⟩
  · cases hv : s.ipc_valid_outbox
    · rw [e3 he hv, InitializeOutbox_eq]
      have hn : outboxName "" s = s.mailslot_out_str := rfl
      simp only [hn, worldAtOutboxBind, hv, Bool.false_eq_true, if_false]
      rcases hc : os.CreateFile s.mailslot_out_str w with ⟨_ | hd, w2⟩
      · refine ⟨9, ?_⟩
        simp [List.replicate, Channel.run, Channel.step, Channel.pumpStep, he, hv, hc,
          INVALID_HANDLE_VALUE, IPCReportError]
      · refine ⟨10, ?_⟩
        simp [List.replicate, Channel.run, Channel.step, Channel.pumpStep, he, hv, hc,
          INVALID_HANDLE_VALUE]
    · rw [e2 he hv]
      exact ⟨4, by simp [List.replicate, Channel.run, Channel.step, Channel.pumpStep, he, hv]⟩

/-- Two executions made of the same move, one after the other. -/
theorem Channel.run_replicate_add (os : Win32 ω) (stale : Msg → Msg) (mv : Move) (k : Nat) :
    ∀ (n : Nat) (m m1 m2 : Channel ω),
      (Channel.run os stale (List.replicate n mv) m).map (fun r => r.2) = some m1 →
      (Channel.run os stale (List.replicate k mv) m1).map (fun r => r.2) = some m2 →
      (Channel.run os stale (List.replicate (n + k) mv) m).map (fun r => r.2) = some m2 := by
  intro n
  induction n with
  | zero =>
    intro m m1 m2 h1 h2
    simp only [List.replicate, Channel.run, Option.map_some', Option.some.injEq] at h1
    subst h1
    simpa using h2
  | succ n ih =>
    intro m m1 m2 h1 h2
    rw [Nat.add_right_comm]
    simp only [List.replicate, Channel.run] at h1 ⊢
    rcases hs : Channel.step os stale mv m with _ | ⟨r, m3⟩
    · simp [hs] at h1
    · simp only [hs] at h1 ⊢
      have g := ih m3 m1 m2 (by
        rcases hr : Channel.run os stale (List.replicate n mv) m3 with _ | ⟨rs, m4⟩
        · simp [hr] at h1
        · simpa [hr] using h1) h2
      rcases hr : Channel.run os stale (List.replicate (n + k) mv) m3 with _ | ⟨rs, m4⟩
      · simp [hr] at g
      · simpa [hr] using g

/-- One iteration of the loop of `IPCHandle` is the execution of its statements, from the
test of `ipc_inbox_enabled` back to the loop test, with no move of another thread in
between: the operation sequences of `runOps` are the executions of `Channel.run` in which
the caller's thread moves only while the pump thread stands at its loop test. -/
theorem Channel.iteration_statements (os : Win32 ω) (stale : Msg → Msg) (fuel : Nat)
    (s : IPCController) (w : ω) (s1 : IPCController) (w1 : ω)
    (h : IPCHandle.iteration os stale fuel s w = some (s1, w1)) :
    ∃ n, (Channel.run os stale (List.replicate n (Move.pump fuel))
      ⟨s, w, PumpPC.inboxEnabledTest⟩).map (fun r => r.2) = some ⟨s1, w1, PumpPC.loopTest⟩ := by
  simp only [IPCHandle.iteration] at h
  rcases hi : IPCHandle.inboxStep os fuel s w with _ | ⟨s2, w2⟩
  · simp [hi] at h
  · simp only [hi, Option.some.injEq] at h
    obtain ⟨n, hn⟩ := Channel.inboxStep_statements os stale fuel s w s2 w2 hi
    obtain ⟨k, hk⟩ := Channel.outboxStep_statements os stale fuel s2 w2
    rw [h] at hk
    exact ⟨n + k, Channel.run_replicate_add os stale _ k n _ _ _ hn hk⟩

end LibWinService
